import Mathlib

/-!
# GAMER: the CTU fluid solver driver, its transverse-gradient correction, and the particle check

A shallow embedding of `src/Model_Hydro/CPU_Hydro/CPU_FluidSolver_CTU.cpp` and of
`src/Particle/Par_Aux_Check_Particle.cpp`.

* `real` is modelled by exact rational arithmetic (`ℚ`): rounding is abstracted away.
* C `int` values are modelled by `Int` (the cell indices stay far below the `int` range,
  `N_FC_VAR` being a small build constant); loop counters that only count upwards from zero
  (`d`, `f`, `v`, the face and direction numbers) are `Nat`.
* An array `real A[][NCOMP_TOTAL][CUBE(N)]` is a total function of its three indices
  (first index, component, cell); writing one entry is a pointwise update.
* Build constants that live in headers outside the sources (`N_FC_VAR`, `NCOMP_PASSIVE`,
  `TINY_NUMBER`) are the fields of `Build`; the energy floor helper, which is only declared
  in the sources, is a function parameter of the kernel.
* The driver runs the loop body on one patch group after another; the three stages it calls
  besides the kernel are declared but not defined in the sources and are the fields of
  `Stages`. A non-const array argument is passed with its current content and returned.
  Every call the driver makes goes through a `call_` definition that applies the callee to
  its arguments and appends those same arguments to the record of calls.
* `Par_Aux_Check_Particle` is the loop over the target ranks on the local variables of all
  ranks: the target rank runs its checks on its own data, then `MPI_Bcast` copies its `PassAll`
  and `PassCheck` to every rank. The messages it prints are not modelled, except for which
  rank prints the final one.
-/

namespace Gamer

/-! ## The embedding of the source -/

/-- The floating-point type `real`, in exact arithmetic. -/
abbrev real := ℚ

/-- Arrays `real A[][NCOMP_TOTAL][CUBE(N)]`: first index (face or direction), component, cell. -/
abbrev FCArray := Nat → Nat → Int → real

/-- The local array `real fc_var[2][NCOMP_TOTAL]` (0/1 = left/right faces). -/
abbrev LocalVar := Nat → Nat → real

/-- Signature of `Hydro_CheckMinPresInEngy( Dens, MomX, MomY, MomZ, Engy, Gamma_m1, _Gamma_m1,
MinPres )`. -/
abbrev EngyFloor := real → real → real → real → real → real → real → real → real

/-- Build-time constants taken from headers that are not part of the sources. -/
structure Build where
  /-- Number of cells of `FC_Var[]` (and `FC_Flux[]`) in each direction. -/
  N_FC_VAR : Int
  /-- Number of passive scalars. -/
  NCOMP_PASSIVE : Nat
  /-- Floor of the passive scalars. -/
  TINY_NUMBER : real

/-- Number of fluid components; the kernel addresses them by the literal indices 0..4. -/
def NCOMP_FLUID : Nat := 5

/-- Total number of components, `NCOMP_FLUID + NCOMP_PASSIVE`. -/
def Build.NCOMP_TOTAL (B : Build) : Nat := NCOMP_FLUID + B.NCOMP_PASSIVE

/-- The macro `SQR( a )`. -/
def SQR (a : Int) : Int := a * a

/-- The macro `CUBE( a )`. -/
def CUBE (a : Int) : Int := a * a * a

/-- The macro `IDX321( i, j, k, Ni, Nj )`, the row-major cell index with `i` running fastest:
the layout for which `didx[3] = { 1, NCell, SQR(NCell) }` are the strides of `i`, `j`, `k`. -/
def IDX321 (i j k Ni Nj : Int) : Int := (k * Nj + j) * Ni + i

/-- The macro `FMAX( a, b )`. -/
def FMAX (a b : real) : real := max a b

/-- The table `didx[3] = { 1, NCell, SQR(NCell) }`. -/
def didx (NCell : Int) : Nat → Int
  | 0 => 1
  | 1 => NCell
  | _ => SQR NCell

/-- The table `gap[3]` filled by `switch ( d )`; entries that the switch leaves unset read 0. -/
def gap : Nat → Nat → Int
  | 0, 0 => 0
  | 0, 1 => 1
  | 0, 2 => 1
  | 1, 0 => 1
  | 1, 1 => 0
  | 1, 2 => 1
  | 2, 0 => 1
  | 2, 1 => 1
  | 2, 2 => 0
  | _, _ => 0

/-- Transverse direction 1, `(d+1)%3`. -/
def TDir1 (d : Nat) : Nat := (d + 1) % 3

/-- Transverse direction 2, `(d+2)%3`. -/
def TDir2 (d : Nat) : Nat := (d + 2) % 3

/-- The local `size_i = NCell - 2*gap[0]`. -/
def size_i (NCell : Int) (d : Nat) : Int := NCell - 2 * gap d 0

/-- The local `size_ij = ( NCell - 2*gap[1] )*size_i`. -/
def size_ij (NCell : Int) (d : Nat) : Int := (NCell - 2 * gap d 1) * size_i NCell d

/-- The local `i_var = gap[0] + idx % size_i` (C remainder truncates towards zero). -/
def i_var (NCell : Int) (d : Nat) (idx : Int) : Int := gap d 0 + Int.tmod idx (size_i NCell d)

/-- The local `j_var = gap[1] + idx % size_ij / size_i`. -/
def j_var (NCell : Int) (d : Nat) (idx : Int) : Int :=
  gap d 1 + Int.tdiv (Int.tmod idx (size_ij NCell d)) (size_i NCell d)

/-- The local `k_var = gap[2] + idx / size_ij`. -/
def k_var (NCell : Int) (d : Nat) (idx : Int) : Int := gap d 2 + Int.tdiv idx (size_ij NCell d)

/-- The local `idx_var = IDX321( i_var, j_var, k_var, NCell, NCell )`. -/
def idx_var (NCell : Int) (d : Nat) (idx : Int) : Int :=
  IDX321 (i_var NCell d idx) (j_var NCell d idx) (k_var NCell d idx) NCell NCell

/-- The number of iterations of `CGPU_LOOP( idx, NCell*SQR(NCell-2) )`. -/
def NIter (NCell : Int) : Nat := (NCell * SQR (NCell - 2)).toNat

/-- Assignment `fc_var[f][v] = x`. -/
def setLocal (a : LocalVar) (f v : Nat) (x : real) : LocalVar :=
  fun f' v' => if f' = f ∧ v' = v then x else a f' v'

/-- Assignment `A[f][v][c] = x`. -/
def setFC (A : FCArray) (f v : Nat) (c : Int) (x : real) : FCArray :=
  fun f' v' c' => if f' = f ∧ v' = v ∧ c' = c then x else A f' v' c'

/-- The two arrays the kernel works on. -/
structure Mem where
  /-- Face-centered conserved variables, `FC_Var[6][NCOMP_TOTAL][CUBE(N_FC_VAR)]`. -/
  FC_Var : FCArray
  /-- Face-centered fluxes, `FC_Flux[3][NCOMP_TOTAL][CUBE(N_FC_FLUX)]`. -/
  FC_Flux : FCArray

/-- First `v` loop of an iteration: load `FC_Var[]` to the local `fc_var[]`. -/
def TGC_load (B : Build) (FC_Var : FCArray) (faceL faceR : Nat) (idx_var : Int)
    (fc_var : LocalVar) : LocalVar :=
  (List.range B.NCOMP_TOTAL).foldl
    (fun fc v => setLocal (setLocal fc 0 v (FC_Var faceL v idx_var)) 1 v (FC_Var faceR v idx_var))
    fc_var

/-- Second `v` loop: add `Correct = -dt_dh2*( TGrad1 + TGrad2 )` to both faces. -/
def TGC_correct (B : Build) (FC_Flux : FCArray) (T1 T2 : Nat)
    (idx_fluxR idx_fluxL1 idx_fluxL2 : Int) (dt_dh2 : real) (fc_var : LocalVar) : LocalVar :=
  (List.range B.NCOMP_TOTAL).foldl
    (fun fc v =>
      let TGrad1 := FC_Flux T1 v idx_fluxR - FC_Flux T1 v idx_fluxL1
      let TGrad2 := FC_Flux T2 v idx_fluxR - FC_Flux T2 v idx_fluxL2
      let Correct := -dt_dh2 * (TGrad1 + TGrad2)
      let fc0 := setLocal fc 0 v (fc 0 v + Correct)
      setLocal fc0 1 v (fc0 1 v + Correct))
    fc_var

/-- The `f` loop: ensure positive density and pressure (and passive scalars) on each face. -/
def TGC_floor (B : Build) (CheckMinPresInEngy : EngyFloor)
    (Gamma_m1 _Gamma_m1 MinDens MinPres : real) (fc_var : LocalVar) : LocalVar :=
  (List.range 2).foldl
    (fun fc f =>
      let fc1 := setLocal fc f 0 (FMAX (fc f 0) MinDens)
      let fc2 := setLocal fc1 f 4
        (CheckMinPresInEngy (fc1 f 0) (fc1 f 1) (fc1 f 2) (fc1 f 3) (fc1 f 4)
          Gamma_m1 _Gamma_m1 MinPres)
      (List.range' NCOMP_FLUID B.NCOMP_PASSIVE).foldl
        (fun fc3 v => setLocal fc3 f v (FMAX (fc3 f v) B.TINY_NUMBER)) fc2)
    fc_var

/-- Last `v` loop: store the results to `FC_Var[]`. -/
def TGC_store (B : Build) (faceL faceR : Nat) (idx_var : Int) (fc_var : LocalVar)
    (FC_Var : FCArray) : FCArray :=
  (List.range B.NCOMP_TOTAL).foldl
    (fun A v => setFC (setFC A faceL v idx_var (fc_var 0 v)) faceR v idx_var (fc_var 1 v))
    FC_Var

/-- The local `fc_var[]` of an iteration after the load and the correction loops, that is, the
face values before flooring. -/
def TGC_prefloor (B : Build) (dt dh : real) (d : Nat) (s : Mem × LocalVar) (idx : Nat) :
    LocalVar :=
  let NCell := B.N_FC_VAR
  let dt_dh2 := (1 / 2 : real) * dt / dh
  let faceL := 2 * d
  let faceR := faceL + 1
  let idx_fluxR := idx_var NCell d idx
  let idx_fluxL1 := idx_fluxR - didx NCell (TDir1 d)
  let idx_fluxL2 := idx_fluxR - didx NCell (TDir2 d)
  let fc1 := TGC_load B s.1.FC_Var faceL faceR (idx_var NCell d idx) s.2
  TGC_correct B s.1.FC_Flux (TDir1 d) (TDir2 d) idx_fluxR idx_fluxL1 idx_fluxL2 dt_dh2 fc1

/-- One iteration of `CGPU_LOOP( idx, NCell*SQR(NCell-2) )` in the pass of direction `d`.
The state is the memory together with the local `fc_var[]`, which is declared outside the
loop and therefore survives from one iteration to the next. -/
def TGC_iter (B : Build) (CheckMinPresInEngy : EngyFloor)
    (dt dh Gamma_m1 _Gamma_m1 MinDens MinPres : real) (d : Nat)
    (s : Mem × LocalVar) (idx : Nat) : Mem × LocalVar :=
  let faceL := 2 * d
  let faceR := faceL + 1
  let fc2 := TGC_prefloor B dt dh d s idx
  let fc3 := TGC_floor B CheckMinPresInEngy Gamma_m1 _Gamma_m1 MinDens MinPres fc2
  ({ s.1 with FC_Var := TGC_store B faceL faceR (idx_var B.N_FC_VAR d idx) fc3 s.1.FC_Var }, fc3)

/-- The content of a local array at its declaration; no entry is read before it is written. -/
def uninit : LocalVar := fun _ _ => 0

/-- The pass of one direction `d`: the body of `for (int d=0; d<3; d++)`. -/
def TGC_dir (B : Build) (CheckMinPresInEngy : EngyFloor)
    (dt dh Gamma_m1 _Gamma_m1 MinDens MinPres : real) (m : Mem) (d : Nat) : Mem :=
  ((List.range (NIter B.N_FC_VAR)).foldl
    (TGC_iter B CheckMinPresInEngy dt dh Gamma_m1 _Gamma_m1 MinDens MinPres d) (m, uninit)).1

/-- The kernel `Hydro_TGradient_Correction( FC_Var, FC_Flux, dt, dh, Gamma_m1, _Gamma_m1,
MinDens, MinPres )`, returning the memory it leaves behind. -/
def Hydro_TGradient_Correction (B : Build) (CheckMinPresInEngy : EngyFloor)
    (FC_Var FC_Flux : FCArray) (dt dh Gamma_m1 _Gamma_m1 MinDens MinPres : real) : Mem :=
  (List.range 3).foldl
    (TGC_dir B CheckMinPresInEngy dt dh Gamma_m1 _Gamma_m1 MinDens MinPres)
    { FC_Var := FC_Var, FC_Flux := FC_Flux }

/-- Modelled from the spec: `Hydro_CheckMinPresInEngy` is declared in the sources but defined
elsewhere. Spec §4.5: it "computes the pressure implied by the input energy, and if it is below
the floor, returns the energy that would yield exactly the floor pressure at the given density
and momentum, otherwise returns the input unchanged". -/
def Hydro_CheckMinPresInEngy : EngyFloor :=
  fun Dens MomX MomY MomZ Engy Gamma_m1 _Gamma_m1 MinPres =>
    let Ek := (MomX ^ 2 + MomY ^ 2 + MomZ ^ 2) / (2 * Dens)
    let InPres := Gamma_m1 * (Engy - Ek)
    if InPres < MinPres then Ek + _Gamma_m1 * MinPres else Engy

/-- Arrays `real A[][CUBE(N)]` of one patch group: component, cell. -/
abbrev Block := Nat → Int → real

/-- The dual-energy status `char DE_Status[]` of one patch group. -/
abbrev DEStatus := Int → Int

/-- The gravity selector `OptGravityType_t`. The driver names `GRAVITY_NONE`; the other three
values are the selector of spec §4.2 (self-gravity / external / both). -/
inductive OptGravityType_t where
  | GRAVITY_NONE
  | GRAVITY_SELF
  | GRAVITY_EXTERNAL
  | GRAVITY_BOTH

/-- Build-time switches and constants the driver reads. -/
structure DriverBuild where
  /-- Whether `UNSPLIT_GRAVITY` is defined. -/
  UNSPLIT_GRAVITY : Bool
  /-- Whether `LR_SCHEME == PPM`. -/
  LR_SCHEME_PPM : Bool
  /-- Cells per direction of the input block. -/
  FLU_NXT : Int
  /-- Number of ghost cells of the input block. -/
  FLU_GHOST_SIZE : Int
  /-- The placeholder `NULL_REAL`. -/
  NULL_REAL : real

/-- The scalar arguments of `CPU_FluidSolver_CTU` (the caller's configuration). -/
structure Params where
  dt : real
  dh : real
  Gamma : real
  StoreFlux : Bool
  LR_Limiter : Int
  MinMod_Coeff : real
  Time : real
  GravityType : OptGravityType_t
  ExtAcc_AuxArray : Nat → real
  MinDens : real
  MinPres : real
  DualEnergySwitch : real
  NormPassive : Bool
  NNorm : Int
  NormIdx : Nat → Int
  JeansMinPres : Bool
  JeansMinPres_Coeff : real

/-- The scalar arguments of `Hydro_DataReconstruction`, in the order of its declaration. -/
structure ReconArgs where
  Con2Pri : Bool
  NIn : Int
  NGhost : Int
  Gamma : real
  LR_Limiter : Int
  MinMod_Coeff : real
  dt : real
  dh : real
  MinDens : real
  MinPres : real
  NormPassive : Bool
  NNorm : Int
  NormIdx : Nat → Int
  JeansMinPres : Bool
  JeansMinPres_Coeff : real

/-- The arguments of `Hydro_ComputeFlux` other than the three arrays `FC_Var`, `FC_Flux`,
`IntFlux`, in the order of its declaration; a `NULL` pointer is `none`. -/
structure FluxArgs where
  Gap : Int
  Gamma : real
  CorrHalfVel : Bool
  Pot_USG : Option (Int → real)
  Corner : Option (Nat → real)
  dt : real
  dh : real
  Time : real
  GravityType : OptGravityType_t
  ExtAcc_AuxArray : Option (Nat → real)
  MinPres : real
  DumpIntFlux : Bool

/-- The scalar arguments of `Hydro_FullStepUpdate`, in the order of its declaration. -/
structure UpdateArgs where
  dt : real
  dh : real
  Gamma_m1 : real
  _Gamma_m1 : real
  MinDens : real
  MinPres : real
  DualEnergySwitch : real
  NormPassive : Bool
  NNorm : Int
  NormIdx : Nat → Int

/-- What `Hydro_DataReconstruction` leaves in its three non-const arrays. -/
structure ReconOut where
  PriVar : Block
  FC_Var : FCArray
  Slope_PPM : Option FCArray

/-- What `Hydro_ComputeFlux` leaves in its two non-const arrays. -/
structure FluxOut where
  FC_Flux : FCArray
  IntFlux : FCArray

/-- What `Hydro_FullStepUpdate` leaves in its two non-const arrays. -/
structure UpdateOut where
  Output : Block
  DE_Status : DEStatus

/-- The external functions of the driver, which the file declares but does not define. A
const array is an input; a non-const array is passed in with its current content and comes
back in the result. -/
structure Stages where
  /-- `Hydro_DataReconstruction( ConVar, PriVar, FC_Var, Slope_PPM, ... )`. -/
  Hydro_DataReconstruction : Block → Block → FCArray → Option FCArray → ReconArgs → ReconOut
  /-- `Hydro_ComputeFlux( FC_Var, FC_Flux, ..., IntFlux )`; `IntFlux` is `none` for `NULL`. -/
  Hydro_ComputeFlux : FCArray → FCArray → FluxArgs → Option FCArray → FluxOut
  /-- `Hydro_FullStepUpdate( Input, Output, DE_Status, Flux, ... )`. -/
  Hydro_FullStepUpdate : Block → Block → DEStatus → FCArray → UpdateArgs → UpdateOut
  /-- `Hydro_CheckMinPresInEngy( ... )`. -/
  Hydro_CheckMinPresInEngy : EngyFloor

/-- A record of one call made by the driver: the callee, the patch group whose slices are
passed (if any) and the scalar arguments. -/
inductive Call where
  | DataReconstruction (P : Nat) (a : ReconArgs)
  | ComputeFlux (a : FluxArgs) (IntFlux : Option Nat)
  | TGradient_Correction (dt dh Gamma_m1 _Gamma_m1 MinDens MinPres : real)
  | FullStepUpdate (P : Nat) (a : UpdateArgs)

/-- The memory seen by one worker: its scratch arrays, the output arrays of the caller, and
the record of the calls made so far. -/
structure Worker where
  FC_Var_1PG : FCArray
  FC_Flux_1PG : FCArray
  PriVar_1PG : Block
  Slope_PPM_1PG : Option FCArray
  Flu_Array_Out : Nat → Block
  DE_Array_Out : Nat → DEStatus
  Flux_Array : Nat → FCArray
  calls : List Call

/-- Arguments of the call of stage 1. -/
def reconArgs (DB : DriverBuild) (prm : Params) : ReconArgs :=
  { Con2Pri := true, NIn := DB.FLU_NXT, NGhost := DB.FLU_GHOST_SIZE - 1, Gamma := prm.Gamma,
    LR_Limiter := prm.LR_Limiter, MinMod_Coeff := prm.MinMod_Coeff, dt := prm.dt, dh := prm.dh,
    MinDens := prm.MinDens, MinPres := prm.MinPres, NormPassive := prm.NormPassive,
    NNorm := prm.NNorm, NormIdx := prm.NormIdx, JeansMinPres := prm.JeansMinPres,
    JeansMinPres_Coeff := prm.JeansMinPres_Coeff }

/-- Arguments of the call of stage 2 (half-step fluxes). -/
def halfStepArgs (DB : DriverBuild) (prm : Params) : FluxArgs :=
  { Gap := 0, Gamma := prm.Gamma, CorrHalfVel := false, Pot_USG := none, Corner := none,
    dt := DB.NULL_REAL, dh := DB.NULL_REAL, Time := DB.NULL_REAL,
    GravityType := OptGravityType_t.GRAVITY_NONE, ExtAcc_AuxArray := none,
    MinPres := prm.MinPres, DumpIntFlux := false }

/-- Arguments of the call of stage 4 (full-step fluxes), in either build. -/
def fullStepArgs (DB : DriverBuild) (prm : Params) (Pot_USG : Int → real) (Corner : Nat → real) :
    FluxArgs :=
  if DB.UNSPLIT_GRAVITY then
    { Gap := 1, Gamma := prm.Gamma, CorrHalfVel := true, Pot_USG := some Pot_USG,
      Corner := some Corner, dt := prm.dt, dh := prm.dh, Time := prm.Time,
      GravityType := prm.GravityType, ExtAcc_AuxArray := some prm.ExtAcc_AuxArray,
      MinPres := prm.MinPres, DumpIntFlux := prm.StoreFlux }
  else
    { Gap := 1, Gamma := prm.Gamma, CorrHalfVel := false, Pot_USG := none, Corner := none,
      dt := DB.NULL_REAL, dh := DB.NULL_REAL, Time := DB.NULL_REAL,
      GravityType := OptGravityType_t.GRAVITY_NONE, ExtAcc_AuxArray := none,
      MinPres := prm.MinPres, DumpIntFlux := prm.StoreFlux }

/-- Arguments of the call of stage 5. -/
def updateArgs (prm : Params) : UpdateArgs :=
  { dt := prm.dt, dh := prm.dh, Gamma_m1 := prm.Gamma - 1, _Gamma_m1 := 1 / (prm.Gamma - 1),
    MinDens := prm.MinDens, MinPres := prm.MinPres, DualEnergySwitch := prm.DualEnergySwitch,
    NormPassive := prm.NormPassive, NNorm := prm.NNorm, NormIdx := prm.NormIdx }

/-- The call `Hydro_DataReconstruction( Flu_Array_In[P], PriVar, FC_Var, Slope_PPM, ... )`:
the callee applied to the arguments, and the record of the call made of the same arguments. -/
def call_DataReconstruction (S : Stages) (Flu_Array_In : Nat → Block) (P : Nat)
    (PriVar : Block) (FC_Var : FCArray) (Slope_PPM : Option FCArray) (a : ReconArgs)
    (calls : List Call) : ReconOut × List Call :=
  (S.Hydro_DataReconstruction (Flu_Array_In P) PriVar FC_Var Slope_PPM a,
    calls ++ [Call.DataReconstruction P a])

/-- The call `Hydro_ComputeFlux( FC_Var, FC_Flux, ..., IntFlux )`, where `IntFlux` is `NULL`
(`none`) or the slice `Flux_Array[P]` (`some P`): the callee applied to the arguments, and the
record of the call made of the same arguments. -/
def call_ComputeFlux (S : Stages) (FC_Var FC_Flux : FCArray) (a : FluxArgs)
    (Flux_Array : Nat → FCArray) (IntFlux : Option Nat) (calls : List Call) :
    FluxOut × List Call :=
  (S.Hydro_ComputeFlux FC_Var FC_Flux a (IntFlux.map Flux_Array),
    calls ++ [Call.ComputeFlux a IntFlux])

/-- The call `Hydro_TGradient_Correction( FC_Var, FC_Flux, dt, dh, Gamma_m1, _Gamma_m1,
MinDens, MinPres )` and its record. -/
def call_TGradient_Correction (S : Stages) (B : Build) (FC_Var FC_Flux : FCArray)
    (dt dh Gamma_m1 _Gamma_m1 MinDens MinPres : real) (calls : List Call) :
    Mem × List Call :=
  (Hydro_TGradient_Correction B S.Hydro_CheckMinPresInEngy FC_Var FC_Flux dt dh Gamma_m1
      _Gamma_m1 MinDens MinPres,
    calls ++ [Call.TGradient_Correction dt dh Gamma_m1 _Gamma_m1 MinDens MinPres])

/-- The call `Hydro_FullStepUpdate( Flu_Array_In[P], Flu_Array_Out[P], DE_Array_Out[P], Flux,
... )` and its record. -/
def call_FullStepUpdate (S : Stages) (Flu_Array_In Flu_Array_Out : Nat → Block)
    (DE_Array_Out : Nat → DEStatus) (P : Nat) (Flux : FCArray) (a : UpdateArgs)
    (calls : List Call) : UpdateOut × List Call :=
  (S.Hydro_FullStepUpdate (Flu_Array_In P) (Flu_Array_Out P) (DE_Array_Out P) Flux a,
    calls ++ [Call.FullStepUpdate P a])

/-- The body of `for (int P=0; P<NPatchGroup; P++)`: the five stages on patch group `P`. Each
call returns what the callee leaves in its non-const arrays together with the record of calls
extended by this call. -/
def CTU_body (S : Stages) (DB : DriverBuild) (B : Build) (prm : Params)
    (Flu_Array_In : Nat → Block) (Corner_Array : Nat → Nat → real)
    (Pot_Array_USG : Nat → Int → real) (w : Worker) (P : Nat) : Worker :=
  let Gamma_m1 := prm.Gamma - 1
  let _Gamma_m1 := 1 / Gamma_m1
  -- 1. evaluate the face-centered values at the half time-step
  let r := call_DataReconstruction S Flu_Array_In P w.PriVar_1PG w.FC_Var_1PG
    w.Slope_PPM_1PG (reconArgs DB prm) w.calls
  -- 2. evaluate the face-centered half-step fluxes
  let h := call_ComputeFlux S r.1.FC_Var w.FC_Flux_1PG (halfStepArgs DB prm) w.Flux_Array
    none r.2
  -- 3. correct the face-centered variables by the transverse flux gradients
  let m := call_TGradient_Correction S B r.1.FC_Var h.1.FC_Flux prm.dt prm.dh Gamma_m1
    _Gamma_m1 prm.MinDens prm.MinPres h.2
  -- 4. evaluate the face-centered full-step fluxes with the corrected data
  let g := call_ComputeFlux S m.1.FC_Var m.1.FC_Flux
    (fullStepArgs DB prm (Pot_Array_USG P) (Corner_Array P)) w.Flux_Array (some P) m.2
  -- 5. full-step evolution
  let u := call_FullStepUpdate S Flu_Array_In w.Flu_Array_Out w.DE_Array_Out P g.1.FC_Flux
    (updateArgs prm) g.2
  { FC_Var_1PG := m.1.FC_Var
    FC_Flux_1PG := g.1.FC_Flux
    PriVar_1PG := r.1.PriVar
    Slope_PPM_1PG := r.1.Slope_PPM
    Flu_Array_Out := Function.update w.Flu_Array_Out P u.1.Output
    DE_Array_Out := Function.update w.DE_Array_Out P u.1.DE_Status
    Flux_Array := Function.update w.Flux_Array P g.1.IntFlux
    calls := u.2 }

/-- One worker (an OpenMP thread) running the loop body on the patch groups `Ps` it is handed,
in that order, with the same scratch arrays throughout. -/
def CTU_worker (S : Stages) (DB : DriverBuild) (B : Build) (prm : Params)
    (Flu_Array_In : Nat → Block) (Corner_Array : Nat → Nat → real)
    (Pot_Array_USG : Nat → Int → real) (Ps : List Nat) (w : Worker) : Worker :=
  Ps.foldl (CTU_body S DB B prm Flu_Array_In Corner_Array Pot_Array_USG) w

/-- The driver `CPU_FluidSolver_CTU` executed by a single worker: the scratch arrays are
allocated (their first content `scratch` is arbitrary, `Slope_PPM_1PG` is `NULL` unless
`LR_SCHEME == PPM`) and the loop runs over `P = 0 .. NPatchGroup-1`. The output arrays enter
with their current content. -/
def CPU_FluidSolver_CTU (S : Stages) (DB : DriverBuild) (B : Build)
    (Flu_Array_In : Nat → Block) (Flu_Array_Out : Nat → Block) (DE_Array_Out : Nat → DEStatus)
    (Flux_Array : Nat → FCArray) (Corner_Array : Nat → Nat → real)
    (Pot_Array_USG : Nat → Int → real) (NPatchGroup : Int) (prm : Params)
    (scratch : FCArray × FCArray × Block × FCArray) : Worker :=
  CTU_worker S DB B prm Flu_Array_In Corner_Array Pot_Array_USG (List.range NPatchGroup.toNat)
    { FC_Var_1PG := scratch.1
      FC_Flux_1PG := scratch.2.1
      PriVar_1PG := scratch.2.2.1
      Slope_PPM_1PG := if DB.LR_SCHEME_PPM then some scratch.2.2.2 else none
      Flu_Array_Out := Flu_Array_Out
      DE_Array_Out := DE_Array_Out
      Flux_Array := Flux_Array
      calls := [] }

/-- The fields of a patch `amr->patch[0][lv][PID]` that `Par_Aux_Check_Particle` reads. -/
structure patch_t where
  /-- Number of particles listed in the patch. -/
  NPar : Int
  /-- Index of the son patch, `-1` for a leaf patch. -/
  son : Int
  /-- Left edge of the patch in the three dimensions. -/
  EdgeL : Nat → real
  /-- Right edge of the patch in the three dimensions. -/
  EdgeR : Nat → real
  /-- The particle IDs listed in the patch. -/
  ParList : Nat → Int

/-- The fields of the particle repository `amr->Par` that the check reads. -/
structure Particle_t where
  NPar : Int
  NPar_Active : Int
  NPar_Inactive : Int
  Mass : Int → real
  PosX : Int → real
  PosY : Int → real
  PosZ : Int → real

/-- The part of `amr` (and of the build constant `NLEVEL`) the check reads on one rank. -/
structure AMR_t where
  /-- Number of refinement levels. -/
  NLEVEL : Nat
  /-- `amr->NPatchComma[lv][.]`; entry 1 is the number of real patches of the level. -/
  NPatchComma : Nat → Nat → Int
  /-- `amr->patch[0][lv][PID]`. -/
  patch : Nat → Nat → patch_t
  /-- `amr->Par`. -/
  Par : Particle_t

/-- The local array `ParPos[3] = { PosX, PosY, PosZ }`. -/
def ParPos (Par : Particle_t) (d : Nat) : Int → real :=
  match d with
  | 0 => Par.PosX
  | 1 => Par.PosY
  | _ => Par.PosZ

/-- The local variables of `Par_Aux_Check_Particle` that carry the result of the check. The
messages written to `stderr` are not modelled. -/
structure CheckState where
  /-- `int PassAll`. -/
  PassAll : Bool
  /-- `long NParInLeaf`. -/
  NParInLeaf : Int
  /-- `bool *ParHome`: true/false = particle has home/is homeless. -/
  ParHome : Int → Bool
  /-- `int PassCheck[NCheck]`. -/
  PassCheck : Nat → Bool

/-- The statements run when check `k+1` fails:
`if ( PassAll ) { ...; PassAll = false; }  if ( PassCheck[k] ) { ...; PassCheck[k] = false; }`. -/
def report (k : Nat) (s : CheckState) : CheckState :=
  let s1 := if s.PassAll then { s with PassAll := false } else s
  if s1.PassCheck k then { s1 with PassCheck := Function.update s1.PassCheck k false } else s1

/-- The body of `for (int p=0; p<NPar; p++)` in a leaf patch: checks 5, 1 and 4 of the
particle `ParList[p]`. -/
def checkParticle (Par : Particle_t) (pt : patch_t) (s : CheckState) (p : Nat) : CheckState :=
  let ParID := pt.ParList p
  -- Check 5: one particle should has only one home patch
  let s1 :=
    if s.ParHome ParID = true then report 4 s
    else { s with ParHome := Function.update s.ParHome ParID true }
  -- Check 1: for (int d=0; d<3; d++)
  let s2 := (List.range 3).foldl
    (fun s d =>
      if ParPos Par d ParID < pt.EdgeL d ∨ ParPos Par d ParID ≥ pt.EdgeR d then report 0 s else s)
    s1
  -- Check 4: no active particles should have mass < 0.0
  if Par.Mass ParID < 0 then report 3 s2 else s2

/-- The body of the loop over the real patches, for the patch `pt`. -/
def checkPatch (Par : Particle_t) (s : CheckState) (pt : patch_t) : CheckState :=
  let NPar := pt.NPar
  if pt.son = -1 then
    -- count the number of particles in the leaf patches
    let s1 := { s with NParInLeaf := s.NParInLeaf + NPar }
    (List.range NPar.toNat).foldl (checkParticle Par pt) s1
  -- Check 2: particles should only reside in the leaf patches
  else if NPar ≠ 0 then report 1 s
  else s

/-- The block `if ( MPI_Rank == TargetRank ) { ... }`: the checks of one rank on its own data. -/
def checkRank (amr : AMR_t) (s : CheckState) : CheckState :=
  -- loop over all "real" patches
  let s1 := (List.range amr.NLEVEL).foldl
    (fun s lv =>
      (List.range (amr.NPatchComma lv 1).toNat).foldl
        (fun s PID => checkPatch amr.Par s (amr.patch lv PID)) s)
    s
  -- Check 3: check the total number of active particles
  let s2 := if s1.NParInLeaf ≠ amr.Par.NPar_Active then report 2 s1 else s1
  -- Check 6: check if any active particle is homeless
  let s3 := (List.range amr.Par.NPar.toNat).foldl
    (fun s (p : Nat) => if amr.Par.Mass p ≥ 0 ∧ s.ParHome p = false then report 5 s else s)
    s2
  -- Check 7: consistency of the number of particles
  if amr.Par.NPar_Active + amr.Par.NPar_Inactive ≠ amr.Par.NPar then report 6 s3 else s3

/-- The local variables at the start: `PassAll = true`, `NParInLeaf = 0`, every `ParHome[p]`
false, every `PassCheck[t]` true. -/
def initState : CheckState :=
  { PassAll := true, NParInLeaf := 0, ParHome := fun _ => false, PassCheck := fun _ => true }

/-- One pass of `for (int TargetRank=0; TargetRank<MPI_NRank; TargetRank++)`, on the local
variables of all ranks: the target rank runs its checks, then `MPI_Bcast` copies its `PassAll`
and `PassCheck` to every rank. -/
def rankStep (amr : Nat → AMR_t) (st : Nat → CheckState) (TargetRank : Nat) :
    Nat → CheckState :=
  fun MPI_Rank =>
    if MPI_Rank = TargetRank then checkRank (amr TargetRank) (st TargetRank)
    else
      { st MPI_Rank with
        PassAll := (checkRank (amr TargetRank) (st TargetRank)).PassAll
        PassCheck := (checkRank (amr TargetRank) (st TargetRank)).PassCheck }

/-- The function `Par_Aux_Check_Particle` run by `MPI_NRank` ranks, rank `r` holding the data
`amr r`: the local variables of every rank after the loop over the target ranks. -/
def Par_Aux_Check_Particle (MPI_NRank : Nat) (amr : Nat → AMR_t) : Nat → CheckState :=
  (List.range MPI_NRank).foldl (rankStep amr) (fun _ => initState)

/-- What a rank does after the loop. -/
inductive Outcome where
  /-- The branch `if ( PassAll )`; the message is printed `if ( MPI_Rank == 0 )`. -/
  | PASSED (message : Bool)
  /-- The branch `else MPI_Exit();`. -/
  | MPI_Exit

/-- The final `if ( PassAll ) { if ( MPI_Rank == 0 ) Aux_Message( ... PASSED ... ); }
else MPI_Exit();` of a rank. -/
def outcome (MPI_Rank : Nat) (s : CheckState) : Outcome :=
  if s.PassAll then Outcome.PASSED (decide (MPI_Rank = 0)) else Outcome.MPI_Exit

/-! ## Vocabulary of the statements -/

/-- Flooring of one face state, as a function of the corrected state of that face alone. -/
def floorFace (B : Build) (CheckMinPresInEngy : EngyFloor)
    (Gamma_m1 _Gamma_m1 MinDens MinPres : real) (x : Nat → real) : Nat → real :=
  fun v =>
    if v = 0 then FMAX (x 0) MinDens
    else if v = 4 then
      CheckMinPresInEngy (FMAX (x 0) MinDens) (x 1) (x 2) (x 3) (x 4) Gamma_m1 _Gamma_m1 MinPres
    else if NCOMP_FLUID ≤ v ∧ v < B.NCOMP_TOTAL then FMAX (x v) B.TINY_NUMBER
    else x v

/-- The transverse correction `Correct` of component `v` at cell `c` in the pass of `d`. -/
def Correct (NCell : Int) (FC_Flux : FCArray) (dt dh : real) (d v : Nat) (c : Int) : real :=
  -((1 / 2 : real) * dt / dh) *
    ((FC_Flux (TDir1 d) v c - FC_Flux (TDir1 d) v (c - didx NCell (TDir1 d))) +
     (FC_Flux (TDir2 d) v c - FC_Flux (TDir2 d) v (c - didx NCell (TDir2 d))))

/-- Extent of the processed box along `j`, `NCell - 2*gap[1]`. -/
def size_j (NCell : Int) (d : Nat) : Int := NCell - 2 * gap d 1

/-- Extent of the processed box along `k`, `NCell - 2*gap[2]`. -/
def size_k (NCell : Int) (d : Nat) : Int := NCell - 2 * gap d 2

/-- The cell `(i,j,k)` lies in the box cut out by the table `gap[]` of direction `d`. -/
def GapBox (NCell : Int) (d : Nat) (i j k : Int) : Prop :=
  gap d 0 ≤ i ∧ i < NCell - gap d 0 ∧ gap d 1 ≤ j ∧ j < NCell - gap d 1 ∧
    gap d 2 ≤ k ∧ k < NCell - gap d 2

/-- The processed range of direction `d`, in the words of the specification: the coordinate
along `d` ranges over `[0, NCell)`, the two other coordinates over `[1, NCell-1)`. -/
def InBox (NCell : Int) (d : Nat) (i j k : Int) : Prop :=
  (if d = 0 then 0 ≤ i ∧ i < NCell else 1 ≤ i ∧ i < NCell - 1) ∧
  (if d = 1 then 0 ≤ j ∧ j < NCell else 1 ≤ j ∧ j < NCell - 1) ∧
  (if d = 2 then 0 ≤ k ∧ k < NCell else 1 ≤ k ∧ k < NCell - 1)

/-- The loop counter that visits the cell `(i,j,k)` of the box of direction `d`. -/
def idxOf (NCell : Int) (d : Nat) (i j k : Int) : Int :=
  (i - gap d 0) + size_i NCell d * ((j - gap d 1) + size_j NCell d * (k - gap d 2))

/-- The cells addressed by the iterations of the pass of direction `d`. -/
def visited (N : Int) (d : Nat) : List Int :=
  (List.range (NIter N)).map (fun n : Nat => idx_var N d n)

/-- Component `n` of the unit vector along direction `T`. -/
def unit (T n : Nat) : Int := if n = T then 1 else 0

/-- The corrected face value of the CTU scheme, written as in the specification:
`FC_Var[face][v][c] - (dt/(2*dh)) * ( (FC_Flux[T1][v][c] - FC_Flux[T1][v][c - e_T1])
+ (FC_Flux[T2][v][c] - FC_Flux[T2][v][c - e_T2]) )` for the cell `c = (i,j,k)`, the face
`2*d+f` and the transverse directions `T1 = (d+1) mod 3`, `T2 = (d+2) mod 3`. -/
def CTU_formula (N : Int) (A F : FCArray) (dt dh : real) (d : Nat) (i j k : Int) (f v : Nat) :
    real :=
  A (2 * d + f) v (IDX321 i j k N N) - (dt / (2 * dh)) *
    ((F ((d + 1) % 3) v (IDX321 i j k N N) -
        F ((d + 1) % 3) v (IDX321 (i - unit ((d + 1) % 3) 0) (j - unit ((d + 1) % 3) 1)
          (k - unit ((d + 1) % 3) 2) N N)) +
     (F ((d + 2) % 3) v (IDX321 i j k N N) -
        F ((d + 2) % 3) v (IDX321 (i - unit ((d + 2) % 3) 0) (j - unit ((d + 2) % 3) 1)
          (k - unit ((d + 2) % 3) 2) N N)))

/-- The state of the kernel when iteration `idx` of the pass of direction `d` starts: the
passes of the directions below `d` and the iterations below `idx` have run. -/
def TGC_before (B : Build) (CheckMinPresInEngy : EngyFloor) (FC_Var FC_Flux : FCArray)
    (dt dh Gamma_m1 _Gamma_m1 MinDens MinPres : real) (d idx : Nat) : Mem × LocalVar :=
  (List.range idx).foldl
    (TGC_iter B CheckMinPresInEngy dt dh Gamma_m1 _Gamma_m1 MinDens MinPres d)
    ((List.range d).foldl
      (TGC_dir B CheckMinPresInEngy dt dh Gamma_m1 _Gamma_m1 MinDens MinPres)
      { FC_Var := FC_Var, FC_Flux := FC_Flux }, uninit)

/-- Coordinate of the cell `(i,j,k)` along direction `T`. -/
def coord (T : Nat) (i j k : Int) : Int :=
  match T with
  | 0 => i
  | 1 => j
  | _ => k

/-- The record expected of one pass of the patch-group loop: the five stages in the order
reconstruction, half-step flux, transverse correction, full-step flux, full-step update, with
the arguments the driver is to pass. -/
def callsOf (DB : DriverBuild) (prm : Params) (Corner_Array : Nat → Nat → real)
    (Pot_Array_USG : Nat → Int → real) (P : Nat) : List Call :=
  [ Call.DataReconstruction P (reconArgs DB prm),
    Call.ComputeFlux (halfStepArgs DB prm) none,
    Call.TGradient_Correction prm.dt prm.dh (prm.Gamma - 1) (1 / (prm.Gamma - 1))
      prm.MinDens prm.MinPres,
    Call.ComputeFlux (fullStepArgs DB prm (Pot_Array_USG P) (Corner_Array P)) (some P),
    Call.FullStepUpdate P (updateArgs prm) ]

/-- The face states stage 1 leaves for the input block `ConVar`, when the worker holds the
memory `w`. -/
def faceStatesOf (S : Stages) (DB : DriverBuild) (prm : Params) (ConVar : Block) (w : Worker) :
    FCArray :=
  (S.Hydro_DataReconstruction ConVar w.PriVar_1PG w.FC_Var_1PG w.Slope_PPM_1PG
    (reconArgs DB prm)).FC_Var

/-- The half-step flux pass: `Hydro_ComputeFlux` applied to the face states of stage 1 and the
scratch array `FC_Flux_1PG`, with the arguments `halfStepArgs` and `NULL` as dump buffer. -/
def halfStepPass (S : Stages) (DB : DriverBuild) (prm : Params) (ConVar : Block) (w : Worker) :
    FluxOut :=
  S.Hydro_ComputeFlux (faceStatesOf S DB prm ConVar w) w.FC_Flux_1PG (halfStepArgs DB prm) none

/-- The arrays the transverse correction leaves, run on the face states of stage 1 and the
fluxes of the half-step pass. -/
def correctedOf (S : Stages) (DB : DriverBuild) (B : Build) (prm : Params) (ConVar : Block)
    (w : Worker) : Mem :=
  Hydro_TGradient_Correction B S.Hydro_CheckMinPresInEngy (faceStatesOf S DB prm ConVar w)
    (halfStepPass S DB prm ConVar w).FC_Flux prm.dt prm.dh (prm.Gamma - 1) (1 / (prm.Gamma - 1))
    prm.MinDens prm.MinPres

/-- The full-step flux pass: `Hydro_ComputeFlux` applied to the arrays the transverse
correction leaves, with the arguments `fullStepArgs` and the slice `Flux_Array[P]` as dump
buffer. -/
def fullStepPass (S : Stages) (DB : DriverBuild) (B : Build) (prm : Params) (ConVar : Block)
    (Corner : Nat → real) (Pot_USG : Int → real) (w : Worker) (P : Nat) : FluxOut :=
  S.Hydro_ComputeFlux (correctedOf S DB B prm ConVar w).FC_Var
    (correctedOf S DB B prm ConVar w).FC_Flux (fullStepArgs DB prm Pot_USG Corner)
    (some (w.Flux_Array P))

/-- The data flow of one patch group, in the words of the specification: the full-step update
applied to the input and to the fluxes of the second flux pass, which is evaluated on the face
states returned by the transverse correction, which is evaluated on the face states of the
reconstruction of the input and on the fluxes of the first flux pass. `w` is the memory the
worker holds when the pass starts. -/
def pipeline (S : Stages) (DB : DriverBuild) (B : Build) (prm : Params) (ConVar : Block)
    (Corner : Nat → real) (Pot_USG : Int → real) (w : Worker) (P : Nat) : UpdateOut :=
  let faceStates := (S.Hydro_DataReconstruction ConVar w.PriVar_1PG w.FC_Var_1PG
    w.Slope_PPM_1PG (reconArgs DB prm)).FC_Var
  let halfFlux := (S.Hydro_ComputeFlux faceStates w.FC_Flux_1PG (halfStepArgs DB prm) none).FC_Flux
  let corrected := (Hydro_TGradient_Correction B S.Hydro_CheckMinPresInEngy faceStates halfFlux
    prm.dt prm.dh (prm.Gamma - 1) (1 / (prm.Gamma - 1)) prm.MinDens prm.MinPres).FC_Var
  let fullFlux := (S.Hydro_ComputeFlux corrected halfFlux (fullStepArgs DB prm Pot_USG Corner)
    (some (w.Flux_Array P))).FC_Flux
  S.Hydro_FullStepUpdate ConVar (w.Flu_Array_Out P) (w.DE_Array_Out P) fullFlux (updateArgs prm)

/-- Two arrays agree on every component of the (first index, cell) pairs selected by `W`. -/
def agreeOn (W : Nat → Int → Prop) (X Y : FCArray) : Prop :=
  ∀ (f v : Nat) (c : Int), W f c → X f v c = Y f v c

/-- Modelled from the spec: the bodies of `Hydro_DataReconstruction`, `Hydro_ComputeFlux` and
`Hydro_FullStepUpdate` are not part of the sources. Spec §4.1, §4.2 and §4.4 give each stage
the contract "given (its inputs), produce (its outputs)", §3 has the output block "written
exactly once per step" and §5 calls a pipeline run pure: what a stage produces is determined by
what it is given, not by what its output arrays held before. `WV` selects the (face, cell)
pairs of `FC_Var` the reconstruction produces and later stages consume, `WF Gap` the
(direction, cell) pairs of `FC_Flux` a flux pass with that `Gap` produces; entries outside may
keep stale content. -/
structure StageContract (S : Stages) (B : Build) (WV : Nat → Int → Prop)
    (WF : Int → Nat → Int → Prop) : Prop where
  /-- Reconstruction: the face states it produces do not depend on the old scratch content. -/
  recon : ∀ (ConVar pri pri' : Block) (fc fc' : FCArray) (sl sl' : Option FCArray)
    (a : ReconArgs),
    agreeOn WV (S.Hydro_DataReconstruction ConVar pri fc sl a).FC_Var
      (S.Hydro_DataReconstruction ConVar pri' fc' sl' a).FC_Var
  /-- Flux pass: the fluxes it produces depend on the produced face states only. -/
  flux : ∀ (a : FluxArgs) (fc fc' fl fl' : FCArray) (buf buf' : Option FCArray),
    agreeOn WV fc fc' →
    agreeOn (WF a.Gap) (S.Hydro_ComputeFlux fc fl a buf).FC_Flux
      (S.Hydro_ComputeFlux fc' fl' a buf').FC_Flux
  /-- Flux pass in dump mode: the boundary fluxes it copies into the buffer depend on the
  produced face states only, not on what the buffer held. -/
  dump : ∀ (a : FluxArgs) (fc fc' fl fl' buf buf' : FCArray), a.DumpIntFlux = true →
    agreeOn WV fc fc' →
    (S.Hydro_ComputeFlux fc fl a (some buf)).IntFlux =
      (S.Hydro_ComputeFlux fc' fl' a (some buf')).IntFlux
  /-- Update: the output block and the flags it produces depend on the input block and on the
  fluxes produced by the full-step pass only, not on what the output arrays held. -/
  update : ∀ (a : UpdateArgs) (Input Output Output' : Block) (de de' : DEStatus)
    (fl fl' : FCArray), agreeOn (WF 1) fl fl' →
    S.Hydro_FullStepUpdate Input Output de fl a = S.Hydro_FullStepUpdate Input Output' de' fl' a
  /-- The fluxes the transverse correction reads for a produced face state are fluxes the
  half-step pass produces. -/
  reads : ∀ (face : Nat) (c : Int), face < 6 → WV face c → c ∈ visited B.N_FC_VAR (face / 2) →
    WF 0 (TDir1 (face / 2)) c ∧ WF 0 (TDir1 (face / 2)) (c - didx B.N_FC_VAR (TDir1 (face / 2))) ∧
    WF 0 (TDir2 (face / 2)) c ∧ WF 0 (TDir2 (face / 2)) (c - didx B.N_FC_VAR (TDir2 (face / 2)))

/-- The iterations of the kernel executed in the order `sched`, a list of pairs (direction,
loop counter): each pair runs the loop body of that direction for that counter. -/
def TGC_sched (B : Build) (CheckMinPresInEngy : EngyFloor)
    (dt dh Gamma_m1 _Gamma_m1 MinDens MinPres : real) (sched : List (Nat × Nat)) (m : Mem) :
    Mem :=
  (sched.foldl
    (fun s p => TGC_iter B CheckMinPresInEngy dt dh Gamma_m1 _Gamma_m1 MinDens MinPres p.1 s p.2)
    (m, uninit)).1

/-- The order of the sequential loops: `d = 0, 1, 2`, and for each `d` the loop counters
`0 .. NCell*SQR(NCell-2) - 1`. -/
def seqSchedule (N : Int) : List (Nat × Nat) :=
  (List.range 3).flatMap (fun d => (List.range (NIter N)).map (fun idx => (d, idx)))

/-- The direction and the cell an iteration works on. -/
def cellKey (N : Int) (p : Nat × Nat) : Nat × Int := (p.1, idx_var N p.1 p.2)

/-- The real patches of a rank, in the order the loops visit them. -/
def realPatches (amr : AMR_t) : List patch_t :=
  (List.range amr.NLEVEL).flatMap
    (fun lv => (List.range (amr.NPatchComma lv 1).toNat).map (fun PID => amr.patch lv PID))

/-- The particle IDs listed in a patch: `ParList[0 .. NPar-1]`. -/
def listed (pt : patch_t) : List Int := (List.range pt.NPar.toNat).map pt.ParList

/-- The leaf patches (`son == -1`) among the real patches. -/
def leafPatches (amr : AMR_t) : List patch_t :=
  (realPatches amr).filter (fun pt => decide (pt.son = -1))

/-- All particle IDs listed in leaf patches, patch after patch. -/
def leafIDs (amr : AMR_t) : List Int := (leafPatches amr).flatMap listed

/-- Condition 1: particles reside in their home patches. -/
def Check1 (amr : AMR_t) : Prop :=
  ∀ pt ∈ leafPatches amr, ∀ id ∈ listed pt, ∀ d : Nat, d < 3 →
    pt.EdgeL d ≤ ParPos amr.Par d id ∧ ParPos amr.Par d id < pt.EdgeR d

/-- Condition 2: every real non-leaf patch has `NPar == 0`. -/
def Check2 (amr : AMR_t) : Prop :=
  ∀ pt ∈ realPatches amr, pt.son ≠ -1 → pt.NPar = 0

/-- Condition 3: the sum of `NPar` over the leaf patches equals `NPar_Active`. -/
def Check3 (amr : AMR_t) : Prop :=
  ((leafPatches amr).map (fun pt => pt.NPar)).sum = amr.Par.NPar_Active

/-- Condition 4: every particle listed in a leaf patch has `Mass >= 0`. -/
def Check4 (amr : AMR_t) : Prop :=
  ∀ pt ∈ leafPatches amr, ∀ id ∈ listed pt, 0 ≤ amr.Par.Mass id

/-- Condition 5: no particle ID occurs twice in the leaf-patch lists. -/
def Check5 (amr : AMR_t) : Prop := (leafIDs amr).Nodup

/-- Condition 6: every particle with `Mass >= 0` occurs in some leaf-patch list. -/
def Check6 (amr : AMR_t) : Prop :=
  ∀ p : Nat, (p : Int) < amr.Par.NPar → 0 ≤ amr.Par.Mass p → (p : Int) ∈ leafIDs amr

/-- Condition 7: `NPar_Active + NPar_Inactive == NPar`. -/
def Check7 (amr : AMR_t) : Prop :=
  amr.Par.NPar_Active + amr.Par.NPar_Inactive = amr.Par.NPar

/-- The IDs a patch contributes to the home flags: its list if it is a leaf, nothing else. -/
def patchIDs (pt : patch_t) : List Int := if pt.son = -1 then listed pt else []

/-- The particles a patch contributes to `NParInLeaf`. -/
def leafCount (pt : patch_t) : Int := if pt.son = -1 then pt.NPar else 0

/-- The particle `id` lies inside the patch `pt`: `EdgeL[d] <= position[d] < EdgeR[d]` in the
three dimensions. -/
def inEdges (Par : Particle_t) (pt : patch_t) (id : Int) : Prop :=
  ∀ d : Nat, d < 3 → pt.EdgeL d ≤ ParPos Par d id ∧ ParPos Par d id < pt.EdgeR d

/-- The seven documented conditions of `Par_Aux_Check_Particle` on the data of one rank. -/
def AllChecks (amr : AMR_t) : Prop :=
  Check1 amr ∧ Check2 amr ∧ Check3 amr ∧ Check4 amr ∧ Check5 amr ∧ Check6 amr ∧ Check7 amr

/-- The result of the checks of rank `t` taken on their own, from fresh local variables. -/
def rankOK (amr : Nat → AMR_t) (t : Nat) : Prop :=
  (checkRank (amr t) initState).PassAll = true

/-! ## Sample data -/

/-- A small build: three cells per direction, one passive scalar, passive floor 0. -/
def sampleBuild : Build := { N_FC_VAR := 3, NCOMP_PASSIVE := 1, TINY_NUMBER := 0 }

/-- Sample face states: density 1, no momentum, energy 1, passive scalar 0 everywhere. -/
def sampleVar : FCArray := fun _ v _ => if v = 0 then 1 else if v = 4 then 1 else 0

/-- Sample fluxes with a gradient: the flux of every component is the cell index. -/
def sampleFlux : FCArray := fun _ _ c => c

/-- Sample fluxes without any gradient. -/
def flatFlux : FCArray := fun _ _ _ => 0

/-- Sample stages: each one computes what it returns from its const inputs. The flux pass adds
the potential when it is handed one, and fills the dump buffer only in dump mode. -/
def sampleStages : Stages :=
  { Hydro_DataReconstruction := fun ConVar _ _ _ _ =>
      { PriVar := ConVar, FC_Var := fun _ v c => ConVar v c, Slope_PPM := none }
    Hydro_ComputeFlux := fun FC_Var _ a buf =>
      { FC_Flux := fun d v c => FC_Var (2 * d) v c + (a.Pot_USG.getD (fun _ => 0)) c
        IntFlux := if a.DumpIntFlux then FC_Var else buf.getD (fun _ _ _ => 0) }
    Hydro_FullStepUpdate := fun Input _ _ Flux _ =>
      { Output := fun v c => Input v c - Flux 0 v c, DE_Status := fun _ => 0 }
    Hydro_CheckMinPresInEngy := Hydro_CheckMinPresInEngy }

/-- Stages that break the contract of the specification: the flux pass leaves `FC_Flux` as it
finds it, and the update copies the flux it is handed. -/
def leakyStages : Stages :=
  { Hydro_DataReconstruction := fun ConVar _ fc _ _ =>
      { PriVar := ConVar, FC_Var := fc, Slope_PPM := none }
    Hydro_ComputeFlux := fun _ fl _ buf =>
      { FC_Flux := fl, IntFlux := buf.getD (fun _ _ _ => 0) }
    Hydro_FullStepUpdate := fun _ _ de Flux _ =>
      { Output := fun v c => Flux 0 v c, DE_Status := de }
    Hydro_CheckMinPresInEngy := Hydro_CheckMinPresInEngy }

/-- A sample build of the driver, without `UNSPLIT_GRAVITY`. -/
def sampleDriverBuild : DriverBuild :=
  { UNSPLIT_GRAVITY := false, LR_SCHEME_PPM := false, FLU_NXT := 5, FLU_GHOST_SIZE := 2,
    NULL_REAL := 0 }

/-- A sample build of the driver with `UNSPLIT_GRAVITY`. -/
def sampleGravityBuild : DriverBuild :=
  { UNSPLIT_GRAVITY := true, LR_SCHEME_PPM := false, FLU_NXT := 5, FLU_GHOST_SIZE := 2,
    NULL_REAL := 0 }

/-- A sample configuration that asks for the fluxes to be stored. -/
def sampleParams : Params :=
  { dt := 1, dh := 1, Gamma := 2, StoreFlux := true, LR_Limiter := 0, MinMod_Coeff := 1,
    Time := 0, GravityType := OptGravityType_t.GRAVITY_SELF, ExtAcc_AuxArray := fun _ => 0,
    MinDens := 1, MinPres := 1, DualEnergySwitch := 0, NormPassive := false, NNorm := 0,
    NormIdx := fun _ => 0, JeansMinPres := false, JeansMinPres_Coeff := 0 }

/-- A sample memory of a worker. -/
def sampleWorker : Worker :=
  { FC_Var_1PG := fun _ _ _ => 0, FC_Flux_1PG := fun _ _ _ => 0, PriVar_1PG := fun _ _ => 0,
    Slope_PPM_1PG := none, Flu_Array_Out := fun _ _ _ => 0, DE_Array_Out := fun _ _ => 0,
    Flux_Array := fun _ _ _ _ => 0, calls := [] }

/-- Another sample memory, with different content of the scratch and of the output arrays. -/
def staleWorker : Worker :=
  { FC_Var_1PG := fun _ _ _ => 7, FC_Flux_1PG := fun _ _ c => c, PriVar_1PG := fun _ _ => 3,
    Slope_PPM_1PG := none, Flu_Array_Out := fun _ _ _ => 4, DE_Array_Out := fun _ _ => 1,
    Flux_Array := fun _ _ _ _ => 2, calls := [] }

/-- Sample potentials of the patch groups of one run: the potential of patch group `P` is `P`
everywhere. -/
def samplePot : Nat → Int → real := fun P _ => P

/-- Sample potentials of another run, which agree with `samplePot` on patch group 1 only. -/
def otherPot : Nat → Int → real := fun P _ => if P = 1 then 1 else 5

/-- Sample inputs of another run, which agree with `fun _ => sampleVar 0` on patch group 1
only. -/
def otherIn : Nat → Block := fun P v c => if P = 1 then sampleVar 0 v c else 9

/-- A sample leaf patch `[0,1)^3` that lists the particle 0. -/
def sampleLeaf : patch_t :=
  { NPar := 1, son := -1, EdgeL := fun _ => 0, EdgeR := fun _ => 1, ParList := fun _ => 0 }

/-- A sample rank: one level with one leaf patch, one active particle of mass 1 at the left
edge of the patch. -/
def sampleAMR : AMR_t :=
  { NLEVEL := 1, NPatchComma := fun _ _ => 1, patch := fun _ _ => sampleLeaf,
    Par := { NPar := 1, NPar_Active := 1, NPar_Inactive := 0, Mass := fun _ => 1,
             PosX := fun _ => 0, PosY := fun _ => 0, PosZ := fun _ => 0 } }

/-- The sample rank with its particle moved onto the right edge of the patch. -/
def sampleAMR_onEdgeR : AMR_t :=
  { sampleAMR with
    Par := { NPar := 1, NPar_Active := 1, NPar_Inactive := 0, Mass := fun _ => 1,
             PosX := fun _ => 1, PosY := fun _ => 0, PosZ := fun _ => 0 } }

/-! ## Lemmas and theorems -/

theorem TGC_load_apply (B : Build) (A : FCArray) (fL fR : Nat) (c : Int) (fc : LocalVar)
    (f v : Nat) :
    TGC_load B A fL fR c fc f v =
      if v < B.NCOMP_TOTAL then (if f = 0 then A fL v c else if f = 1 then A fR v c else fc f v)
      else fc f v := by
  unfold TGC_load
  generalize B.NCOMP_TOTAL = n
  induction n generalizing f v with
  | zero => simp
  | succ n ih =>
    rw [List.range_succ, List.foldl_append, List.foldl_cons, List.foldl_nil]
    generalize List.foldl _ fc (List.range n) = X at ih ⊢
    simp only [setLocal]
    rw [ih]
    by_cases hv : v = n
    · subst hv
      by_cases h1 : f = 1
      · subst h1; simp
      · by_cases h0 : f = 0
        · subst h0; simp
        · simp [h1, h0]
    · have e : (v < n + 1) = (v < n) := by apply propext; omega
      simp [hv, e]

theorem TGC_correct_apply (B : Build) (F : FCArray) (T1 T2 : Nat) (cR cL1 cL2 : Int) (k : real)
    (fc : LocalVar) (f v : Nat) :
    TGC_correct B F T1 T2 cR cL1 cL2 k fc f v =
      if v < B.NCOMP_TOTAL ∧ f < 2 then
        fc f v + -k * ((F T1 v cR - F T1 v cL1) + (F T2 v cR - F T2 v cL2))
      else fc f v := by
  unfold TGC_correct
  generalize B.NCOMP_TOTAL = n
  induction n generalizing f v with
  | zero => simp
  | succ n ih =>
    rw [List.range_succ, List.foldl_append, List.foldl_cons, List.foldl_nil]
    generalize List.foldl _ fc (List.range n) = X at ih ⊢
    simp only [setLocal]
    rw [ih, ih, ih]
    by_cases hv : v = n
    · subst hv
      by_cases h1 : f = 1
      · subst h1; simp
      · by_cases h0 : f = 0
        · subst h0; simp
        · have : ¬ f < 2 := by omega
          simp [h1, h0, this]
    · have e : (v < n + 1) = (v < n) := by apply propext; omega
      simp [hv, e]

theorem passive_fold_apply (T : real) (f s n : Nat) (fc : LocalVar) (f' v' : Nat) :
    (List.range' s n).foldl (fun fc3 v => setLocal fc3 f v (FMAX (fc3 f v) T)) fc f' v' =
      if f' = f ∧ s ≤ v' ∧ v' < s + n then FMAX (fc f' v') T else fc f' v' := by
  induction n generalizing f' v' with
  | zero =>
    have : ¬ (f' = f ∧ s ≤ v' ∧ v' < s) := by omega
    simp [this]
  | succ n ih =>
    rw [List.range'_concat, List.foldl_append, List.foldl_cons, List.foldl_nil]
    generalize List.foldl _ fc (List.range' s n) = X at ih ⊢
    simp only [setLocal, mul_one, one_mul]
    rw [ih, ih]
    by_cases hf : f' = f
    · subst hf
      by_cases hv : v' = s + n
      · subst hv; simp
      · have e : (v' < s + (n + 1)) = (v' < s + n) := by apply propext; omega
        simp [hv, e]
    · simp [hf]

theorem TGC_floor_apply (B : Build) (Chk : EngyFloor) (g1 g2 MinDens MinPres : real)
    (fc : LocalVar) (f v : Nat) :
    TGC_floor B Chk g1 g2 MinDens MinPres fc f v =
      if f < 2 then floorFace B Chk g1 g2 MinDens MinPres (fc f) v else fc f v := by
  unfold TGC_floor
  have hr : List.range 2 = [0, 1] := by decide
  rw [hr]
  simp only [List.foldl_cons, List.foldl_nil]
  rw [passive_fold_apply]
  simp only [passive_fold_apply, setLocal, floorFace, NCOMP_FLUID, Build.NCOMP_TOTAL]
  by_cases h0 : f = 0
  · subst h0
    by_cases hv0 : v = 0
    · subst hv0; simp
    · by_cases hv4 : v = 4
      · subst hv4; simp
      · simp [hv0, hv4]
  · by_cases h1 : f = 1
    · subst h1
      by_cases hv0 : v = 0
      · subst hv0; simp
      · by_cases hv4 : v = 4
        · subst hv4; simp
        · simp [hv0, hv4]
    · have : ¬ f < 2 := by omega
      simp [h0, h1, this]

theorem TGC_store_apply (B : Build) (fL fR : Nat) (c : Int) (fc : LocalVar) (A : FCArray)
    (face v : Nat) (c' : Int) :
    TGC_store B fL fR c fc A face v c' =
      if v < B.NCOMP_TOTAL ∧ c' = c then
        (if face = fR then fc 1 v else if face = fL then fc 0 v else A face v c')
      else A face v c' := by
  unfold TGC_store
  generalize B.NCOMP_TOTAL = n
  induction n generalizing face v c' with
  | zero => simp
  | succ n ih =>
    rw [List.range_succ, List.foldl_append, List.foldl_cons, List.foldl_nil]
    generalize List.foldl _ A (List.range n) = X at ih ⊢
    simp only [setFC]
    rw [ih]
    by_cases hv : v = n
    · subst hv
      by_cases hc : c' = c
      · subst hc; by_cases h1 : face = fR <;> by_cases h0 : face = fL <;> simp [h1, h0]
      · simp [hc]
    · have e : (v < n + 1) = (v < n) := by apply propext; omega
      simp [hv, e]

theorem divmod_decompose (sx sy sz idx : Int) (hx : 0 < sx) (hy : 0 < sy) (h0 : 0 ≤ idx)
    (h1 : idx < sx * sy * sz) :
    0 ≤ idx % sx ∧ idx % sx < sx ∧ 0 ≤ idx % (sy * sx) / sx ∧ idx % (sy * sx) / sx < sy ∧
      0 ≤ idx / (sy * sx) ∧ idx / (sy * sx) < sz ∧
      idx = idx % sx + sx * (idx % (sy * sx) / sx + sy * (idx / (sy * sx))) := by
  have hxy : 0 < sy * sx := mul_pos hy hx
  have hm0 : 0 ≤ idx % (sy * sx) := Int.emod_nonneg _ (ne_of_gt hxy)
  have hm1 : idx % (sy * sx) < sy * sx := Int.emod_lt_of_pos _ hxy
  refine ⟨Int.emod_nonneg _ (ne_of_gt hx), Int.emod_lt_of_pos _ hx,
    Int.ediv_nonneg hm0 (le_of_lt hx), Int.ediv_lt_of_lt_mul hx hm1,
    Int.ediv_nonneg h0 (le_of_lt hxy), Int.ediv_lt_of_lt_mul hxy ?_, ?_⟩
  · calc idx < sx * sy * sz := h1
      _ = sz * (sy * sx) := by ring
  · have e1 : idx % (sy * sx) + sy * sx * (idx / (sy * sx)) = idx := Int.emod_add_ediv idx (sy * sx)
    have e2 : idx % (sy * sx) % sx + sx * (idx % (sy * sx) / sx) = idx % (sy * sx) :=
      Int.emod_add_ediv (idx % (sy * sx)) sx
    have e3 : idx % (sy * sx) % sx = idx % sx :=
      Int.emod_emod_of_dvd idx (Dvd.intro_left sy rfl)
    rw [e3] at e2
    calc idx = idx % (sy * sx) + sy * sx * (idx / (sy * sx)) := e1.symm
      _ = (idx % sx + sx * (idx % (sy * sx) / sx)) + sy * sx * (idx / (sy * sx)) := by rw [e2]
      _ = idx % sx + sx * (idx % (sy * sx) / sx + sy * (idx / (sy * sx))) := by ring

theorem divmod_unique (sx sy a b c : Int) (hx : 0 < sx) (hy : 0 < sy)
    (ha0 : 0 ≤ a) (ha1 : a < sx) (hb0 : 0 ≤ b) (hb1 : b < sy) :
    (a + sx * (b + sy * c)) % sx = a ∧ (a + sx * (b + sy * c)) % (sy * sx) / sx = b ∧
      (a + sx * (b + sy * c)) / (sy * sx) = c := by
  have hxy : 0 < sy * sx := mul_pos hy hx
  have hab0 : 0 ≤ a + sx * b := by positivity
  have hab1 : a + sx * b < sy * sx := by nlinarith
  have e : a + sx * (b + sy * c) = (a + sx * b) + sy * sx * c := by ring
  have hmod : (a + sx * (b + sy * c)) % (sy * sx) = a + sx * b := by
    rw [e, Int.add_mul_emod_self_left]
    exact Int.emod_eq_of_lt hab0 hab1
  refine ⟨?_, ?_, ?_⟩
  · rw [Int.add_mul_emod_self_left]
    exact Int.emod_eq_of_lt ha0 ha1
  · rw [hmod, Int.add_mul_ediv_left _ _ (ne_of_gt hx), Int.ediv_eq_zero_of_lt ha0 ha1]
    simp
  · rw [e, Int.add_mul_ediv_left _ _ (ne_of_gt hxy), Int.ediv_eq_zero_of_lt hab0 hab1]
    simp

theorem sizes_pos (N : Int) (d : Nat) (hN : 3 ≤ N) :
    0 < size_i N d ∧ 0 < size_j N d ∧ 0 < size_k N d := by
  have h : ∀ a b : Nat, gap a b = 0 ∨ gap a b = 1 := by
    intro a b
    unfold gap
    split <;> simp
  unfold size_i size_j size_k
  rcases h d 0 with h0 | h0 <;> rcases h d 1 with h1 | h1 <;> rcases h d 2 with h2 | h2 <;>
    (rw [h0, h1, h2]; omega)

theorem sizes_prod (N : Int) (d : Nat) (hd : d < 3) :
    size_i N d * size_j N d * size_k N d = N * SQR (N - 2) := by
  unfold size_i size_j size_k SQR
  interval_cases d <;> simp [gap] <;> ring

theorem size_ij_eq (N : Int) (d : Nat) : size_ij N d = size_j N d * size_i N d := rfl

/-- In the regime of the loop the C operators agree with floor division: the coordinates the
code computes are the digits of `idx`. -/
theorem vars_eq (N : Int) (d : Nat) (hN : 3 ≤ N) (idx : Int) (h0 : 0 ≤ idx) :
    i_var N d idx = gap d 0 + idx % size_i N d ∧
      j_var N d idx = gap d 1 + idx % (size_j N d * size_i N d) / size_i N d ∧
      k_var N d idx = gap d 2 + idx / (size_j N d * size_i N d) := by
  obtain ⟨hx, hy, _⟩ := sizes_pos N d hN
  have hxy : 0 < size_j N d * size_i N d := mul_pos hy hx
  unfold i_var j_var k_var
  rw [size_ij_eq, Int.tmod_eq_emod h0 (le_of_lt hx), Int.tmod_eq_emod h0 (le_of_lt hxy),
    Int.tdiv_eq_ediv h0 (le_of_lt hxy),
    Int.tdiv_eq_ediv (Int.emod_nonneg _ (ne_of_gt hxy)) (le_of_lt hx)]
  exact ⟨rfl, rfl, rfl⟩

/-- Every iteration visits a cell of the box, and the loop counter is recovered from it. -/
theorem vars_inBox (N : Int) (d : Nat) (hN : 3 ≤ N) (hd : d < 3) (idx : Int) (h0 : 0 ≤ idx)
    (h1 : idx < N * SQR (N - 2)) :
    GapBox N d (i_var N d idx) (j_var N d idx) (k_var N d idx) ∧
      idxOf N d (i_var N d idx) (j_var N d idx) (k_var N d idx) = idx := by
  obtain ⟨hx, hy, _⟩ := sizes_pos N d hN
  obtain ⟨ei, ej, ek⟩ := vars_eq N d hN idx h0
  rw [← sizes_prod N d hd] at h1
  obtain ⟨a0, a1, b0, b1, c0, c1, e⟩ :=
    divmod_decompose (size_i N d) (size_j N d) (size_k N d) idx hx hy h0 h1
  rw [ei, ej, ek]
  refine ⟨?_, ?_⟩
  · have hg : ∀ a b : Nat, 0 ≤ gap a b := by
      intro a b
      unfold gap
      split <;> simp
    have g0 := hg d 0
    have g1 := hg d 1
    have g2 := hg d 2
    have sx : size_i N d = N - 2 * gap d 0 := rfl
    have sy : size_j N d = N - 2 * gap d 1 := rfl
    have sz : size_k N d = N - 2 * gap d 2 := rfl
    unfold GapBox
    refine ⟨?_, ?_, ?_, ?_, ?_, ?_⟩ <;> omega
  · unfold idxOf
    rw [add_sub_cancel_left, add_sub_cancel_left, add_sub_cancel_left]
    exact e.symm

/-- Every cell of the box is visited, by the iteration `idxOf`. -/
theorem idxOf_spec (N : Int) (d : Nat) (hd : d < 3) (i j k : Int) (hb : GapBox N d i j k) :
    0 ≤ idxOf N d i j k ∧ idxOf N d i j k < N * SQR (N - 2) ∧
      i_var N d (idxOf N d i j k) = i ∧ j_var N d (idxOf N d i j k) = j ∧
      k_var N d (idxOf N d i j k) = k := by
  obtain ⟨i0, i1, j0, j1, k0, k1⟩ := hb
  have hg : ∀ a b : Nat, gap a b = 0 ∨ gap a b = 1 := by
    intro a b
    unfold gap
    split <;> simp
  have hN : 3 ≤ N := by
    interval_cases d <;> simp [gap] at i0 i1 j0 j1 k0 k1 <;> omega
  obtain ⟨hx, hy, hz⟩ := sizes_pos N d hN
  have a0 : 0 ≤ i - gap d 0 := by omega
  have a1 : i - gap d 0 < size_i N d := by unfold size_i; omega
  have b0 : 0 ≤ j - gap d 1 := by omega
  have b1 : j - gap d 1 < size_j N d := by unfold size_j; omega
  have c0 : 0 ≤ k - gap d 2 := by omega
  have c1 : k - gap d 2 < size_k N d := by unfold size_k; omega
  have hnn : 0 ≤ idxOf N d i j k := by unfold idxOf; positivity
  obtain ⟨u1, u2, u3⟩ := divmod_unique (size_i N d) (size_j N d) (i - gap d 0) (j - gap d 1)
    (k - gap d 2) hx hy a0 a1 b0 b1
  obtain ⟨ei, ej, ek⟩ := vars_eq N d hN (idxOf N d i j k) hnn
  refine ⟨hnn, ?_, ?_, ?_, ?_⟩
  · rw [← sizes_prod N d hd]
    unfold idxOf
    have hc : k - gap d 2 ≤ size_k N d - 1 := by omega
    have hb : j - gap d 1 ≤ size_j N d - 1 := by omega
    have ha : i - gap d 0 ≤ size_i N d - 1 := by omega
    have h2 : size_j N d * (k - gap d 2) ≤ size_j N d * (size_k N d - 1) :=
      mul_le_mul_of_nonneg_left hc (le_of_lt hy)
    have h3 : size_i N d * ((j - gap d 1) + size_j N d * (k - gap d 2)) ≤
        size_i N d * ((size_j N d - 1) + size_j N d * (size_k N d - 1)) :=
      mul_le_mul_of_nonneg_left (by linarith) (le_of_lt hx)
    nlinarith
  · rw [ei]; unfold idxOf; rw [u1]; ring
  · rw [ej]; unfold idxOf; rw [u2]; ring
  · rw [ek]; unfold idxOf; rw [u3]; ring

/-- The cell index determines the coordinates inside the cube `[0, N)^3`. -/
theorem IDX321_inj (N i j k i' j' k' : Int) (hi0 : 0 ≤ i) (hi1 : i < N) (hi0' : 0 ≤ i')
    (hi1' : i' < N) (hj0 : 0 ≤ j) (hj1 : j < N) (hj0' : 0 ≤ j') (hj1' : j' < N)
    (h : IDX321 i j k N N = IDX321 i' j' k' N N) : i = i' ∧ j = j' ∧ k = k' := by
  unfold IDX321 at h
  have hN : 0 < N := by omega
  have ei : i = i' := by
    have h1 : ((k * N + j) * N + i) % N = i := by
      rw [add_comm, mul_comm, Int.add_mul_emod_self_left]; exact Int.emod_eq_of_lt hi0 hi1
    have h2 : ((k' * N + j') * N + i') % N = i' := by
      rw [add_comm, mul_comm, Int.add_mul_emod_self_left]; exact Int.emod_eq_of_lt hi0' hi1'
    rw [← h1, ← h2, h]
  subst ei
  have hq : k * N + j = k' * N + j' := by
    have : (k * N + j) * N = (k' * N + j') * N := by linarith
    exact Int.eq_of_mul_eq_mul_right (ne_of_gt hN) this
  have ej : j = j' := by
    have h1 : (k * N + j) % N = j := by
      rw [add_comm, mul_comm, Int.add_mul_emod_self_left]; exact Int.emod_eq_of_lt hj0 hj1
    have h2 : (k' * N + j') % N = j' := by
      rw [add_comm, mul_comm, Int.add_mul_emod_self_left]; exact Int.emod_eq_of_lt hj0' hj1'
    rw [← h1, ← h2, hq]
  subst ej
  have ek : k * N = k' * N := by linarith
  exact ⟨rfl, rfl, Int.eq_of_mul_eq_mul_right (ne_of_gt hN) ek⟩

theorem GapBox_cube (N : Int) (d : Nat) (i j k : Int) (hb : GapBox N d i j k) :
    0 ≤ i ∧ i < N ∧ 0 ≤ j ∧ j < N ∧ 0 ≤ k ∧ k < N := by
  have hg : ∀ a b : Nat, 0 ≤ gap a b := by
    intro a b
    unfold gap
    split <;> simp
  obtain ⟨i0, i1, j0, j1, k0, k1⟩ := hb
  have := hg d 0
  have := hg d 1
  have := hg d 2
  refine ⟨?_, ?_, ?_, ?_, ?_, ?_⟩ <;> omega

/-- Two iterations of one pass that address the same cell are the same iteration. -/
theorem idx_var_inj (N : Int) (d : Nat) (hN : 3 ≤ N) (hd : d < 3) (a b : Int) (ha0 : 0 ≤ a)
    (ha1 : a < N * SQR (N - 2)) (hb0 : 0 ≤ b) (hb1 : b < N * SQR (N - 2))
    (h : idx_var N d a = idx_var N d b) : a = b := by
  obtain ⟨ba, ea⟩ := vars_inBox N d hN hd a ha0 ha1
  obtain ⟨bb, eb⟩ := vars_inBox N d hN hd b hb0 hb1
  obtain ⟨p1, p2, p3, p4, _, _⟩ := GapBox_cube N d _ _ _ ba
  obtain ⟨q1, q2, q3, q4, _, _⟩ := GapBox_cube N d _ _ _ bb
  unfold idx_var at h
  obtain ⟨e1, e2, e3⟩ := IDX321_inj N _ _ _ _ _ _ p1 p2 q1 q2 p3 p4 q3 q4 h
  rw [← ea, ← eb, e1, e2, e3]

theorem floorFace_congr (B : Build) (Chk : EngyFloor) (g1 g2 MinDens MinPres : real)
    (x y : Nat → real) (v : Nat) (hv : v < B.NCOMP_TOTAL)
    (h : ∀ w, w < B.NCOMP_TOTAL → x w = y w) :
    floorFace B Chk g1 g2 MinDens MinPres x v = floorFace B Chk g1 g2 MinDens MinPres y v := by
  have hT : 5 ≤ B.NCOMP_TOTAL := by unfold Build.NCOMP_TOTAL NCOMP_FLUID; omega
  unfold floorFace
  rw [h 0 (by omega), h 1 (by omega), h 2 (by omega), h 3 (by omega), h 4 (by omega), h v hv]

theorem TGC_prefloor_apply (B : Build) (dt dh : real) (d : Nat) (s : Mem × LocalVar) (idx : Nat)
    (f v : Nat) (hf : f < 2) (hv : v < B.NCOMP_TOTAL) :
    TGC_prefloor B dt dh d s idx f v =
      s.1.FC_Var (2 * d + f) v (idx_var B.N_FC_VAR d idx) +
        Correct B.N_FC_VAR s.1.FC_Flux dt dh d v (idx_var B.N_FC_VAR d idx) := by
  unfold TGC_prefloor Correct
  simp only [TGC_correct_apply, TGC_load_apply]
  have hf' : f = 0 ∨ f = 1 := by omega
  rcases hf' with h | h <;> subst h <;> simp [hv]

theorem TGC_iter_FC_Flux (B : Build) (Chk : EngyFloor) (dt dh g1 g2 MinDens MinPres : real)
    (d : Nat) (s : Mem × LocalVar) (idx : Nat) :
    (TGC_iter B Chk dt dh g1 g2 MinDens MinPres d s idx).1.FC_Flux = s.1.FC_Flux := rfl

theorem TGC_iter_FC_Var (B : Build) (Chk : EngyFloor) (dt dh g1 g2 MinDens MinPres : real)
    (d : Nat) (s : Mem × LocalVar) (idx : Nat) (face v : Nat) (c : Int) :
    (TGC_iter B Chk dt dh g1 g2 MinDens MinPres d s idx).1.FC_Var face v c =
      if v < B.NCOMP_TOTAL ∧ c = idx_var B.N_FC_VAR d idx ∧ (face = 2 * d ∨ face = 2 * d + 1) then
        floorFace B Chk g1 g2 MinDens MinPres
          (fun w => s.1.FC_Var face w c + Correct B.N_FC_VAR s.1.FC_Flux dt dh d w c) v
      else s.1.FC_Var face v c := by
  unfold TGC_iter
  simp only [TGC_store_apply, TGC_floor_apply]
  by_cases hv : v < B.NCOMP_TOTAL
  · by_cases hc : c = idx_var B.N_FC_VAR d idx
    · subst hc
      by_cases h1 : face = 2 * d + 1
      · subst h1
        simp only [hv, true_and, and_self, if_true, or_true, Nat.one_lt_ofNat]
        apply floorFace_congr _ _ _ _ _ _ _ _ _ hv
        intro w hw
        rw [TGC_prefloor_apply B dt dh d s idx 1 w (by omega) hw]
      · by_cases h0 : face = 2 * d
        · subst h0
          simp only [hv, true_and, and_self, if_true, true_or, h1, if_false, Nat.ofNat_pos]
          apply floorFace_congr _ _ _ _ _ _ _ _ _ hv
          intro w hw
          rw [TGC_prefloor_apply B dt dh d s idx 0 w (by omega) hw]
          rfl
        · simp [h1, h0]
    · simp [hc]
  · simp [hv]

/-- A pass over any list of loop counters that address pairwise different cells: every entry
of the two faces of a visited cell is corrected and floored once, from its input value. -/
theorem TGC_fold_FC (B : Build) (Chk : EngyFloor) (dt dh g1 g2 MinDens MinPres : real)
    (d : Nat) (L : List Nat) (hL : (L.map (fun n : Nat => idx_var B.N_FC_VAR d n)).Nodup)
    (s : Mem × LocalVar) :
    (L.foldl (TGC_iter B Chk dt dh g1 g2 MinDens MinPres d) s).1.FC_Flux = s.1.FC_Flux ∧
    ∀ (face v : Nat) (c : Int),
      (L.foldl (TGC_iter B Chk dt dh g1 g2 MinDens MinPres d) s).1.FC_Var face v c =
        if v < B.NCOMP_TOTAL ∧ (face = 2 * d ∨ face = 2 * d + 1) ∧
            c ∈ L.map (fun n : Nat => idx_var B.N_FC_VAR d n) then
          floorFace B Chk g1 g2 MinDens MinPres
            (fun w => s.1.FC_Var face w c + Correct B.N_FC_VAR s.1.FC_Flux dt dh d w c) v
        else s.1.FC_Var face v c := by
  induction L generalizing s with
  | nil => simp
  | cons a L ih =>
    rw [List.map_cons, List.nodup_cons] at hL
    obtain ⟨hF, hV⟩ := ih hL.2 (TGC_iter B Chk dt dh g1 g2 MinDens MinPres d s a)
    rw [List.foldl_cons]
    refine ⟨by rw [hF, TGC_iter_FC_Flux], ?_⟩
    intro face v c
    rw [hV, TGC_iter_FC_Flux]
    by_cases hv : v < B.NCOMP_TOTAL
    · by_cases hface : face = 2 * d ∨ face = 2 * d + 1
      · by_cases hc : c ∈ L.map (fun n : Nat => idx_var B.N_FC_VAR d n)
        · have hne : c ≠ idx_var B.N_FC_VAR d a := by
            intro e; exact hL.1 (e ▸ hc)
          have hmem : c ∈ List.map (fun n : Nat => idx_var B.N_FC_VAR d n) (a :: L) := by
            rw [List.map_cons]; exact List.mem_cons_of_mem _ hc
          rw [if_pos ⟨hv, hface, hc⟩, if_pos ⟨hv, hface, hmem⟩]
          apply floorFace_congr _ _ _ _ _ _ _ _ _ hv
          intro w hw
          rw [TGC_iter_FC_Var]
          simp [hne]
        · rw [if_neg (fun h => hc h.2.2), TGC_iter_FC_Var]
          by_cases hca : c = idx_var B.N_FC_VAR d a
          · have hmem : c ∈ List.map (fun n : Nat => idx_var B.N_FC_VAR d n) (a :: L) := by
              rw [List.map_cons, hca]; exact List.mem_cons_self _ _
            rw [if_pos ⟨hv, hca, hface⟩, if_pos ⟨hv, hface, hmem⟩]
          · have hmem : ¬ c ∈ List.map (fun n : Nat => idx_var B.N_FC_VAR d n) (a :: L) := by
              rw [List.map_cons, List.mem_cons]; tauto
            rw [if_neg (fun h => hca h.2.1), if_neg (fun h => hmem h.2.2)]
      · rw [if_neg (fun h => hface h.2.1), if_neg (fun h => hface h.2.1), TGC_iter_FC_Var,
          if_neg (fun h => hface h.2.2)]
    · rw [if_neg (fun h => hv h.1), if_neg (fun h => hv h.1), TGC_iter_FC_Var,
        if_neg (fun h => hv h.1)]

theorem NIter_small (N : Int) (hN : ¬ 3 ≤ N) : NIter N ≤ 1 := by
  unfold NIter SQR
  have h : N ≤ 0 ∨ N = 1 ∨ N = 2 := by omega
  rcases h with h | h | h
  · have : N * ((N - 2) * (N - 2)) ≤ 0 :=
      mul_nonpos_of_nonpos_of_nonneg h (mul_self_nonneg _)
    omega
  · subst h; decide
  · subst h; decide

theorem visited_nodup (N : Int) (d : Nat) (hd : d < 3) : (visited N d).Nodup := by
  unfold visited
  by_cases hN : 3 ≤ N
  · apply List.Nodup.map_on _ (List.nodup_range _)
    intro a ha b hb h
    rw [List.mem_range] at ha hb
    have hpos : 0 ≤ N * SQR (N - 2) := mul_nonneg (by omega) (mul_self_nonneg _)
    have ha1 : (a : Int) < N * SQR (N - 2) := by unfold NIter at ha; omega
    have hb1 : (b : Int) < N * SQR (N - 2) := by unfold NIter at hb; omega
    have := idx_var_inj N d hN hd a b (by positivity) ha1 (by positivity) hb1 h
    exact_mod_cast this
  · have h1 := NIter_small N hN
    have h2 : NIter N = 0 ∨ NIter N = 1 := by omega
    rcases h2 with h | h <;> rw [h] <;> simp [List.range_succ]

theorem visited_iff (N : Int) (d : Nat) (hd : d < 3) (hN : 3 ≤ N) (c : Int) :
    c ∈ visited N d ↔ ∃ i j k, GapBox N d i j k ∧ c = IDX321 i j k N N := by
  have hpos : 0 ≤ N * SQR (N - 2) := mul_nonneg (by omega) (mul_self_nonneg _)
  unfold visited
  rw [List.mem_map]
  constructor
  · rintro ⟨n, hn, rfl⟩
    rw [List.mem_range] at hn
    have hn1 : (n : Int) < N * SQR (N - 2) := by unfold NIter at hn; omega
    exact ⟨_, _, _, (vars_inBox N d hN hd n (by positivity) hn1).1, rfl⟩
  · rintro ⟨i, j, k, hb, rfl⟩
    obtain ⟨h0, h1, e1, e2, e3⟩ := idxOf_spec N d hd i j k hb
    refine ⟨(idxOf N d i j k).toNat, ?_, ?_⟩
    · rw [List.mem_range]; unfold NIter; omega
    · show idx_var N d ((idxOf N d i j k).toNat : Int) = _
      rw [Int.toNat_of_nonneg h0]
      unfold idx_var
      rw [e1, e2, e3]

theorem TGC_dir_spec (B : Build) (Chk : EngyFloor) (dt dh g1 g2 MinDens MinPres : real)
    (m : Mem) (d : Nat) (hd : d < 3) :
    (TGC_dir B Chk dt dh g1 g2 MinDens MinPres m d).FC_Flux = m.FC_Flux ∧
    ∀ (face v : Nat) (c : Int),
      (TGC_dir B Chk dt dh g1 g2 MinDens MinPres m d).FC_Var face v c =
        if v < B.NCOMP_TOTAL ∧ (face = 2 * d ∨ face = 2 * d + 1) ∧ c ∈ visited B.N_FC_VAR d then
          floorFace B Chk g1 g2 MinDens MinPres
            (fun w => m.FC_Var face w c + Correct B.N_FC_VAR m.FC_Flux dt dh d w c) v
        else m.FC_Var face v c :=
  TGC_fold_FC B Chk dt dh g1 g2 MinDens MinPres d (List.range (NIter B.N_FC_VAR))
    (visited_nodup B.N_FC_VAR d hd) (m, uninit)

/-- The kernel, entry by entry: the entry `FC_Var[face][v][c]` with `v < NCOMP_TOTAL`,
`face < 6` and `c` visited by the pass of direction `face/2` holds the floored corrected
value computed from the input arrays; every other entry and `FC_Flux` are untouched. -/
theorem TGC_spec (B : Build) (Chk : EngyFloor) (A F : FCArray)
    (dt dh g1 g2 MinDens MinPres : real) :
    (Hydro_TGradient_Correction B Chk A F dt dh g1 g2 MinDens MinPres).FC_Flux = F ∧
    ∀ (face v : Nat) (c : Int),
      (Hydro_TGradient_Correction B Chk A F dt dh g1 g2 MinDens MinPres).FC_Var face v c =
        if v < B.NCOMP_TOTAL ∧ face < 6 ∧ c ∈ visited B.N_FC_VAR (face / 2) then
          floorFace B Chk g1 g2 MinDens MinPres
            (fun w => A face w c + Correct B.N_FC_VAR F dt dh (face / 2) w c) v
        else A face v c := by
  unfold Hydro_TGradient_Correction
  have hr : List.range 3 = [0, 1, 2] := by decide
  rw [hr]
  simp only [List.foldl_cons, List.foldl_nil]
  obtain ⟨f0, v0⟩ := TGC_dir_spec B Chk dt dh g1 g2 MinDens MinPres
    { FC_Var := A, FC_Flux := F } 0 (by omega)
  generalize TGC_dir B Chk dt dh g1 g2 MinDens MinPres { FC_Var := A, FC_Flux := F } 0 = m0
    at f0 v0
  obtain ⟨f1, v1⟩ := TGC_dir_spec B Chk dt dh g1 g2 MinDens MinPres m0 1 (by omega)
  generalize TGC_dir B Chk dt dh g1 g2 MinDens MinPres m0 1 = m1 at f1 v1
  obtain ⟨f2, v2⟩ := TGC_dir_spec B Chk dt dh g1 g2 MinDens MinPres m1 2 (by omega)
  generalize TGC_dir B Chk dt dh g1 g2 MinDens MinPres m1 2 = m2 at f2 v2
  simp only at f0 v0
  rw [f0] at f1
  rw [f1] at f2
  simp only [f0] at v1
  simp only [f1] at v2
  refine ⟨f2, ?_⟩
  intro face v c
  rw [v2]
  by_cases hv : v < B.NCOMP_TOTAL
  · have h6 : face < 2 ∨ (face = 2 ∨ face = 3) ∨ (face = 4 ∨ face = 5) ∨ 6 ≤ face := by omega
    rcases h6 with h | h | h | h
    · have hd : face / 2 = 0 := by omega
      have e2 : ¬ (face = 2 * 2 ∨ face = 2 * 2 + 1) := by omega
      have e1 : ¬ (face = 2 * 1 ∨ face = 2 * 1 + 1) := by omega
      have e0 : (face = 2 * 0 ∨ face = 2 * 0 + 1) := by omega
      have e6 : face < 6 := by omega
      rw [if_neg (fun h => e2 h.2.1), v1, if_neg (fun h => e1 h.2.1), v0, hd]
      simp only [hv, e0, e6, true_and]
    · have hd : face / 2 = 1 := by omega
      have e2 : ¬ (face = 2 * 2 ∨ face = 2 * 2 + 1) := by omega
      have e1 : (face = 2 * 1 ∨ face = 2 * 1 + 1) := by omega
      have e0 : ¬ (face = 2 * 0 ∨ face = 2 * 0 + 1) := by omega
      have e6 : face < 6 := by omega
      rw [if_neg (fun h => e2 h.2.1), v1, hd]
      simp only [hv, e1, e6, true_and]
      have : ∀ w, m0.FC_Var face w c = A face w c := by
        intro w; rw [v0, if_neg (fun h => e0 h.2.1)]
      simp only [this]
    · have hd : face / 2 = 2 := by omega
      have e2 : (face = 2 * 2 ∨ face = 2 * 2 + 1) := by omega
      have e1 : ¬ (face = 2 * 1 ∨ face = 2 * 1 + 1) := by omega
      have e0 : ¬ (face = 2 * 0 ∨ face = 2 * 0 + 1) := by omega
      have e6 : face < 6 := by omega
      rw [hd]
      simp only [hv, e2, e6, true_and]
      have : ∀ w, m1.FC_Var face w c = A face w c := by
        intro w; rw [v1, if_neg (fun h => e1 h.2.1), v0, if_neg (fun h => e0 h.2.1)]
      simp only [this]
    · have e2 : ¬ (face = 2 * 2 ∨ face = 2 * 2 + 1) := by omega
      have e1 : ¬ (face = 2 * 1 ∨ face = 2 * 1 + 1) := by omega
      have e0 : ¬ (face = 2 * 0 ∨ face = 2 * 0 + 1) := by omega
      have e6 : ¬ face < 6 := by omega
      rw [if_neg (fun h => e2 h.2.1), v1, if_neg (fun h => e1 h.2.1), v0,
        if_neg (fun h => e0 h.2.1), if_neg (fun h => e6 h.2.1)]
  · rw [if_neg (fun h => hv h.1), v1, if_neg (fun h => hv h.1), v0, if_neg (fun h => hv h.1),
      if_neg (fun h => hv h.1)]

theorem GapBox_N (N : Int) (d : Nat) (hd : d < 3) (i j k : Int) (hb : GapBox N d i j k) :
    3 ≤ N := by
  obtain ⟨i0, i1, j0, j1, k0, k1⟩ := hb
  interval_cases d <;> simp [gap] at i0 i1 j0 j1 k0 k1 <;> omega

theorem neighbour_index (N i j k : Int) (T : Nat) (hT : T < 3) :
    IDX321 i j k N N - didx N T =
      IDX321 (i - unit T 0) (j - unit T 1) (k - unit T 2) N N := by
  interval_cases T <;> simp [didx, unit, IDX321, SQR] <;> ring

theorem half_dt_dh (dt dh : real) : (1 / 2 : real) * dt / dh = dt / (2 * dh) := by
  rw [div_mul_eq_div_div]; ring

theorem Correct_eq_formula (N : Int) (A F : FCArray) (dt dh : real) (d : Nat)
    (i j k : Int) (f v : Nat) :
    A (2 * d + f) v (IDX321 i j k N N) + Correct N F dt dh d v (IDX321 i j k N N) =
      CTU_formula N A F dt dh d i j k f v := by
  unfold Correct CTU_formula TDir1 TDir2
  rw [neighbour_index N i j k ((d + 1) % 3) (Nat.mod_lt _ (by omega)),
    neighbour_index N i j k ((d + 2) % 3) (Nat.mod_lt _ (by omega)), half_dt_dh]
  ring

/-- The passes of the directions below `d` leave the faces of direction `d` and above, and
the fluxes, as they were. -/
theorem TGC_dirs_prefix (B : Build) (Chk : EngyFloor) (dt dh g1 g2 MinDens MinPres : real)
    (m : Mem) (d : Nat) (hd : d ≤ 3) :
    ((List.range d).foldl (TGC_dir B Chk dt dh g1 g2 MinDens MinPres) m).FC_Flux = m.FC_Flux ∧
    ∀ (face v : Nat) (c : Int), 2 * d ≤ face →
      ((List.range d).foldl (TGC_dir B Chk dt dh g1 g2 MinDens MinPres) m).FC_Var face v c =
        m.FC_Var face v c := by
  induction d with
  | zero => simp
  | succ n ih =>
    obtain ⟨hF, hV⟩ := ih (by omega)
    rw [List.range_succ, List.foldl_append, List.foldl_cons, List.foldl_nil]
    obtain ⟨sF, sV⟩ := TGC_dir_spec B Chk dt dh g1 g2 MinDens MinPres
      ((List.range n).foldl (TGC_dir B Chk dt dh g1 g2 MinDens MinPres) m) n (by omega)
    refine ⟨by rw [sF, hF], ?_⟩
    intro face v c hface
    rw [sV, if_neg (fun h => by omega), hV face v c (by omega)]

/-- The value of an entry of the faces of direction `d` at a cell that none of the earlier
iterations of the pass addresses is still the input value when iteration `idx` starts. -/
theorem TGC_before_spec (B : Build) (Chk : EngyFloor) (A F : FCArray)
    (dt dh g1 g2 MinDens MinPres : real) (d idx : Nat) (hd : d < 3)
    (hidx : idx < NIter B.N_FC_VAR) :
    (TGC_before B Chk A F dt dh g1 g2 MinDens MinPres d idx).1.FC_Flux = F ∧
    ∀ (f v : Nat), (TGC_before B Chk A F dt dh g1 g2 MinDens MinPres d idx).1.FC_Var
      (2 * d + f) v (idx_var B.N_FC_VAR d idx) = A (2 * d + f) v (idx_var B.N_FC_VAR d idx) := by
  unfold TGC_before
  obtain ⟨pF, pV⟩ := TGC_dirs_prefix B Chk dt dh g1 g2 MinDens MinPres
    { FC_Var := A, FC_Flux := F } d (by omega)
  have hnd := visited_nodup B.N_FC_VAR d hd
  unfold visited at hnd
  have hsub : List.Sublist ((List.range (idx + 1)).map (fun n : Nat => idx_var B.N_FC_VAR d n))
      ((List.range (NIter B.N_FC_VAR)).map (fun n : Nat => idx_var B.N_FC_VAR d n)) :=
    (List.range_sublist.mpr (by omega)).map _
  have hnd1 := hnd.sublist hsub
  rw [List.range_succ, List.map_append, List.nodup_append] at hnd1
  obtain ⟨n1, _, n3⟩ := hnd1
  obtain ⟨qF, qV⟩ := TGC_fold_FC B Chk dt dh g1 g2 MinDens MinPres d (List.range idx) n1
    ((List.range d).foldl (TGC_dir B Chk dt dh g1 g2 MinDens MinPres)
      { FC_Var := A, FC_Flux := F }, uninit)
  refine ⟨by rw [qF]; exact pF, ?_⟩
  intro f v
  have hnot : ¬ idx_var B.N_FC_VAR d idx ∈
      List.map (fun n : Nat => idx_var B.N_FC_VAR d n) (List.range idx) := by
    intro h
    exact n3 h (by simp)
  rw [qV, if_neg (fun h => hnot h.2.2)]
  exact pV _ _ _ (by omega)

/-- The box of the table `gap[]` is the processed range of the specification. -/
theorem InBox_gap (N : Int) (d : Nat) (hd : d < 3) (i j k : Int) :
    InBox N d i j k ↔ GapBox N d i j k := by
  unfold InBox GapBox
  interval_cases d <;> simp only [gap] <;> constructor <;> intro h <;> simp at h ⊢ <;> omega

theorem visited_box (N : Int) (d : Nat) (hd : d < 3) (i j k : Int) (hb : GapBox N d i j k) :
    IDX321 i j k N N ∈ visited N d :=
  (visited_iff N d hd (GapBox_N N d hd i j k hb) _).mpr ⟨i, j, k, hb, rfl⟩

/-- The stored value of an entry of a face of direction `d` at a cell of the box of `d`. -/
theorem TGC_box (B : Build) (Chk : EngyFloor) (A F : FCArray)
    (dt dh g1 g2 MinDens MinPres : real) (d : Nat) (hd : d < 3) (i j k : Int)
    (hb : GapBox B.N_FC_VAR d i j k) (f : Nat) (hf : f < 2) (v : Nat) (hv : v < B.NCOMP_TOTAL) :
    (Hydro_TGradient_Correction B Chk A F dt dh g1 g2 MinDens MinPres).FC_Var (2 * d + f) v
        (IDX321 i j k B.N_FC_VAR B.N_FC_VAR) =
      floorFace B Chk g1 g2 MinDens MinPres
        (fun w => CTU_formula B.N_FC_VAR A F dt dh d i j k f w) v := by
  have hdiv : (2 * d + f) / 2 = d := by omega
  have h6 : 2 * d + f < 6 := by omega
  rw [(TGC_spec B Chk A F dt dh g1 g2 MinDens MinPres).2, hdiv,
    if_pos ⟨hv, h6, visited_box B.N_FC_VAR d hd i j k hb⟩]
  simp only [Correct_eq_formula]

/-- C1: for every direction `d`, every cell `(i,j,k)` of the processed box of `d`, both faces
`2d+f` and every component `v`, the iteration that visits the cell holds, before flooring, the
value `FC_Var_old - (dt/(2 dh)) * (transverse flux differences)`; for the momentum components
`v = 1, 2, 3` this is the value stored back in `FC_Var`. -/
theorem C1_transverse_correction (B : Build) (Chk : EngyFloor) (A F : FCArray)
    (dt dh g1 g2 MinDens MinPres : real) (d : Nat) (hd : d < 3) (i j k : Int)
    (hb0 : InBox B.N_FC_VAR d i j k) (f : Nat) (hf : f < 2) (v : Nat) (hv : v < B.NCOMP_TOTAL) :
    (∃ idx : Nat, idx < NIter B.N_FC_VAR ∧
      i_var B.N_FC_VAR d idx = i ∧ j_var B.N_FC_VAR d idx = j ∧ k_var B.N_FC_VAR d idx = k ∧
      TGC_prefloor B dt dh d (TGC_before B Chk A F dt dh g1 g2 MinDens MinPres d idx) idx f v =
        CTU_formula B.N_FC_VAR A F dt dh d i j k f v) ∧
    ((v = 1 ∨ v = 2 ∨ v = 3) →
      (Hydro_TGradient_Correction B Chk A F dt dh g1 g2 MinDens MinPres).FC_Var (2 * d + f) v
        (IDX321 i j k B.N_FC_VAR B.N_FC_VAR) = CTU_formula B.N_FC_VAR A F dt dh d i j k f v) := by
  have hb := (InBox_gap B.N_FC_VAR d hd i j k).mp hb0
  constructor
  · obtain ⟨h0, h1, e1, e2, e3⟩ := idxOf_spec B.N_FC_VAR d hd i j k hb
    have hlt : (idxOf B.N_FC_VAR d i j k).toNat < NIter B.N_FC_VAR := by unfold NIter; omega
    have hcast : (((idxOf B.N_FC_VAR d i j k).toNat : Nat) : Int) = idxOf B.N_FC_VAR d i j k :=
      Int.toNat_of_nonneg h0
    have hc : idx_var B.N_FC_VAR d ((idxOf B.N_FC_VAR d i j k).toNat : Nat) =
        IDX321 i j k B.N_FC_VAR B.N_FC_VAR := by
      rw [hcast]; unfold idx_var; rw [e1, e2, e3]
    refine ⟨(idxOf B.N_FC_VAR d i j k).toNat, hlt, ?_, ?_, ?_, ?_⟩
    · rw [hcast]; exact e1
    · rw [hcast]; exact e2
    · rw [hcast]; exact e3
    · obtain ⟨bF, bV⟩ := TGC_before_spec B Chk A F dt dh g1 g2 MinDens MinPres d _ hd hlt
      rw [TGC_prefloor_apply B dt dh d _ _ f v hf hv, bF, bV, hc, Correct_eq_formula]
  · intro h123
    rw [TGC_box B Chk A F dt dh g1 g2 MinDens MinPres d hd i j k hb f hf v hv]
    unfold floorFace NCOMP_FLUID
    rw [if_neg (by omega), if_neg (by omega), if_neg (by omega)]

/-- C1 at a concrete input: three cells per direction, direction 0, cell `(0,1,1)`, low face,
x-momentum, fluxes with a gradient. -/
theorem C1_transverse_correction_witness :
    (∃ idx : Nat, idx < NIter sampleBuild.N_FC_VAR ∧
      i_var sampleBuild.N_FC_VAR 0 idx = 0 ∧ j_var sampleBuild.N_FC_VAR 0 idx = 1 ∧
      k_var sampleBuild.N_FC_VAR 0 idx = 1 ∧
      TGC_prefloor sampleBuild 1 1 0
        (TGC_before sampleBuild Hydro_CheckMinPresInEngy sampleVar sampleFlux 1 1 1 1 1 1 0 idx)
        idx 0 1 = CTU_formula sampleBuild.N_FC_VAR sampleVar sampleFlux 1 1 0 0 1 1 0 1) ∧
    ((1 = 1 ∨ 1 = 2 ∨ 1 = 3) →
      (Hydro_TGradient_Correction sampleBuild Hydro_CheckMinPresInEngy sampleVar sampleFlux
        1 1 1 1 1 1).FC_Var (2 * 0 + 0) 1
        (IDX321 0 1 1 sampleBuild.N_FC_VAR sampleBuild.N_FC_VAR) =
          CTU_formula sampleBuild.N_FC_VAR sampleVar sampleFlux 1 1 0 0 1 1 0 1) :=
  C1_transverse_correction sampleBuild Hydro_CheckMinPresInEngy sampleVar sampleFlux
    1 1 1 1 1 1 0 (by decide) 0 1 1 (by unfold InBox; decide) 0 (by decide) 1 (by decide)

/-- C2: for an orientation `d` the transverse directions `(d+1)%3` and `(d+2)%3` are the two
directions different from `d`; for every iteration `idx` of the pass (with `NCell >= 3`) and
each transverse direction `T` the index `idx_var - didx[T]` is `IDX321` of the visited cell
with its `T`-coordinate decreased by one, and that neighbour still lies in the cube
`[0, NCell)^3` (no wrap into another row or plane); and the faces `2d`, `2d+1` of the result
do not depend on `FC_Flux[d]`. -/
theorem C2_transverse_indexing (B : Build) (Chk : EngyFloor) (A F F' : FCArray)
    (dt dh g1 g2 MinDens MinPres : real) (d : Nat) (hd : d < 3) (hN : 3 ≤ B.N_FC_VAR)
    (idx : Nat) (hidx : idx < NIter B.N_FC_VAR) (T : Nat) (hT : T = TDir1 d ∨ T = TDir2 d) :
    (TDir1 d < 3 ∧ TDir2 d < 3 ∧ TDir1 d ≠ d ∧ TDir2 d ≠ d ∧ TDir1 d ≠ TDir2 d) ∧
    (idx_var B.N_FC_VAR d idx - didx B.N_FC_VAR T =
        IDX321 (i_var B.N_FC_VAR d idx - unit T 0) (j_var B.N_FC_VAR d idx - unit T 1)
          (k_var B.N_FC_VAR d idx - unit T 2) B.N_FC_VAR B.N_FC_VAR ∧
      0 ≤ i_var B.N_FC_VAR d idx - unit T 0 ∧ i_var B.N_FC_VAR d idx - unit T 0 < B.N_FC_VAR ∧
      0 ≤ j_var B.N_FC_VAR d idx - unit T 1 ∧ j_var B.N_FC_VAR d idx - unit T 1 < B.N_FC_VAR ∧
      0 ≤ k_var B.N_FC_VAR d idx - unit T 2 ∧ k_var B.N_FC_VAR d idx - unit T 2 < B.N_FC_VAR) ∧
    ((∀ (T' v : Nat) (c : Int), T' ≠ d → F T' v c = F' T' v c) →
      ∀ (f v : Nat) (c : Int), f < 2 →
        (Hydro_TGradient_Correction B Chk A F dt dh g1 g2 MinDens MinPres).FC_Var (2 * d + f) v c =
        (Hydro_TGradient_Correction B Chk A F' dt dh g1 g2 MinDens MinPres).FC_Var (2 * d + f) v c)
    := by
  have hdirs : TDir1 d < 3 ∧ TDir2 d < 3 ∧ TDir1 d ≠ d ∧ TDir2 d ≠ d ∧ TDir1 d ≠ TDir2 d := by
    unfold TDir1 TDir2; omega
  have hTlt : T < 3 := by rcases hT with h | h <;> rw [h] <;> simp only [TDir1, TDir2] <;> omega
  have hTd : T ≠ d := by rcases hT with h | h <;> rw [h] <;> simp only [TDir1, TDir2] <;> omega
  refine ⟨hdirs, ⟨?_, ?_⟩, ?_⟩
  · unfold idx_var
    exact neighbour_index _ _ _ _ T hTlt
  · have hpos : 0 ≤ B.N_FC_VAR * SQR (B.N_FC_VAR - 2) := mul_nonneg (by omega) (mul_self_nonneg _)
    have h1 : (idx : Int) < B.N_FC_VAR * SQR (B.N_FC_VAR - 2) := by unfold NIter at hidx; omega
    obtain ⟨⟨i0, i1, j0, j1, k0, k1⟩, _⟩ :=
      vars_inBox B.N_FC_VAR d hN hd idx (by positivity) h1
    have hg : ∀ n : Nat, n ≠ d → n < 3 → gap d n = 1 := by
      intro n hn hn3
      interval_cases d <;> interval_cases n <;> simp_all [gap]
    have hg0 : ∀ n : Nat, 0 ≤ gap d n := by
      intro n; unfold gap; split <;> simp
    have g0 := hg0 0
    have g1 := hg0 1
    have g2 := hg0 2
    have hu : ∀ n : Nat, n < 3 → (unit T n = 0 ∨ (unit T n = 1 ∧ gap d n = 1)) := by
      intro n hn3
      unfold unit
      by_cases h : n = T
      · right; rw [if_pos h]; exact ⟨rfl, hg n (h ▸ hTd) hn3⟩
      · left; rw [if_neg h]
    have u0 := hu 0 (by omega)
    have u1 := hu 1 (by omega)
    have u2 := hu 2 (by omega)
    refine ⟨?_, ?_, ?_, ?_, ?_, ?_⟩ <;> omega
  · intro hF f v c hf
    have hdiv : (2 * d + f) / 2 = d := by omega
    rw [(TGC_spec B Chk A F dt dh g1 g2 MinDens MinPres).2,
      (TGC_spec B Chk A F' dt dh g1 g2 MinDens MinPres).2, hdiv]
    have hC : ∀ w, Correct B.N_FC_VAR F dt dh d w c = Correct B.N_FC_VAR F' dt dh d w c := by
      intro w
      unfold Correct
      rw [hF _ w c hdirs.2.2.1, hF _ w _ hdirs.2.2.1, hF _ w c hdirs.2.2.2.1,
        hF _ w _ hdirs.2.2.2.1]
    simp only [hC]

/-- C2 at a concrete input: three cells per direction, direction 0, iteration 1, `T = 1`. -/
theorem C2_transverse_indexing_witness :
    (TDir1 0 < 3 ∧ TDir2 0 < 3 ∧ TDir1 0 ≠ 0 ∧ TDir2 0 ≠ 0 ∧ TDir1 0 ≠ TDir2 0) ∧
    (idx_var sampleBuild.N_FC_VAR 0 (1 : Nat) - didx sampleBuild.N_FC_VAR 1 =
        IDX321 (i_var sampleBuild.N_FC_VAR 0 (1 : Nat) - unit 1 0)
          (j_var sampleBuild.N_FC_VAR 0 (1 : Nat) - unit 1 1)
          (k_var sampleBuild.N_FC_VAR 0 (1 : Nat) - unit 1 2)
          sampleBuild.N_FC_VAR sampleBuild.N_FC_VAR ∧
      0 ≤ i_var sampleBuild.N_FC_VAR 0 (1 : Nat) - unit 1 0 ∧
      i_var sampleBuild.N_FC_VAR 0 (1 : Nat) - unit 1 0 < sampleBuild.N_FC_VAR ∧
      0 ≤ j_var sampleBuild.N_FC_VAR 0 (1 : Nat) - unit 1 1 ∧
      j_var sampleBuild.N_FC_VAR 0 (1 : Nat) - unit 1 1 < sampleBuild.N_FC_VAR ∧
      0 ≤ k_var sampleBuild.N_FC_VAR 0 (1 : Nat) - unit 1 2 ∧
      k_var sampleBuild.N_FC_VAR 0 (1 : Nat) - unit 1 2 < sampleBuild.N_FC_VAR) ∧
    ((∀ (T' v : Nat) (c : Int), T' ≠ 0 → sampleFlux T' v c = sampleFlux T' v c) →
      ∀ (f v : Nat) (c : Int), f < 2 →
        (Hydro_TGradient_Correction sampleBuild Hydro_CheckMinPresInEngy sampleVar sampleFlux
          1 1 1 1 1 1).FC_Var (2 * 0 + f) v c =
        (Hydro_TGradient_Correction sampleBuild Hydro_CheckMinPresInEngy sampleVar sampleFlux
          1 1 1 1 1 1).FC_Var (2 * 0 + f) v c) :=
  C2_transverse_indexing sampleBuild Hydro_CheckMinPresInEngy sampleVar sampleFlux sampleFlux
    1 1 1 1 1 1 0 (by decide) (by decide) 1 (by decide) 1 (Or.inl (by decide))

/-- C3: after the kernel, for every direction `d`, every cell of the processed box of `d` and
both faces `2d+f`, the stored density is at least `MinDens`, whatever the input face states
and fluxes. -/
theorem C3_density_floor (B : Build) (Chk : EngyFloor) (A F : FCArray)
    (dt dh g1 g2 MinDens MinPres : real) (d : Nat) (hd : d < 3) (i j k : Int)
    (hb0 : InBox B.N_FC_VAR d i j k) (f : Nat) (hf : f < 2) :
    MinDens ≤ (Hydro_TGradient_Correction B Chk A F dt dh g1 g2 MinDens MinPres).FC_Var
      (2 * d + f) 0 (IDX321 i j k B.N_FC_VAR B.N_FC_VAR) := by
  have hb := (InBox_gap B.N_FC_VAR d hd i j k).mp hb0
  have hv : 0 < B.NCOMP_TOTAL := by unfold Build.NCOMP_TOTAL NCOMP_FLUID; omega
  rw [TGC_box B Chk A F dt dh g1 g2 MinDens MinPres d hd i j k hb f hf 0 hv]
  unfold floorFace FMAX
  rw [if_pos rfl]
  exact le_max_right _ _

/-- C3 at a concrete input: a negative input density and a large flux gradient. -/
theorem C3_density_floor_witness :
    (1 : real) ≤ (Hydro_TGradient_Correction sampleBuild Hydro_CheckMinPresInEngy
      (fun _ _ _ => -5) sampleFlux 1 1 1 1 1 1).FC_Var (2 * 0 + 0) 0
      (IDX321 0 1 1 sampleBuild.N_FC_VAR sampleBuild.N_FC_VAR) :=
  C3_density_floor sampleBuild Hydro_CheckMinPresInEngy (fun _ _ _ => -5) sampleFlux
    1 1 1 1 1 1 0 (by decide) 0 1 1 (by unfold InBox; decide) 0 (by decide)

theorem helper_pressure (Dens MomX MomY MomZ Engy Gamma MinPres : real) (hG : 1 < Gamma) :
    MinPres ≤ (Gamma - 1) *
      (Hydro_CheckMinPresInEngy Dens MomX MomY MomZ Engy (Gamma - 1) (1 / (Gamma - 1)) MinPres -
        (MomX ^ 2 + MomY ^ 2 + MomZ ^ 2) / (2 * Dens)) := by
  have hg : Gamma - 1 ≠ 0 := by linarith
  unfold Hydro_CheckMinPresInEngy
  simp only
  split_ifs with h
  · have : (Gamma - 1) * ((MomX ^ 2 + MomY ^ 2 + MomZ ^ 2) / (2 * Dens) +
        1 / (Gamma - 1) * MinPres - (MomX ^ 2 + MomY ^ 2 + MomZ ^ 2) / (2 * Dens)) = MinPres := by
      rw [add_sub_cancel_left, one_div, mul_inv_cancel_left₀ hg]
    rw [this]
  · exact not_lt.mp h

/-- C4: with the floor helper of spec §4.5, `Gamma > 1`, `Gamma_m1 = Gamma - 1`,
`_Gamma_m1 = 1/Gamma_m1` and `MinDens > 0`, every face state the kernel writes has a positive
density and an implied pressure `Gamma_m1*(E - (MomX^2+MomY^2+MomZ^2)/(2*Dens))` of at least
`MinPres`. -/
theorem C4_pressure_floor (B : Build) (A F : FCArray) (dt dh Gamma MinDens MinPres : real)
    (hG : 1 < Gamma) (hD : 0 < MinDens) (d : Nat) (hd : d < 3) (i j k : Int)
    (hb0 : InBox B.N_FC_VAR d i j k) (f : Nat) (hf : f < 2) :
    0 < (Hydro_TGradient_Correction B Hydro_CheckMinPresInEngy A F dt dh (Gamma - 1)
        (1 / (Gamma - 1)) MinDens MinPres).FC_Var (2 * d + f) 0
        (IDX321 i j k B.N_FC_VAR B.N_FC_VAR) ∧
    MinPres ≤ (Gamma - 1) *
      ((Hydro_TGradient_Correction B Hydro_CheckMinPresInEngy A F dt dh (Gamma - 1)
          (1 / (Gamma - 1)) MinDens MinPres).FC_Var (2 * d + f) 4
          (IDX321 i j k B.N_FC_VAR B.N_FC_VAR) -
        ((Hydro_TGradient_Correction B Hydro_CheckMinPresInEngy A F dt dh (Gamma - 1)
            (1 / (Gamma - 1)) MinDens MinPres).FC_Var (2 * d + f) 1
            (IDX321 i j k B.N_FC_VAR B.N_FC_VAR) ^ 2 +
          (Hydro_TGradient_Correction B Hydro_CheckMinPresInEngy A F dt dh (Gamma - 1)
            (1 / (Gamma - 1)) MinDens MinPres).FC_Var (2 * d + f) 2
            (IDX321 i j k B.N_FC_VAR B.N_FC_VAR) ^ 2 +
          (Hydro_TGradient_Correction B Hydro_CheckMinPresInEngy A F dt dh (Gamma - 1)
            (1 / (Gamma - 1)) MinDens MinPres).FC_Var (2 * d + f) 3
            (IDX321 i j k B.N_FC_VAR B.N_FC_VAR) ^ 2) /
          (2 * (Hydro_TGradient_Correction B Hydro_CheckMinPresInEngy A F dt dh (Gamma - 1)
            (1 / (Gamma - 1)) MinDens MinPres).FC_Var (2 * d + f) 0
            (IDX321 i j k B.N_FC_VAR B.N_FC_VAR))) := by
  have hb := (InBox_gap B.N_FC_VAR d hd i j k).mp hb0
  have hT : 5 ≤ B.NCOMP_TOTAL := by unfold Build.NCOMP_TOTAL NCOMP_FLUID; omega
  rw [TGC_box B _ A F dt dh _ _ MinDens MinPres d hd i j k hb f hf 0 (by omega),
    TGC_box B _ A F dt dh _ _ MinDens MinPres d hd i j k hb f hf 1 (by omega),
    TGC_box B _ A F dt dh _ _ MinDens MinPres d hd i j k hb f hf 2 (by omega),
    TGC_box B _ A F dt dh _ _ MinDens MinPres d hd i j k hb f hf 3 (by omega),
    TGC_box B _ A F dt dh _ _ MinDens MinPres d hd i j k hb f hf 4 (by omega)]
  unfold floorFace NCOMP_FLUID
  simp only [if_true, if_false, OfNat.ofNat_ne_zero, OfNat.ofNat_ne_one, one_ne_zero,
    show ¬ ((1 : Nat) = 4) by decide, show ¬ ((2 : Nat) = 4) by decide,
    show ¬ ((3 : Nat) = 4) by decide, show ¬ ((5 : Nat) ≤ 1) by decide,
    show ¬ ((5 : Nat) ≤ 2) by decide, show ¬ ((5 : Nat) ≤ 3) by decide, false_and,
    show ((4 : Nat) = 0) = False by decide]
  refine ⟨?_, helper_pressure _ _ _ _ _ Gamma MinPres hG⟩
  unfold FMAX
  exact lt_of_lt_of_le hD (le_max_right _ _)

/-- C4 at a concrete input: `Gamma = 2`, floors 1, a near-vacuum input and a flux gradient. -/
theorem C4_pressure_floor_witness :
    0 < (Hydro_TGradient_Correction sampleBuild Hydro_CheckMinPresInEngy (fun _ _ _ => -5)
        sampleFlux 1 1 (2 - 1) (1 / (2 - 1)) 1 1).FC_Var (2 * 0 + 0) 0
        (IDX321 0 1 1 sampleBuild.N_FC_VAR sampleBuild.N_FC_VAR) ∧
    (1 : real) ≤ (2 - 1) *
      ((Hydro_TGradient_Correction sampleBuild Hydro_CheckMinPresInEngy (fun _ _ _ => -5)
          sampleFlux 1 1 (2 - 1) (1 / (2 - 1)) 1 1).FC_Var (2 * 0 + 0) 4
          (IDX321 0 1 1 sampleBuild.N_FC_VAR sampleBuild.N_FC_VAR) -
        ((Hydro_TGradient_Correction sampleBuild Hydro_CheckMinPresInEngy (fun _ _ _ => -5)
            sampleFlux 1 1 (2 - 1) (1 / (2 - 1)) 1 1).FC_Var (2 * 0 + 0) 1
            (IDX321 0 1 1 sampleBuild.N_FC_VAR sampleBuild.N_FC_VAR) ^ 2 +
          (Hydro_TGradient_Correction sampleBuild Hydro_CheckMinPresInEngy (fun _ _ _ => -5)
            sampleFlux 1 1 (2 - 1) (1 / (2 - 1)) 1 1).FC_Var (2 * 0 + 0) 2
            (IDX321 0 1 1 sampleBuild.N_FC_VAR sampleBuild.N_FC_VAR) ^ 2 +
          (Hydro_TGradient_Correction sampleBuild Hydro_CheckMinPresInEngy (fun _ _ _ => -5)
            sampleFlux 1 1 (2 - 1) (1 / (2 - 1)) 1 1).FC_Var (2 * 0 + 0) 3
            (IDX321 0 1 1 sampleBuild.N_FC_VAR sampleBuild.N_FC_VAR) ^ 2) /
          (2 * (Hydro_TGradient_Correction sampleBuild Hydro_CheckMinPresInEngy (fun _ _ _ => -5)
            sampleFlux 1 1 (2 - 1) (1 / (2 - 1)) 1 1).FC_Var (2 * 0 + 0) 0
            (IDX321 0 1 1 sampleBuild.N_FC_VAR sampleBuild.N_FC_VAR))) :=
  C4_pressure_floor sampleBuild (fun _ _ _ => -5) sampleFlux 1 1 2 1 1 (by norm_num)
    (by norm_num) 0 (by decide) 0 1 1 (by unfold InBox; decide) 0 (by decide)

/-- C5: the floors are applied face by face: for a face `2d+f` of a visited cell the stored
density is `max(corrected density, MinDens)`, the stored momentum is the corrected momentum,
the stored energy is the helper applied to the floored density, the corrected momentum and the
corrected energy, every passive scalar is `max(corrected value, TINY_NUMBER)`; and the stored
state of a face is determined by the corrected state of that face alone (any other input with
the same corrected state of this face gives the same stored state). -/
theorem C5_floors_per_face (B : Build) (Chk : EngyFloor) (A F A' F' : FCArray)
    (dt dh g1 g2 MinDens MinPres : real) (d : Nat) (hd : d < 3) (i j k : Int)
    (hb0 : InBox B.N_FC_VAR d i j k) (f : Nat) (hf : f < 2) :
    (Hydro_TGradient_Correction B Chk A F dt dh g1 g2 MinDens MinPres).FC_Var (2 * d + f) 0
        (IDX321 i j k B.N_FC_VAR B.N_FC_VAR) =
      FMAX (CTU_formula B.N_FC_VAR A F dt dh d i j k f 0) MinDens ∧
    (∀ v, (v = 1 ∨ v = 2 ∨ v = 3) →
      (Hydro_TGradient_Correction B Chk A F dt dh g1 g2 MinDens MinPres).FC_Var (2 * d + f) v
        (IDX321 i j k B.N_FC_VAR B.N_FC_VAR) = CTU_formula B.N_FC_VAR A F dt dh d i j k f v) ∧
    (Hydro_TGradient_Correction B Chk A F dt dh g1 g2 MinDens MinPres).FC_Var (2 * d + f) 4
        (IDX321 i j k B.N_FC_VAR B.N_FC_VAR) =
      Chk (FMAX (CTU_formula B.N_FC_VAR A F dt dh d i j k f 0) MinDens)
        (CTU_formula B.N_FC_VAR A F dt dh d i j k f 1)
        (CTU_formula B.N_FC_VAR A F dt dh d i j k f 2)
        (CTU_formula B.N_FC_VAR A F dt dh d i j k f 3)
        (CTU_formula B.N_FC_VAR A F dt dh d i j k f 4) g1 g2 MinPres ∧
    (∀ v, NCOMP_FLUID ≤ v → v < B.NCOMP_TOTAL →
      (Hydro_TGradient_Correction B Chk A F dt dh g1 g2 MinDens MinPres).FC_Var (2 * d + f) v
        (IDX321 i j k B.N_FC_VAR B.N_FC_VAR) =
      FMAX (CTU_formula B.N_FC_VAR A F dt dh d i j k f v) B.TINY_NUMBER) ∧
    ((∀ w, w < B.NCOMP_TOTAL → CTU_formula B.N_FC_VAR A' F' dt dh d i j k f w =
        CTU_formula B.N_FC_VAR A F dt dh d i j k f w) →
      ∀ v, v < B.NCOMP_TOTAL →
        (Hydro_TGradient_Correction B Chk A' F' dt dh g1 g2 MinDens MinPres).FC_Var (2 * d + f) v
          (IDX321 i j k B.N_FC_VAR B.N_FC_VAR) =
        (Hydro_TGradient_Correction B Chk A F dt dh g1 g2 MinDens MinPres).FC_Var (2 * d + f) v
          (IDX321 i j k B.N_FC_VAR B.N_FC_VAR)) := by
  have hb := (InBox_gap B.N_FC_VAR d hd i j k).mp hb0
  have hT : B.NCOMP_TOTAL = 5 + B.NCOMP_PASSIVE := rfl
  refine ⟨?_, ?_, ?_, ?_, ?_⟩
  · rw [TGC_box B Chk A F dt dh g1 g2 MinDens MinPres d hd i j k hb f hf 0 (by omega)]
    unfold floorFace
    rw [if_pos rfl]
  · intro v hv
    rw [TGC_box B Chk A F dt dh g1 g2 MinDens MinPres d hd i j k hb f hf v (by omega)]
    unfold floorFace NCOMP_FLUID
    rw [if_neg (by omega), if_neg (by omega), if_neg (by omega)]
  · rw [TGC_box B Chk A F dt dh g1 g2 MinDens MinPres d hd i j k hb f hf 4 (by omega)]
    unfold floorFace
    rw [if_neg (by omega), if_pos rfl]
  · intro v h5 hv
    unfold NCOMP_FLUID at h5
    rw [TGC_box B Chk A F dt dh g1 g2 MinDens MinPres d hd i j k hb f hf v hv]
    unfold floorFace NCOMP_FLUID
    rw [if_neg (by omega), if_neg (by omega), if_pos ⟨h5, hv⟩]
  · intro hsame v hv
    rw [TGC_box B Chk A F dt dh g1 g2 MinDens MinPres d hd i j k hb f hf v hv,
      TGC_box B Chk A' F' dt dh g1 g2 MinDens MinPres d hd i j k hb f hf v hv]
    exact floorFace_congr B Chk g1 g2 MinDens MinPres _ _ v hv hsame

/-- C5 at a concrete input: direction 0, cell `(0,1,1)`, the high face. -/
theorem C5_floors_per_face_witness :
    (Hydro_TGradient_Correction sampleBuild Hydro_CheckMinPresInEngy sampleVar sampleFlux
        1 1 1 1 1 1).FC_Var (2 * 0 + 1) 0 (IDX321 0 1 1 sampleBuild.N_FC_VAR sampleBuild.N_FC_VAR) =
      FMAX (CTU_formula sampleBuild.N_FC_VAR sampleVar sampleFlux 1 1 0 0 1 1 1 0) 1 ∧
    (Hydro_TGradient_Correction sampleBuild Hydro_CheckMinPresInEngy sampleVar sampleFlux
        1 1 1 1 1 1).FC_Var (2 * 0 + 1) 4 (IDX321 0 1 1 sampleBuild.N_FC_VAR sampleBuild.N_FC_VAR) =
      Hydro_CheckMinPresInEngy
        (FMAX (CTU_formula sampleBuild.N_FC_VAR sampleVar sampleFlux 1 1 0 0 1 1 1 0) 1)
        (CTU_formula sampleBuild.N_FC_VAR sampleVar sampleFlux 1 1 0 0 1 1 1 1)
        (CTU_formula sampleBuild.N_FC_VAR sampleVar sampleFlux 1 1 0 0 1 1 1 2)
        (CTU_formula sampleBuild.N_FC_VAR sampleVar sampleFlux 1 1 0 0 1 1 1 3)
        (CTU_formula sampleBuild.N_FC_VAR sampleVar sampleFlux 1 1 0 0 1 1 1 4) 1 1 1 :=
  ⟨(C5_floors_per_face sampleBuild Hydro_CheckMinPresInEngy sampleVar sampleFlux sampleVar
      sampleFlux 1 1 1 1 1 1 0 (by decide) 0 1 1 (by unfold InBox; decide) 1 (by decide)).1,
    (C5_floors_per_face sampleBuild Hydro_CheckMinPresInEngy sampleVar sampleFlux sampleVar
      sampleFlux 1 1 1 1 1 1 0 (by decide) 0 1 1 (by unfold InBox; decide) 1
      (by decide)).2.2.1⟩

/-- C6: the kernel leaves `FC_Flux` unchanged; an entry `FC_Var[face][v][c]` is changed only
if `face < 6` and `c` is a cell of the box processed by the pass of direction `face/2`; every
face state of a cell of the cube whose coordinate along a direction transverse to the face is
`0` or `NCell-1` is left exactly as it was. -/
theorem C6_frame (B : Build) (Chk : EngyFloor) (A F : FCArray)
    (dt dh g1 g2 MinDens MinPres : real) (hN : 3 ≤ B.N_FC_VAR) :
    (Hydro_TGradient_Correction B Chk A F dt dh g1 g2 MinDens MinPres).FC_Flux = F ∧
    (∀ (face v : Nat) (c : Int),
      (Hydro_TGradient_Correction B Chk A F dt dh g1 g2 MinDens MinPres).FC_Var face v c ≠
          A face v c →
        face < 6 ∧ v < B.NCOMP_TOTAL ∧
          ∃ i j k, InBox B.N_FC_VAR (face / 2) i j k ∧ c = IDX321 i j k B.N_FC_VAR B.N_FC_VAR) ∧
    (∀ (face v T : Nat) (i j k : Int), T < 3 → T ≠ face / 2 →
      0 ≤ i → i < B.N_FC_VAR → 0 ≤ j → j < B.N_FC_VAR → 0 ≤ k → k < B.N_FC_VAR →
      (coord T i j k = 0 ∨ coord T i j k = B.N_FC_VAR - 1) →
      (Hydro_TGradient_Correction B Chk A F dt dh g1 g2 MinDens MinPres).FC_Var face v
          (IDX321 i j k B.N_FC_VAR B.N_FC_VAR) = A face v (IDX321 i j k B.N_FC_VAR B.N_FC_VAR)) := by
  obtain ⟨sF, sV⟩ := TGC_spec B Chk A F dt dh g1 g2 MinDens MinPres
  have hchg : ∀ (face v : Nat) (c : Int),
      (Hydro_TGradient_Correction B Chk A F dt dh g1 g2 MinDens MinPres).FC_Var face v c ≠
          A face v c →
        face < 6 ∧ v < B.NCOMP_TOTAL ∧
          ∃ i j k, GapBox B.N_FC_VAR (face / 2) i j k ∧ c = IDX321 i j k B.N_FC_VAR B.N_FC_VAR := by
    intro face v c hne
    rw [sV] at hne
    by_cases hc : v < B.NCOMP_TOTAL ∧ face < 6 ∧ c ∈ visited B.N_FC_VAR (face / 2)
    · exact ⟨hc.2.1, hc.1, (visited_iff B.N_FC_VAR (face / 2) (by omega) hN c).mp hc.2.2⟩
    · rw [if_neg hc] at hne
      exact absurd rfl hne
  refine ⟨sF, ?_, ?_⟩
  · intro face v c hne
    obtain ⟨h6, hv, i, j, k, hb, hc⟩ := hchg face v c hne
    exact ⟨h6, hv, i, j, k, (InBox_gap B.N_FC_VAR (face / 2) (by omega) i j k).mpr hb, hc⟩
  intro face v T i j k hT hTd i0 i1 j0 j1 k0 k1 hedge
  by_contra hne
  obtain ⟨h6, _, i', j', k', hb, hc⟩ := hchg face v _ hne
  have hcube := GapBox_cube _ _ _ _ _ hb
  obtain ⟨e1, e2, e3⟩ := IDX321_inj B.N_FC_VAR i j k i' j' k' i0 i1 hcube.1 hcube.2.1 j0 j1
    hcube.2.2.1 hcube.2.2.2.1 hc
  subst e1 e2 e3
  obtain ⟨b0, b1, b2, b3, b4, b5⟩ := hb
  have hd3 : face / 2 < 3 := by omega
  generalize face / 2 = d at hTd hd3 b0 b1 b2 b3 b4 b5
  interval_cases d <;> interval_cases T <;> simp [gap, coord] at hTd b0 b1 b2 b3 b4 b5 hedge <;>
    omega

/-- C6 at a concrete input: three cells per direction. -/
theorem C6_frame_witness :
    (Hydro_TGradient_Correction sampleBuild Hydro_CheckMinPresInEngy sampleVar sampleFlux
      1 1 1 1 1 1).FC_Flux = sampleFlux ∧
    (Hydro_TGradient_Correction sampleBuild Hydro_CheckMinPresInEngy sampleVar sampleFlux
      1 1 1 1 1 1).FC_Var 0 1 (IDX321 1 0 1 sampleBuild.N_FC_VAR sampleBuild.N_FC_VAR) =
        sampleVar 0 1 (IDX321 1 0 1 sampleBuild.N_FC_VAR sampleBuild.N_FC_VAR) :=
  ⟨(C6_frame sampleBuild Hydro_CheckMinPresInEngy sampleVar sampleFlux 1 1 1 1 1 1
      (by decide)).1,
    (C6_frame sampleBuild Hydro_CheckMinPresInEngy sampleVar sampleFlux 1 1 1 1 1 1
      (by decide)).2.2 0 1 1 1 0 1 (by decide) (by decide) (by decide) (by decide) (by decide)
      (by decide) (by decide) (by decide) (Or.inl (by decide))⟩

theorem helper_unchanged (Dens MomX MomY MomZ Engy g1 g2 MinPres : real)
    (h : MinPres ≤ g1 * (Engy - (MomX ^ 2 + MomY ^ 2 + MomZ ^ 2) / (2 * Dens))) :
    Hydro_CheckMinPresInEngy Dens MomX MomY MomZ Engy g1 g2 MinPres = Engy := by
  unfold Hydro_CheckMinPresInEngy
  simp only
  rw [if_neg (not_lt.mpr h)]

/-- Flooring leaves a state alone when it already satisfies the three floors. -/
theorem floorFace_fixed (B : Build) (g1 g2 MinDens MinPres : real) (x : Nat → real)
    (hdens : MinDens ≤ x 0)
    (hpres : MinPres ≤ g1 * (x 4 - (x 1 ^ 2 + x 2 ^ 2 + x 3 ^ 2) / (2 * x 0)))
    (hpass : ∀ v, NCOMP_FLUID ≤ v → v < B.NCOMP_TOTAL → B.TINY_NUMBER ≤ x v) (v : Nat) :
    floorFace B Hydro_CheckMinPresInEngy g1 g2 MinDens MinPres x v = x v := by
  have h0 : FMAX (x 0) MinDens = x 0 := max_eq_left hdens
  unfold floorFace
  rw [h0]
  by_cases hv0 : v = 0
  · rw [if_pos hv0, hv0]
  · rw [if_neg hv0]
    by_cases hv4 : v = 4
    · rw [if_pos hv4, hv4]
      exact helper_unchanged _ _ _ _ _ _ _ _ hpres
    · rw [if_neg hv4]
      by_cases hp : NCOMP_FLUID ≤ v ∧ v < B.NCOMP_TOTAL
      · rw [if_pos hp]
        exact max_eq_left (hpass v hp.1 hp.2)
      · rw [if_neg hp]

theorem Correct_zero (N : Int) (F : FCArray) (dt dh : real) (d v : Nat) (c : Int)
    (h1 : F (TDir1 d) v c = F (TDir1 d) v (c - didx N (TDir1 d)))
    (h2 : F (TDir2 d) v c = F (TDir2 d) v (c - didx N (TDir2 d))) :
    Correct N F dt dh d v c = 0 := by
  unfold Correct
  rw [← h1, ← h2]
  ring

/-- C10: a gradient-free state is a fixed point of the kernel: if in every pass the fluxes of
both transverse directions take the same value at every visited cell and at its -1 neighbour,
and every input face state has density at least `MinDens`, implied pressure at least `MinPres`
and passive scalars at least `TINY_NUMBER`, then the kernel (with the floor helper of spec
§4.5) returns `FC_Var` equal to its input, for any `Gamma > 1`, `dt` and `dh != 0`. -/
theorem C10_gradient_free_fixed_point (B : Build) (A F : FCArray)
    (dt dh Gamma MinDens MinPres : real) (_hG : 1 < Gamma) (_hdh : dh ≠ 0)
    (hflux : ∀ (d v : Nat) (c : Int), d < 3 → v < B.NCOMP_TOTAL → c ∈ visited B.N_FC_VAR d →
      F (TDir1 d) v c = F (TDir1 d) v (c - didx B.N_FC_VAR (TDir1 d)) ∧
      F (TDir2 d) v c = F (TDir2 d) v (c - didx B.N_FC_VAR (TDir2 d)))
    (hdens : ∀ (face : Nat) (c : Int), face < 6 → MinDens ≤ A face 0 c)
    (hpres : ∀ (face : Nat) (c : Int), face < 6 → MinPres ≤ (Gamma - 1) *
      (A face 4 c - (A face 1 c ^ 2 + A face 2 c ^ 2 + A face 3 c ^ 2) / (2 * A face 0 c)))
    (hpass : ∀ (face v : Nat) (c : Int), face < 6 → NCOMP_FLUID ≤ v → v < B.NCOMP_TOTAL →
      B.TINY_NUMBER ≤ A face v c) :
    (Hydro_TGradient_Correction B Hydro_CheckMinPresInEngy A F dt dh (Gamma - 1)
      (1 / (Gamma - 1)) MinDens MinPres).FC_Var = A := by
  funext face v c
  rw [(TGC_spec B Hydro_CheckMinPresInEngy A F dt dh _ _ MinDens MinPres).2]
  by_cases hc : v < B.NCOMP_TOTAL ∧ face < 6 ∧ c ∈ visited B.N_FC_VAR (face / 2)
  · rw [if_pos hc]
    obtain ⟨hv, h6, hvis⟩ := hc
    have hz : ∀ w, w < B.NCOMP_TOTAL → Correct B.N_FC_VAR F dt dh (face / 2) w c = 0 := by
      intro w hw
      obtain ⟨h1, h2⟩ := hflux (face / 2) w c (by omega) hw hvis
      exact Correct_zero _ _ _ _ _ _ _ h1 h2
    have hx : floorFace B Hydro_CheckMinPresInEngy (Gamma - 1) (1 / (Gamma - 1)) MinDens MinPres
        (fun w => A face w c + Correct B.N_FC_VAR F dt dh (face / 2) w c) v =
        floorFace B Hydro_CheckMinPresInEngy (Gamma - 1) (1 / (Gamma - 1)) MinDens MinPres
          (fun w => A face w c) v := by
      apply floorFace_congr _ _ _ _ _ _ _ _ _ hv
      intro w hw
      simp only [hz w hw, add_zero]
    rw [hx]
    exact floorFace_fixed B _ _ MinDens MinPres (fun w => A face w c) (hdens face c h6)
      (hpres face c h6) (fun w h5 hw => hpass face w c h6 h5 hw) v
  · rw [if_neg hc]

/-- C10 at a concrete input: a uniform state at rest with flat fluxes, `Gamma = 2`,
`MinDens = 1`, `MinPres = 1/2`. -/
theorem C10_gradient_free_fixed_point_witness :
    (Hydro_TGradient_Correction sampleBuild Hydro_CheckMinPresInEngy sampleVar flatFlux 1 1
      (2 - 1) (1 / (2 - 1)) 1 (1 / 2)).FC_Var = sampleVar :=
  C10_gradient_free_fixed_point sampleBuild sampleVar flatFlux 1 1 2 1 (1 / 2) (by norm_num)
    (by norm_num) (fun _ _ _ _ _ _ => ⟨rfl, rfl⟩)
    (fun _ _ _ => by simp [sampleVar])
    (fun _ _ _ => by simp [sampleVar]; norm_num)
    (fun _ v _ _ h5 _ => by
      have h0 : v ≠ 0 := by unfold NCOMP_FLUID at h5; omega
      have h4 : v ≠ 4 := by unfold NCOMP_FLUID at h5; omega
      simp [sampleVar, sampleBuild, h0, h4])

theorem CTU_worker_nil (S : Stages) (DB : DriverBuild) (B : Build) (prm : Params)
    (In : Nat → Block) (Corner : Nat → Nat → real) (Pot : Nat → Int → real) (w : Worker) :
    CTU_worker S DB B prm In Corner Pot [] w = w := rfl

theorem CTU_worker_cons (S : Stages) (DB : DriverBuild) (B : Build) (prm : Params)
    (In : Nat → Block) (Corner : Nat → Nat → real) (Pot : Nat → Int → real) (w : Worker)
    (P : Nat) (Ps : List Nat) :
    CTU_worker S DB B prm In Corner Pot (P :: Ps) w =
      CTU_worker S DB B prm In Corner Pot Ps (CTU_body S DB B prm In Corner Pot w P) := rfl

theorem CTU_worker_append (S : Stages) (DB : DriverBuild) (B : Build) (prm : Params)
    (In : Nat → Block) (Corner : Nat → Nat → real) (Pot : Nat → Int → real) (w : Worker)
    (L1 L2 : List Nat) :
    CTU_worker S DB B prm In Corner Pot (L1 ++ L2) w =
      CTU_worker S DB B prm In Corner Pot L2 (CTU_worker S DB B prm In Corner Pot L1 w) := by
  unfold CTU_worker
  rw [List.foldl_append]

/-- The loop body with its calls written out: the memory it leaves, and the record of calls
extended by the five calls it made. -/
theorem CTU_body_eq (S : Stages) (DB : DriverBuild) (B : Build) (prm : Params)
    (In : Nat → Block) (Corner : Nat → Nat → real) (Pot : Nat → Int → real) (w : Worker)
    (P : Nat) :
    CTU_body S DB B prm In Corner Pot w P =
      { FC_Var_1PG := (Hydro_TGradient_Correction B S.Hydro_CheckMinPresInEngy
          (S.Hydro_DataReconstruction (In P) w.PriVar_1PG w.FC_Var_1PG w.Slope_PPM_1PG
            (reconArgs DB prm)).FC_Var
          (S.Hydro_ComputeFlux (S.Hydro_DataReconstruction (In P) w.PriVar_1PG w.FC_Var_1PG
            w.Slope_PPM_1PG (reconArgs DB prm)).FC_Var w.FC_Flux_1PG (halfStepArgs DB prm)
            none).FC_Flux
          prm.dt prm.dh (prm.Gamma - 1) (1 / (prm.Gamma - 1)) prm.MinDens prm.MinPres).FC_Var
        FC_Flux_1PG := (S.Hydro_ComputeFlux
          (Hydro_TGradient_Correction B S.Hydro_CheckMinPresInEngy
            (S.Hydro_DataReconstruction (In P) w.PriVar_1PG w.FC_Var_1PG w.Slope_PPM_1PG
              (reconArgs DB prm)).FC_Var
            (S.Hydro_ComputeFlux (S.Hydro_DataReconstruction (In P) w.PriVar_1PG w.FC_Var_1PG
              w.Slope_PPM_1PG (reconArgs DB prm)).FC_Var w.FC_Flux_1PG (halfStepArgs DB prm)
              none).FC_Flux
            prm.dt prm.dh (prm.Gamma - 1) (1 / (prm.Gamma - 1)) prm.MinDens prm.MinPres).FC_Var
          (Hydro_TGradient_Correction B S.Hydro_CheckMinPresInEngy
            (S.Hydro_DataReconstruction (In P) w.PriVar_1PG w.FC_Var_1PG w.Slope_PPM_1PG
              (reconArgs DB prm)).FC_Var
            (S.Hydro_ComputeFlux (S.Hydro_DataReconstruction (In P) w.PriVar_1PG w.FC_Var_1PG
              w.Slope_PPM_1PG (reconArgs DB prm)).FC_Var w.FC_Flux_1PG (halfStepArgs DB prm)
              none).FC_Flux
            prm.dt prm.dh (prm.Gamma - 1) (1 / (prm.Gamma - 1)) prm.MinDens prm.MinPres).FC_Flux
          (fullStepArgs DB prm (Pot P) (Corner P)) (some (w.Flux_Array P))).FC_Flux
        PriVar_1PG := (S.Hydro_DataReconstruction (In P) w.PriVar_1PG w.FC_Var_1PG
          w.Slope_PPM_1PG (reconArgs DB prm)).PriVar
        Slope_PPM_1PG := (S.Hydro_DataReconstruction (In P) w.PriVar_1PG w.FC_Var_1PG
          w.Slope_PPM_1PG (reconArgs DB prm)).Slope_PPM
        Flu_Array_Out := Function.update w.Flu_Array_Out P
          (S.Hydro_FullStepUpdate (In P) (w.Flu_Array_Out P) (w.DE_Array_Out P)
            (S.Hydro_ComputeFlux
              (Hydro_TGradient_Correction B S.Hydro_CheckMinPresInEngy
                (S.Hydro_DataReconstruction (In P) w.PriVar_1PG w.FC_Var_1PG w.Slope_PPM_1PG
                  (reconArgs DB prm)).FC_Var
                (S.Hydro_ComputeFlux (S.Hydro_DataReconstruction (In P) w.PriVar_1PG
                  w.FC_Var_1PG w.Slope_PPM_1PG (reconArgs DB prm)).FC_Var w.FC_Flux_1PG
                  (halfStepArgs DB prm) none).FC_Flux
                prm.dt prm.dh (prm.Gamma - 1) (1 / (prm.Gamma - 1)) prm.MinDens
                prm.MinPres).FC_Var
              (Hydro_TGradient_Correction B S.Hydro_CheckMinPresInEngy
                (S.Hydro_DataReconstruction (In P) w.PriVar_1PG w.FC_Var_1PG w.Slope_PPM_1PG
                  (reconArgs DB prm)).FC_Var
                (S.Hydro_ComputeFlux (S.Hydro_DataReconstruction (In P) w.PriVar_1PG
                  w.FC_Var_1PG w.Slope_PPM_1PG (reconArgs DB prm)).FC_Var w.FC_Flux_1PG
                  (halfStepArgs DB prm) none).FC_Flux
                prm.dt prm.dh (prm.Gamma - 1) (1 / (prm.Gamma - 1)) prm.MinDens
                prm.MinPres).FC_Flux
              (fullStepArgs DB prm (Pot P) (Corner P)) (some (w.Flux_Array P))).FC_Flux
            (updateArgs prm)).Output
        DE_Array_Out := Function.update w.DE_Array_Out P
          (S.Hydro_FullStepUpdate (In P) (w.Flu_Array_Out P) (w.DE_Array_Out P)
            (S.Hydro_ComputeFlux
              (Hydro_TGradient_Correction B S.Hydro_CheckMinPresInEngy
                (S.Hydro_DataReconstruction (In P) w.PriVar_1PG w.FC_Var_1PG w.Slope_PPM_1PG
                  (reconArgs DB prm)).FC_Var
                (S.Hydro_ComputeFlux (S.Hydro_DataReconstruction (In P) w.PriVar_1PG
                  w.FC_Var_1PG w.Slope_PPM_1PG (reconArgs DB prm)).FC_Var w.FC_Flux_1PG
                  (halfStepArgs DB prm) none).FC_Flux
                prm.dt prm.dh (prm.Gamma - 1) (1 / (prm.Gamma - 1)) prm.MinDens
                prm.MinPres).FC_Var
              (Hydro_TGradient_Correction B S.Hydro_CheckMinPresInEngy
                (S.Hydro_DataReconstruction (In P) w.PriVar_1PG w.FC_Var_1PG w.Slope_PPM_1PG
                  (reconArgs DB prm)).FC_Var
                (S.Hydro_ComputeFlux (S.Hydro_DataReconstruction (In P) w.PriVar_1PG
                  w.FC_Var_1PG w.Slope_PPM_1PG (reconArgs DB prm)).FC_Var w.FC_Flux_1PG
                  (halfStepArgs DB prm) none).FC_Flux
                prm.dt prm.dh (prm.Gamma - 1) (1 / (prm.Gamma - 1)) prm.MinDens
                prm.MinPres).FC_Flux
              (fullStepArgs DB prm (Pot P) (Corner P)) (some (w.Flux_Array P))).FC_Flux
            (updateArgs prm)).DE_Status
        Flux_Array := Function.update w.Flux_Array P
          (S.Hydro_ComputeFlux
            (Hydro_TGradient_Correction B S.Hydro_CheckMinPresInEngy
              (S.Hydro_DataReconstruction (In P) w.PriVar_1PG w.FC_Var_1PG w.Slope_PPM_1PG
                (reconArgs DB prm)).FC_Var
              (S.Hydro_ComputeFlux (S.Hydro_DataReconstruction (In P) w.PriVar_1PG
                w.FC_Var_1PG w.Slope_PPM_1PG (reconArgs DB prm)).FC_Var w.FC_Flux_1PG
                (halfStepArgs DB prm) none).FC_Flux
              prm.dt prm.dh (prm.Gamma - 1) (1 / (prm.Gamma - 1)) prm.MinDens prm.MinPres).FC_Var
            (Hydro_TGradient_Correction B S.Hydro_CheckMinPresInEngy
              (S.Hydro_DataReconstruction (In P) w.PriVar_1PG w.FC_Var_1PG w.Slope_PPM_1PG
                (reconArgs DB prm)).FC_Var
              (S.Hydro_ComputeFlux (S.Hydro_DataReconstruction (In P) w.PriVar_1PG
                w.FC_Var_1PG w.Slope_PPM_1PG (reconArgs DB prm)).FC_Var w.FC_Flux_1PG
                (halfStepArgs DB prm) none).FC_Flux
              prm.dt prm.dh (prm.Gamma - 1) (1 / (prm.Gamma - 1)) prm.MinDens
              prm.MinPres).FC_Flux
            (fullStepArgs DB prm (Pot P) (Corner P)) (some (w.Flux_Array P))).IntFlux
        calls := w.calls ++ callsOf DB prm Corner Pot P } := by
  unfold CTU_body call_DataReconstruction call_ComputeFlux call_TGradient_Correction
    call_FullStepUpdate callsOf
  simp only [Option.map_none', Option.map_some', List.append_assoc, List.singleton_append,
    List.cons_append, List.nil_append]

/-- The record of calls of a worker: the five calls of each patch group it is handed, in the
order of the list. -/
theorem CTU_worker_calls (S : Stages) (DB : DriverBuild) (B : Build) (prm : Params)
    (In : Nat → Block) (Corner : Nat → Nat → real) (Pot : Nat → Int → real) (Ps : List Nat)
    (w : Worker) :
    (CTU_worker S DB B prm In Corner Pot Ps w).calls =
      w.calls ++ Ps.flatMap (callsOf DB prm Corner Pot) := by
  induction Ps generalizing w with
  | nil => simp [CTU_worker_nil]
  | cons P Ps ih =>
    rw [CTU_worker_cons, ih, List.flatMap_cons, ← List.append_assoc, CTU_body_eq]

/-- A worker writes the output slices of the patch groups it is handed and no others. -/
theorem CTU_worker_frame (S : Stages) (DB : DriverBuild) (B : Build) (prm : Params)
    (In : Nat → Block) (Corner : Nat → Nat → real) (Pot : Nat → Int → real) (Ps : List Nat)
    (w : Worker) (Q : Nat) (hQ : Q ∉ Ps) :
    (CTU_worker S DB B prm In Corner Pot Ps w).Flu_Array_Out Q = w.Flu_Array_Out Q ∧
    (CTU_worker S DB B prm In Corner Pot Ps w).DE_Array_Out Q = w.DE_Array_Out Q ∧
    (CTU_worker S DB B prm In Corner Pot Ps w).Flux_Array Q = w.Flux_Array Q := by
  induction Ps generalizing w with
  | nil => simp [CTU_worker_nil]
  | cons P Ps ih =>
    rw [List.mem_cons, not_or] at hQ
    obtain ⟨h1, h2, h3⟩ := ih (CTU_body S DB B prm In Corner Pot w P) hQ.2
    rw [CTU_worker_cons, h1, h2, h3, CTU_body_eq]
    simp only
    rw [Function.update_noteq hQ.1, Function.update_noteq hQ.1, Function.update_noteq hQ.1]
    exact ⟨rfl, rfl, rfl⟩

/-- The output slices of a patch group that occurs once in the list are those written by its
own pass of the loop body, started from the memory left by the passes before it. -/
theorem CTU_worker_at (S : Stages) (DB : DriverBuild) (B : Build) (prm : Params)
    (In : Nat → Block) (Corner : Nat → Nat → real) (Pot : Nat → Int → real) (L1 L2 : List Nat)
    (w : Worker) (P : Nat) (h2 : P ∉ L2) :
    (CTU_worker S DB B prm In Corner Pot (L1 ++ P :: L2) w).Flu_Array_Out P =
      (CTU_body S DB B prm In Corner Pot (CTU_worker S DB B prm In Corner Pot L1 w) P).Flu_Array_Out P ∧
    (CTU_worker S DB B prm In Corner Pot (L1 ++ P :: L2) w).DE_Array_Out P =
      (CTU_body S DB B prm In Corner Pot (CTU_worker S DB B prm In Corner Pot L1 w) P).DE_Array_Out P ∧
    (CTU_worker S DB B prm In Corner Pot (L1 ++ P :: L2) w).Flux_Array P =
      (CTU_body S DB B prm In Corner Pot (CTU_worker S DB B prm In Corner Pot L1 w) P).Flux_Array P := by
  rw [CTU_worker_append, CTU_worker_cons]
  exact CTU_worker_frame S DB B prm In Corner Pot L2 _ P h2

/-- The loop body writes to the slices of `P` the result of the pipeline. -/
theorem CTU_body_out (S : Stages) (DB : DriverBuild) (B : Build) (prm : Params)
    (In : Nat → Block) (Corner : Nat → Nat → real) (Pot : Nat → Int → real) (w : Worker)
    (P : Nat) :
    (CTU_body S DB B prm In Corner Pot w P).Flu_Array_Out P =
      (pipeline S DB B prm (In P) (Corner P) (Pot P) w P).Output ∧
    (CTU_body S DB B prm In Corner Pot w P).DE_Array_Out P =
      (pipeline S DB B prm (In P) (Corner P) (Pot P) w P).DE_Status := by
  rw [CTU_body_eq]
  unfold pipeline
  simp only [Function.update_same, (TGC_spec _ _ _ _ _ _ _ _ _ _).1]
  exact ⟨trivial, trivial⟩

theorem range_split (n P : Nat) (hP : P < n) :
    ∃ L2 : List Nat, List.range n = List.range P ++ P :: L2 ∧ P ∉ L2 := by
  refine ⟨List.map (fun x => (P + 1) + x) (List.range (n - (P + 1))), ?_, ?_⟩
  · have e : n = (P + 1) + (n - (P + 1)) := by omega
    conv_lhs => rw [e, List.range_add, List.range_succ]
    simp
  · simp only [List.mem_map, List.mem_range, not_exists, not_and]
    intro x _ h
    omega

/-- C8: the driver runs, for `P = 0 .. NPatchGroup-1` in turn, the five stages once each and
in the order reconstruction, half-step flux, transverse correction, full-step flux, full-step
update; the output of `P` is the pipeline (update of the input with the fluxes of the second
flux pass on the corrected face states of the reconstruction of the input) started from the
memory left by the passes `0 .. P-1`; no output slice of an index outside `[0, NPatchGroup)`
is written and no input slice outside it is read. -/
theorem C8_stage_order (S : Stages) (DB : DriverBuild) (B : Build)
    (In : Nat → Block) (Out0 : Nat → Block) (DE0 : Nat → DEStatus) (FA0 : Nat → FCArray)
    (Corner : Nat → Nat → real) (Pot : Nat → Int → real) (NPatchGroup : Int) (prm : Params)
    (scratch : FCArray × FCArray × Block × FCArray) :
    (CPU_FluidSolver_CTU S DB B In Out0 DE0 FA0 Corner Pot NPatchGroup prm scratch).calls =
      (List.range NPatchGroup.toNat).flatMap (callsOf DB prm Corner Pot) ∧
    (∀ P : Nat, (P : Int) < NPatchGroup →
      (CPU_FluidSolver_CTU S DB B In Out0 DE0 FA0 Corner Pot NPatchGroup prm scratch).Flu_Array_Out P =
        (pipeline S DB B prm (In P) (Corner P) (Pot P)
          (CPU_FluidSolver_CTU S DB B In Out0 DE0 FA0 Corner Pot P prm scratch) P).Output ∧
      (CPU_FluidSolver_CTU S DB B In Out0 DE0 FA0 Corner Pot NPatchGroup prm scratch).DE_Array_Out P =
        (pipeline S DB B prm (In P) (Corner P) (Pot P)
          (CPU_FluidSolver_CTU S DB B In Out0 DE0 FA0 Corner Pot P prm scratch) P).DE_Status) ∧
    (∀ Q : Nat, NPatchGroup ≤ (Q : Int) →
      (CPU_FluidSolver_CTU S DB B In Out0 DE0 FA0 Corner Pot NPatchGroup prm scratch).Flu_Array_Out Q =
        Out0 Q ∧
      (CPU_FluidSolver_CTU S DB B In Out0 DE0 FA0 Corner Pot NPatchGroup prm scratch).DE_Array_Out Q =
        DE0 Q ∧
      (CPU_FluidSolver_CTU S DB B In Out0 DE0 FA0 Corner Pot NPatchGroup prm scratch).Flux_Array Q =
        FA0 Q) ∧
    (∀ (In' : Nat → Block) (Corner' : Nat → Nat → real) (Pot' : Nat → Int → real),
      (∀ P : Nat, (P : Int) < NPatchGroup → In' P = In P ∧ Corner' P = Corner P ∧ Pot' P = Pot P) →
      CPU_FluidSolver_CTU S DB B In' Out0 DE0 FA0 Corner' Pot' NPatchGroup prm scratch =
        CPU_FluidSolver_CTU S DB B In Out0 DE0 FA0 Corner Pot NPatchGroup prm scratch) := by
  refine ⟨?_, ?_, ?_, ?_⟩
  · unfold CPU_FluidSolver_CTU
    rw [CTU_worker_calls]
    rfl
  · intro P hP
    have hlt : P < NPatchGroup.toNat := by omega
    obtain ⟨L2, hsplit, hnot⟩ := range_split NPatchGroup.toNat P hlt
    unfold CPU_FluidSolver_CTU
    rw [hsplit, Int.toNat_ofNat]
    obtain ⟨a1, a2, _⟩ := CTU_worker_at S DB B prm In Corner Pot (List.range P) L2
      { FC_Var_1PG := scratch.1
        FC_Flux_1PG := scratch.2.1
        PriVar_1PG := scratch.2.2.1
        Slope_PPM_1PG := if DB.LR_SCHEME_PPM then some scratch.2.2.2 else none
        Flu_Array_Out := Out0
        DE_Array_Out := DE0
        Flux_Array := FA0
        calls := [] } P hnot
    obtain ⟨b1, b2⟩ := CTU_body_out S DB B prm In Corner Pot
      (CTU_worker S DB B prm In Corner Pot (List.range P)
        { FC_Var_1PG := scratch.1
          FC_Flux_1PG := scratch.2.1
          PriVar_1PG := scratch.2.2.1
          Slope_PPM_1PG := if DB.LR_SCHEME_PPM then some scratch.2.2.2 else none
          Flu_Array_Out := Out0
          DE_Array_Out := DE0
          Flux_Array := FA0
          calls := [] }) P
    exact ⟨a1.trans b1, a2.trans b2⟩
  · intro Q hQ
    unfold CPU_FluidSolver_CTU
    have hnot : Q ∉ List.range NPatchGroup.toNat := by
      rw [List.mem_range]; omega
    exact CTU_worker_frame S DB B prm In Corner Pot _ _ Q hnot
  · intro In' Corner' Pot' hagree
    unfold CPU_FluidSolver_CTU CTU_worker
    apply List.foldl_ext
    intro w P hP
    rw [List.mem_range] at hP
    obtain ⟨e1, e2, e3⟩ := hagree P (by omega)
    rw [CTU_body_eq, CTU_body_eq]
    unfold callsOf
    rw [e1, e2, e3]

theorem fullStepArgs_Gap (DB : DriverBuild) (prm : Params) (Pot : Int → real)
    (Corner : Nat → real) : (fullStepArgs DB prm Pot Corner).Gap = 1 := by
  unfold fullStepArgs; split <;> rfl

theorem fullStepArgs_DumpIntFlux (DB : DriverBuild) (prm : Params) (Pot : Int → real)
    (Corner : Nat → real) : (fullStepArgs DB prm Pot Corner).DumpIntFlux = prm.StoreFlux := by
  unfold fullStepArgs; split <;> rfl

theorem fullStepArgs_CorrHalfVel (DB : DriverBuild) (prm : Params) (Pot : Int → real)
    (Corner : Nat → real) :
    (fullStepArgs DB prm Pot Corner).CorrHalfVel = DB.UNSPLIT_GRAVITY := by
  unfold fullStepArgs
  split
  · rename_i h; rw [h]
  · rename_i h; simp only [Bool.not_eq_true] at h; rw [h]

/-- The potential and the corner coordinates reach the full-step pass only in a build with
`UNSPLIT_GRAVITY`. -/
theorem fullStepArgs_congr (DB : DriverBuild) (prm : Params) (Pot Pot' : Int → real)
    (Corner Corner' : Nat → real)
    (hG : DB.UNSPLIT_GRAVITY = true → Pot = Pot' ∧ Corner = Corner') :
    fullStepArgs DB prm Pot Corner = fullStepArgs DB prm Pot' Corner' := by
  unfold fullStepArgs
  split
  · rename_i h
    obtain ⟨e1, e2⟩ := hG h
    rw [e1, e2]
  · rfl

/-- C9: every call of `Hydro_ComputeFlux` made by the driver is either the half-step pass,
with `Gap = 0`, no velocity correction, no gravity, no flux dumping and a `NULL` dump buffer
(whatever `StoreFlux` and `GravityType` are), or the full-step pass, with `Gap = 1`, the
caller's `StoreFlux` as dump flag, the slice `Flux_Array[P]` of a patch group
`P < NPatchGroup` as buffer, and the velocity correction enabled exactly in a build with
`UNSPLIT_GRAVITY`; both passes are made for every patch group. This holds of the record of
calls and of the stage applications themselves: in every pass of the loop body the corrected
face states are computed from the fluxes of `Hydro_ComputeFlux` applied with `halfStepArgs`
and no buffer, the fluxes left in `FC_Flux_1PG` and the content of `Flux_Array[P]` are those of
`Hydro_ComputeFlux` applied with `fullStepArgs` and the buffer `Flux_Array[P]`, no other slice
of `Flux_Array` changes, and after the driver `Flux_Array[P]` holds what the full-step pass of
`P` returned. The arguments of the half-step pass do not depend on `StoreFlux`, `GravityType`
or the build; the gravity arguments of the full-step pass are the caller's in a build with
`UNSPLIT_GRAVITY` and `NULL` otherwise. -/
theorem C9_flux_pass_arguments (S : Stages) (DB : DriverBuild) (B : Build)
    (In : Nat → Block) (Out0 : Nat → Block) (DE0 : Nat → DEStatus) (FA0 : Nat → FCArray)
    (Corner : Nat → Nat → real) (Pot : Nat → Int → real) (NPatchGroup : Int) (prm : Params)
    (scratch : FCArray × FCArray × Block × FCArray) :
    (∀ (a : FluxArgs) (buf : Option Nat), Call.ComputeFlux a buf ∈
        (CPU_FluidSolver_CTU S DB B In Out0 DE0 FA0 Corner Pot NPatchGroup prm scratch).calls →
      (a.Gap = 0 ∧ a.CorrHalfVel = false ∧ a.DumpIntFlux = false ∧
        a.GravityType = OptGravityType_t.GRAVITY_NONE ∧ a.Pot_USG = none ∧ a.Corner = none ∧
        a.ExtAcc_AuxArray = none ∧ buf = none) ∨
      (a.Gap = 1 ∧ a.DumpIntFlux = prm.StoreFlux ∧ a.CorrHalfVel = DB.UNSPLIT_GRAVITY ∧
        ∃ P : Nat, (P : Int) < NPatchGroup ∧ buf = some P)) ∧
    (∀ P : Nat, (P : Int) < NPatchGroup →
      Call.ComputeFlux (halfStepArgs DB prm) none ∈
        (CPU_FluidSolver_CTU S DB B In Out0 DE0 FA0 Corner Pot NPatchGroup prm scratch).calls ∧
      Call.ComputeFlux (fullStepArgs DB prm (Pot P) (Corner P)) (some P) ∈
        (CPU_FluidSolver_CTU S DB B In Out0 DE0 FA0 Corner Pot NPatchGroup prm scratch).calls) ∧
    (∀ (w : Worker) (P : Nat),
      (CTU_body S DB B prm In Corner Pot w P).FC_Var_1PG =
        (Hydro_TGradient_Correction B S.Hydro_CheckMinPresInEngy (faceStatesOf S DB prm (In P) w)
          (S.Hydro_ComputeFlux (faceStatesOf S DB prm (In P) w) w.FC_Flux_1PG
            (halfStepArgs DB prm) none).FC_Flux
          prm.dt prm.dh (prm.Gamma - 1) (1 / (prm.Gamma - 1)) prm.MinDens prm.MinPres).FC_Var ∧
      (CTU_body S DB B prm In Corner Pot w P).FC_Flux_1PG =
        (S.Hydro_ComputeFlux (correctedOf S DB B prm (In P) w).FC_Var
          (halfStepPass S DB prm (In P) w).FC_Flux (fullStepArgs DB prm (Pot P) (Corner P))
          (some (w.Flux_Array P))).FC_Flux ∧
      (CTU_body S DB B prm In Corner Pot w P).Flux_Array P =
        (S.Hydro_ComputeFlux (correctedOf S DB B prm (In P) w).FC_Var
          (halfStepPass S DB prm (In P) w).FC_Flux (fullStepArgs DB prm (Pot P) (Corner P))
          (some (w.Flux_Array P))).IntFlux ∧
      (∀ Q : Nat, Q ≠ P → (CTU_body S DB B prm In Corner Pot w P).Flux_Array Q = w.Flux_Array Q)) ∧
    (∀ P : Nat, (P : Int) < NPatchGroup →
      (CPU_FluidSolver_CTU S DB B In Out0 DE0 FA0 Corner Pot NPatchGroup prm scratch).Flux_Array P =
        (fullStepPass S DB B prm (In P) (Corner P) (Pot P)
          (CPU_FluidSolver_CTU S DB B In Out0 DE0 FA0 Corner Pot P prm scratch) P).IntFlux) ∧
    (halfStepArgs DB prm =
      { Gap := 0, Gamma := prm.Gamma, CorrHalfVel := false, Pot_USG := none, Corner := none,
        dt := DB.NULL_REAL, dh := DB.NULL_REAL, Time := DB.NULL_REAL,
        GravityType := OptGravityType_t.GRAVITY_NONE, ExtAcc_AuxArray := none,
        MinPres := prm.MinPres, DumpIntFlux := false }) ∧
    (∀ (StoreFlux : Bool) (GravityType : OptGravityType_t) (UNSPLIT_GRAVITY : Bool),
      halfStepArgs { DB with UNSPLIT_GRAVITY := UNSPLIT_GRAVITY }
        { prm with StoreFlux := StoreFlux, GravityType := GravityType } = halfStepArgs DB prm) ∧
    (∀ P : Nat,
      (fullStepArgs DB prm (Pot P) (Corner P)).Gap = 1 ∧
      (fullStepArgs DB prm (Pot P) (Corner P)).DumpIntFlux = prm.StoreFlux ∧
      (fullStepArgs DB prm (Pot P) (Corner P)).CorrHalfVel = DB.UNSPLIT_GRAVITY ∧
      (DB.UNSPLIT_GRAVITY = true →
        (fullStepArgs DB prm (Pot P) (Corner P)).Pot_USG = some (Pot P) ∧
        (fullStepArgs DB prm (Pot P) (Corner P)).Corner = some (Corner P) ∧
        (fullStepArgs DB prm (Pot P) (Corner P)).GravityType = prm.GravityType) ∧
      (DB.UNSPLIT_GRAVITY = false →
        (fullStepArgs DB prm (Pot P) (Corner P)).Pot_USG = none ∧
        (fullStepArgs DB prm (Pot P) (Corner P)).Corner = none ∧
        (fullStepArgs DB prm (Pot P) (Corner P)).GravityType =
          OptGravityType_t.GRAVITY_NONE)) := by
  have hcalls :
      (CPU_FluidSolver_CTU S DB B In Out0 DE0 FA0 Corner Pot NPatchGroup prm scratch).calls =
        (List.range NPatchGroup.toNat).flatMap (callsOf DB prm Corner Pot) := by
    unfold CPU_FluidSolver_CTU
    rw [CTU_worker_calls]
    rfl
  rw [hcalls]
  have hfull : ∀ (w : Worker) (P : Nat),
      (CTU_body S DB B prm In Corner Pot w P).Flux_Array P =
        (fullStepPass S DB B prm (In P) (Corner P) (Pot P) w P).IntFlux := by
    intro w P
    rw [CTU_body_eq]
    unfold fullStepPass correctedOf halfStepPass faceStatesOf
    simp only [Function.update_same]
  refine ⟨?_, ?_, ?_, ?_, rfl, fun _ _ _ => rfl, ?_⟩
  · intro a buf hmem
    rw [List.mem_flatMap] at hmem
    obtain ⟨P, hP, hin⟩ := hmem
    rw [List.mem_range] at hP
    unfold callsOf at hin
    simp only [List.mem_cons, List.mem_singleton, List.not_mem_nil, or_false] at hin
    rcases hin with h | h | h | h | h
    · exact Call.noConfusion h
    · left
      injection h with ha hb
      rw [ha, hb]
      exact ⟨rfl, rfl, rfl, rfl, rfl, rfl, rfl, rfl⟩
    · exact Call.noConfusion h
    · right
      injection h with ha hb
      rw [ha, hb]
      exact ⟨fullStepArgs_Gap DB prm _ _, fullStepArgs_DumpIntFlux DB prm _ _,
        fullStepArgs_CorrHalfVel DB prm _ _, P, by omega, rfl⟩
    · exact Call.noConfusion h
  · intro P hP
    have hlt : P ∈ List.range NPatchGroup.toNat := by rw [List.mem_range]; omega
    constructor
    · rw [List.mem_flatMap]
      exact ⟨P, hlt, by unfold callsOf; simp⟩
    · rw [List.mem_flatMap]
      exact ⟨P, hlt, by unfold callsOf; simp⟩
  · intro w P
    refine ⟨?_, ?_, ?_, ?_⟩
    · rw [CTU_body_eq]
      unfold faceStatesOf
      rfl
    · rw [CTU_body_eq]
      unfold correctedOf halfStepPass faceStatesOf
      simp only [(TGC_spec _ _ _ _ _ _ _ _ _ _).1]
    · rw [CTU_body_eq]
      unfold correctedOf halfStepPass faceStatesOf
      simp only [Function.update_same, (TGC_spec _ _ _ _ _ _ _ _ _ _).1]
    · intro Q hQ
      rw [CTU_body_eq]
      simp only [Function.update_noteq hQ]
  · intro P hP
    have hlt : P < NPatchGroup.toNat := by omega
    obtain ⟨L2, hsplit, hnot⟩ := range_split NPatchGroup.toNat P hlt
    unfold CPU_FluidSolver_CTU
    rw [hsplit, Int.toNat_ofNat]
    obtain ⟨_, _, a3⟩ := CTU_worker_at S DB B prm In Corner Pot (List.range P) L2
      { FC_Var_1PG := scratch.1
        FC_Flux_1PG := scratch.2.1
        PriVar_1PG := scratch.2.2.1
        Slope_PPM_1PG := if DB.LR_SCHEME_PPM then some scratch.2.2.2 else none
        Flu_Array_Out := Out0
        DE_Array_Out := DE0
        Flux_Array := FA0
        calls := [] } P hnot
    exact a3.trans (hfull _ P)
  · intro P
    refine ⟨fullStepArgs_Gap DB prm _ _, fullStepArgs_DumpIntFlux DB prm _ _,
      fullStepArgs_CorrHalfVel DB prm _ _, ?_, ?_⟩
    · intro h
      unfold fullStepArgs
      rw [if_pos h]
      exact ⟨rfl, rfl, rfl⟩
    · intro h
      unfold fullStepArgs
      rw [if_neg (by rw [h]; decide)]
      exact ⟨rfl, rfl, rfl⟩

/-- The transverse correction computes the produced face states from produced face states and
produced half-step fluxes only. -/
theorem TGC_agree (B : Build) (Chk : EngyFloor) (WV WF0 : Nat → Int → Prop)
    (hreads : ∀ (face : Nat) (c : Int), face < 6 → WV face c →
      c ∈ visited B.N_FC_VAR (face / 2) →
      WF0 (TDir1 (face / 2)) c ∧ WF0 (TDir1 (face / 2)) (c - didx B.N_FC_VAR (TDir1 (face / 2))) ∧
      WF0 (TDir2 (face / 2)) c ∧ WF0 (TDir2 (face / 2)) (c - didx B.N_FC_VAR (TDir2 (face / 2))))
    (A A' F F' : FCArray) (hA : agreeOn WV A A') (hF : agreeOn WF0 F F')
    (dt dh g1 g2 MinDens MinPres : real) :
    agreeOn WV (Hydro_TGradient_Correction B Chk A F dt dh g1 g2 MinDens MinPres).FC_Var
      (Hydro_TGradient_Correction B Chk A' F' dt dh g1 g2 MinDens MinPres).FC_Var := by
  intro face v c hW
  rw [(TGC_spec B Chk A F dt dh g1 g2 MinDens MinPres).2,
    (TGC_spec B Chk A' F' dt dh g1 g2 MinDens MinPres).2]
  by_cases hc : v < B.NCOMP_TOTAL ∧ face < 6 ∧ c ∈ visited B.N_FC_VAR (face / 2)
  · rw [if_pos hc, if_pos hc]
    obtain ⟨r1, r2, r3, r4⟩ := hreads face c hc.2.1 hW hc.2.2
    apply floorFace_congr _ _ _ _ _ _ _ _ _ hc.1
    intro w _
    unfold Correct
    rw [hA face w c hW, hF _ w _ r1, hF _ w _ r2, hF _ w _ r3, hF _ w _ r4]
  · rw [if_neg hc, if_neg hc]
    exact hA face v c hW

/-- One pass of the loop body: what it writes to the slices of `P` depends neither on the
scratch content it starts from nor on what the slices held. -/
theorem CTU_body_indep (S : Stages) (DB : DriverBuild) (B : Build) (prm : Params)
    (WV : Nat → Int → Prop) (WF : Int → Nat → Int → Prop) (hS : StageContract S B WV WF)
    (In In' : Nat → Block) (Corner Corner' : Nat → Nat → real) (Pot Pot' : Nat → Int → real)
    (w w' : Worker) (P : Nat) (hIn : In P = In' P)
    (hG : DB.UNSPLIT_GRAVITY = true → Pot P = Pot' P ∧ Corner P = Corner' P) :
    (CTU_body S DB B prm In Corner Pot w P).Flu_Array_Out P =
      (CTU_body S DB B prm In' Corner' Pot' w' P).Flu_Array_Out P ∧
    (CTU_body S DB B prm In Corner Pot w P).DE_Array_Out P =
      (CTU_body S DB B prm In' Corner' Pot' w' P).DE_Array_Out P ∧
    (prm.StoreFlux = true →
      (CTU_body S DB B prm In Corner Pot w P).Flux_Array P =
        (CTU_body S DB B prm In' Corner' Pot' w' P).Flux_Array P) := by
  rw [CTU_body_eq, CTU_body_eq]
  simp only [Function.update_same]
  rw [← hIn, ← fullStepArgs_congr DB prm (Pot P) (Pot' P) (Corner P) (Corner' P) hG]
  have h1 := hS.recon (In P) w.PriVar_1PG w'.PriVar_1PG w.FC_Var_1PG w'.FC_Var_1PG
    w.Slope_PPM_1PG w'.Slope_PPM_1PG (reconArgs DB prm)
  have h2 : agreeOn (WF 0) _ _ := hS.flux (halfStepArgs DB prm) _ _ w.FC_Flux_1PG w'.FC_Flux_1PG
    none none h1
  have h3 := TGC_agree B S.Hydro_CheckMinPresInEngy WV (WF 0) hS.reads _ _ _ _ h1 h2
    prm.dt prm.dh (prm.Gamma - 1) (1 / (prm.Gamma - 1)) prm.MinDens prm.MinPres
  have h4 := hS.flux (fullStepArgs DB prm (Pot P) (Corner P)) _ _
    (Hydro_TGradient_Correction B S.Hydro_CheckMinPresInEngy
      (S.Hydro_DataReconstruction (In P) w.PriVar_1PG w.FC_Var_1PG w.Slope_PPM_1PG
        (reconArgs DB prm)).FC_Var
      (S.Hydro_ComputeFlux (S.Hydro_DataReconstruction (In P) w.PriVar_1PG w.FC_Var_1PG
        w.Slope_PPM_1PG (reconArgs DB prm)).FC_Var w.FC_Flux_1PG (halfStepArgs DB prm)
        none).FC_Flux
      prm.dt prm.dh (prm.Gamma - 1) (1 / (prm.Gamma - 1)) prm.MinDens prm.MinPres).FC_Flux
    (Hydro_TGradient_Correction B S.Hydro_CheckMinPresInEngy
      (S.Hydro_DataReconstruction (In P) w'.PriVar_1PG w'.FC_Var_1PG w'.Slope_PPM_1PG
        (reconArgs DB prm)).FC_Var
      (S.Hydro_ComputeFlux (S.Hydro_DataReconstruction (In P) w'.PriVar_1PG w'.FC_Var_1PG
        w'.Slope_PPM_1PG (reconArgs DB prm)).FC_Var w'.FC_Flux_1PG (halfStepArgs DB prm)
        none).FC_Flux
      prm.dt prm.dh (prm.Gamma - 1) (1 / (prm.Gamma - 1)) prm.MinDens prm.MinPres).FC_Flux
    (some (w.Flux_Array P)) (some (w'.Flux_Array P)) h3
  rw [fullStepArgs_Gap] at h4
  have h5 := fun (hs : prm.StoreFlux = true) =>
    hS.dump (fullStepArgs DB prm (Pot P) (Corner P)) _ _
    (Hydro_TGradient_Correction B S.Hydro_CheckMinPresInEngy
      (S.Hydro_DataReconstruction (In P) w.PriVar_1PG w.FC_Var_1PG w.Slope_PPM_1PG
        (reconArgs DB prm)).FC_Var
      (S.Hydro_ComputeFlux (S.Hydro_DataReconstruction (In P) w.PriVar_1PG w.FC_Var_1PG
        w.Slope_PPM_1PG (reconArgs DB prm)).FC_Var w.FC_Flux_1PG (halfStepArgs DB prm)
        none).FC_Flux
      prm.dt prm.dh (prm.Gamma - 1) (1 / (prm.Gamma - 1)) prm.MinDens prm.MinPres).FC_Flux
    (Hydro_TGradient_Correction B S.Hydro_CheckMinPresInEngy
      (S.Hydro_DataReconstruction (In P) w'.PriVar_1PG w'.FC_Var_1PG w'.Slope_PPM_1PG
        (reconArgs DB prm)).FC_Var
      (S.Hydro_ComputeFlux (S.Hydro_DataReconstruction (In P) w'.PriVar_1PG w'.FC_Var_1PG
        w'.Slope_PPM_1PG (reconArgs DB prm)).FC_Var w'.FC_Flux_1PG (halfStepArgs DB prm)
        none).FC_Flux
      prm.dt prm.dh (prm.Gamma - 1) (1 / (prm.Gamma - 1)) prm.MinDens prm.MinPres).FC_Flux
    (w.Flux_Array P) (w'.Flux_Array P)
    (by rw [fullStepArgs_DumpIntFlux]; exact hs) h3
  have h6 := hS.update (updateArgs prm) (In P) (w.Flu_Array_Out P) (w'.Flu_Array_Out P)
    (w.DE_Array_Out P) (w'.DE_Array_Out P) _ _ h4
  exact ⟨congrArg UpdateOut.Output h6, congrArg UpdateOut.DE_Status h6, h5⟩

/-- The output slices a worker leaves for a patch group it is handed once depend neither on
the other patch groups handed to it nor on the memory it starts from. -/
theorem CTU_worker_indep (S : Stages) (DB : DriverBuild) (B : Build) (prm : Params)
    (WV : Nat → Int → Prop) (WF : Int → Nat → Int → Prop) (hS : StageContract S B WV WF)
    (In In' : Nat → Block) (Corner Corner' : Nat → Nat → real) (Pot Pot' : Nat → Int → real)
    (Ps Ps' : List Nat) (w w' : Worker) (P : Nat)
    (hP : P ∈ Ps) (hP' : P ∈ Ps') (hnd : Ps.Nodup) (hnd' : Ps'.Nodup)
    (hIn : In P = In' P)
    (hG : DB.UNSPLIT_GRAVITY = true → Pot P = Pot' P ∧ Corner P = Corner' P) :
    (CTU_worker S DB B prm In Corner Pot Ps w).Flu_Array_Out P =
      (CTU_worker S DB B prm In' Corner' Pot' Ps' w').Flu_Array_Out P ∧
    (CTU_worker S DB B prm In Corner Pot Ps w).DE_Array_Out P =
      (CTU_worker S DB B prm In' Corner' Pot' Ps' w').DE_Array_Out P ∧
    (prm.StoreFlux = true →
      (CTU_worker S DB B prm In Corner Pot Ps w).Flux_Array P =
        (CTU_worker S DB B prm In' Corner' Pot' Ps' w').Flux_Array P) := by
  obtain ⟨L1, L2, rfl⟩ := List.append_of_mem hP
  obtain ⟨L1', L2', rfl⟩ := List.append_of_mem hP'
  rw [List.nodup_append] at hnd hnd'
  have n2 : P ∉ L2 := (List.nodup_cons.mp hnd.2.1).1
  have n2' : P ∉ L2' := (List.nodup_cons.mp hnd'.2.1).1
  obtain ⟨a1, a2, a3⟩ := CTU_worker_at S DB B prm In Corner Pot L1 L2 w P n2
  obtain ⟨b1, b2, b3⟩ := CTU_worker_at S DB B prm In' Corner' Pot' L1' L2' w' P n2'
  obtain ⟨c1, c2, c3⟩ := CTU_body_indep S DB B prm WV WF hS In In' Corner Corner' Pot Pot'
    (CTU_worker S DB B prm In Corner Pot L1 w) (CTU_worker S DB B prm In' Corner' Pot' L1' w') P
    hIn hG
  exact ⟨by rw [a1, b1, c1], by rw [a2, b2, c2], fun hs => by rw [a3, b3, c3 hs]⟩

/-- C7: under the contract the specification gives the stages, the output written for patch
group `P` (`Flu_Array_Out[P]`, `DE_Array_Out[P]` and, when `StoreFlux` is set,
`Flux_Array[P]`) is the same in two runs that agree on `Flu_Array_In[P]`, on the scalar
configuration and, in a build with `UNSPLIT_GRAVITY`, on `Pot_Array_USG[P]` and
`Corner_Array[P]`. The runs may differ in everything else: for a worker, in the patch groups
handed to it, their number, their order, their inputs, and in the content of the scratch and
output arrays it starts with; for `CPU_FluidSolver_CTU`, in `NPatchGroup`, in the other input
slices, in the first content of the scratch arrays and in what the output arrays held. -/
theorem C7_patch_group_independence (S : Stages) (DB : DriverBuild) (B : Build) (prm : Params)
    (WV : Nat → Int → Prop) (WF : Int → Nat → Int → Prop) (hS : StageContract S B WV WF)
    (In In' : Nat → Block) (Corner Corner' : Nat → Nat → real) (Pot Pot' : Nat → Int → real)
    (P : Nat) (hIn : In P = In' P)
    (hG : DB.UNSPLIT_GRAVITY = true → Pot P = Pot' P ∧ Corner P = Corner' P) :
    (∀ (Ps Ps' : List Nat) (w w' : Worker), P ∈ Ps → P ∈ Ps' → Ps.Nodup → Ps'.Nodup →
      (CTU_worker S DB B prm In Corner Pot Ps w).Flu_Array_Out P =
        (CTU_worker S DB B prm In' Corner' Pot' Ps' w').Flu_Array_Out P ∧
      (CTU_worker S DB B prm In Corner Pot Ps w).DE_Array_Out P =
        (CTU_worker S DB B prm In' Corner' Pot' Ps' w').DE_Array_Out P ∧
      (prm.StoreFlux = true →
        (CTU_worker S DB B prm In Corner Pot Ps w).Flux_Array P =
          (CTU_worker S DB B prm In' Corner' Pot' Ps' w').Flux_Array P)) ∧
    (∀ (Out Out' : Nat → Block) (DE DE' : Nat → DEStatus) (FA FA' : Nat → FCArray)
      (NPatchGroup NPatchGroup' : Int) (scratch scratch' : FCArray × FCArray × Block × FCArray),
      (P : Int) < NPatchGroup → (P : Int) < NPatchGroup' →
      (CPU_FluidSolver_CTU S DB B In Out DE FA Corner Pot NPatchGroup prm scratch).Flu_Array_Out P =
        (CPU_FluidSolver_CTU S DB B In' Out' DE' FA' Corner' Pot' NPatchGroup' prm
          scratch').Flu_Array_Out P ∧
      (CPU_FluidSolver_CTU S DB B In Out DE FA Corner Pot NPatchGroup prm scratch).DE_Array_Out P =
        (CPU_FluidSolver_CTU S DB B In' Out' DE' FA' Corner' Pot' NPatchGroup' prm
          scratch').DE_Array_Out P ∧
      (prm.StoreFlux = true →
        (CPU_FluidSolver_CTU S DB B In Out DE FA Corner Pot NPatchGroup prm scratch).Flux_Array P =
          (CPU_FluidSolver_CTU S DB B In' Out' DE' FA' Corner' Pot' NPatchGroup' prm
            scratch').Flux_Array P)) := by
  constructor
  · intro Ps Ps' w w' hP hP' hnd hnd'
    exact CTU_worker_indep S DB B prm WV WF hS In In' Corner Corner' Pot Pot' Ps Ps' w w' P
      hP hP' hnd hnd' hIn hG
  · intro Out Out' DE DE' FA FA' N N' scratch scratch' hN hN'
    unfold CPU_FluidSolver_CTU
    exact CTU_worker_indep S DB B prm WV WF hS In In' Corner Corner' Pot Pot' _ _ _ _ P
      (by rw [List.mem_range]; omega) (by rw [List.mem_range]; omega)
      (List.nodup_range _) (List.nodup_range _) hIn hG

theorem sampleStages_contract :
    StageContract sampleStages sampleBuild (fun _ _ => True) (fun _ _ _ => True) where
  recon := by intro ConVar pri pri' fc fc' sl sl' a f v c _; rfl
  flux := by
    intro a fc fc' fl fl' buf buf' h d v c _
    simp only [sampleStages]
    rw [h (2 * d) v c trivial]
  dump := by
    intro a fc fc' fl fl' buf buf' ha h
    simp only [sampleStages, ha, if_true]
    funext f v c
    exact h f v c trivial
  update := by
    intro a Input Output Output' de de' fl fl' h
    have e : ∀ v c, fl 0 v c = fl' 0 v c := fun v c => h 0 v c trivial
    simp only [sampleStages, e]
  reads := by intro face c _ _ _; exact ⟨trivial, trivial, trivial, trivial⟩

/-- C7 at concrete inputs, in a build with `UNSPLIT_GRAVITY` and with `StoreFlux` set. Patch
group 1 is handled second by a worker with clean memory and first by a worker with stale
scratch and other content of the output arrays, among different other patch groups, inputs
and potentials; and it is handled by two runs of the driver over 2 and over 4 patch groups,
with different first content of the scratch and output arrays. -/
theorem C7_patch_group_independence_witness :
    ((CTU_worker sampleStages sampleGravityBuild sampleBuild sampleParams
        (fun _ => sampleVar 0) (fun _ _ => 0) samplePot [0, 1] sampleWorker).Flu_Array_Out 1 =
      (CTU_worker sampleStages sampleGravityBuild sampleBuild sampleParams
        otherIn (fun _ _ => 0) otherPot [1, 5, 2] staleWorker).Flu_Array_Out 1 ∧
    (CTU_worker sampleStages sampleGravityBuild sampleBuild sampleParams
        (fun _ => sampleVar 0) (fun _ _ => 0) samplePot [0, 1] sampleWorker).DE_Array_Out 1 =
      (CTU_worker sampleStages sampleGravityBuild sampleBuild sampleParams
        otherIn (fun _ _ => 0) otherPot [1, 5, 2] staleWorker).DE_Array_Out 1 ∧
    (CTU_worker sampleStages sampleGravityBuild sampleBuild sampleParams
        (fun _ => sampleVar 0) (fun _ _ => 0) samplePot [0, 1] sampleWorker).Flux_Array 1 =
      (CTU_worker sampleStages sampleGravityBuild sampleBuild sampleParams
        otherIn (fun _ _ => 0) otherPot [1, 5, 2] staleWorker).Flux_Array 1) ∧
    ((CPU_FluidSolver_CTU sampleStages sampleGravityBuild sampleBuild (fun _ => sampleVar 0)
        (fun _ _ _ => 0) (fun _ _ => 0) (fun _ _ _ _ => 0) (fun _ _ => 0) samplePot 2
        sampleParams (flatFlux, flatFlux, sampleVar 0, flatFlux)).Flu_Array_Out 1 =
      (CPU_FluidSolver_CTU sampleStages sampleGravityBuild sampleBuild otherIn
        (fun _ _ _ => 4) (fun _ _ => 1) (fun _ _ _ _ => 2) (fun _ _ => 0) otherPot 4
        sampleParams (sampleFlux, sampleFlux, sampleFlux 0, sampleFlux)).Flu_Array_Out 1 ∧
    (CPU_FluidSolver_CTU sampleStages sampleGravityBuild sampleBuild (fun _ => sampleVar 0)
        (fun _ _ _ => 0) (fun _ _ => 0) (fun _ _ _ _ => 0) (fun _ _ => 0) samplePot 2
        sampleParams (flatFlux, flatFlux, sampleVar 0, flatFlux)).Flux_Array 1 =
      (CPU_FluidSolver_CTU sampleStages sampleGravityBuild sampleBuild otherIn
        (fun _ _ _ => 4) (fun _ _ => 1) (fun _ _ _ _ => 2) (fun _ _ => 0) otherPot 4
        sampleParams (sampleFlux, sampleFlux, sampleFlux 0, sampleFlux)).Flux_Array 1) :=
  have hIn : (fun _ => sampleVar 0 : Nat → Block) 1 = otherIn 1 := by
    funext v c
    simp [otherIn]
  have hG : sampleGravityBuild.UNSPLIT_GRAVITY = true →
      samplePot 1 = otherPot 1 ∧
        (fun _ _ => 0 : Nat → Nat → real) 1 = (fun _ _ => 0 : Nat → Nat → real) 1 := by
    intro _
    refine ⟨?_, rfl⟩
    funext c
    simp [samplePot, otherPot]
  have hw := (C7_patch_group_independence sampleStages sampleGravityBuild sampleBuild
    sampleParams (fun _ _ => True) (fun _ _ _ => True) sampleStages_contract
    (fun _ => sampleVar 0) otherIn (fun _ _ => 0) (fun _ _ => 0) samplePot otherPot 1 hIn hG).1
    [0, 1] [1, 5, 2] sampleWorker staleWorker (by decide) (by decide) (by decide) (by decide)
  have hd := (C7_patch_group_independence sampleStages sampleGravityBuild sampleBuild
    sampleParams (fun _ _ => True) (fun _ _ _ => True) sampleStages_contract
    (fun _ => sampleVar 0) otherIn (fun _ _ => 0) (fun _ _ => 0) samplePot otherPot 1 hIn hG).2
    (fun _ _ _ => 0) (fun _ _ _ => 4) (fun _ _ => 0) (fun _ _ => 1) (fun _ _ _ _ => 0)
    (fun _ _ _ _ => 2) 2 4 (flatFlux, flatFlux, sampleVar 0, flatFlux)
    (sampleFlux, sampleFlux, sampleFlux 0, sampleFlux) (by decide) (by decide)
  ⟨⟨hw.1, hw.2.1, hw.2.2 rfl⟩, ⟨hd.1, hd.2.2 rfl⟩⟩

/-- Without the contract of the stages the driver alone does not isolate patch groups: it
hands the scratch arrays on as they are, so with stages that do not overwrite them the output
of a patch group shows the first content of the scratch. -/
theorem CTU_worker_leak :
    (CTU_worker leakyStages sampleDriverBuild sampleBuild sampleParams (fun _ => sampleVar 0)
        (fun _ _ => 0) (fun _ _ => 0) [1] sampleWorker).Flu_Array_Out 1 0 0 = 0 ∧
    (CTU_worker leakyStages sampleDriverBuild sampleBuild sampleParams (fun _ => sampleVar 0)
        (fun _ _ => 0) (fun _ _ => 0) [1]
        { sampleWorker with FC_Flux_1PG := fun _ _ _ => 7 }).Flu_Array_Out 1 0 0 = 7 := by
  constructor
  · rw [CTU_worker_cons, CTU_worker_nil, CTU_body_eq]
    simp only [Function.update_same, (TGC_spec _ _ _ _ _ _ _ _ _ _).1, leakyStages, sampleWorker,
      Option.getD_some]
  · rw [CTU_worker_cons, CTU_worker_nil, CTU_body_eq]
    simp only [Function.update_same, (TGC_spec _ _ _ _ _ _ _ _ _ _).1, leakyStages, sampleWorker,
      Option.getD_some]

theorem visited_count_box (N : Int) (d : Nat) (hd : d < 3) (i j k : Int)
    (hb : GapBox N d i j k) : (visited N d).count (IDX321 i j k N N) = 1 :=
  List.count_eq_one_of_mem (visited_nodup N d hd) (visited_box N d hd i j k hb)

/-- C13: for `NCell >= 3` and each direction `d` the index decomposition is a bijection from
the loop counters `[0, NCell*(NCell-2)^2)` onto the box of cells with coordinate along `d` in
`[0, NCell)` and transverse coordinates in `[1, NCell-1)`: every iteration visits a cell of the
box, every cell of the box is visited by exactly one loop counter (so its cell index occurs
exactly once among the cell indices the pass addresses), and no cell outside the box is
visited. -/
theorem C13_index_bijection (N : Int) (d : Nat) (hN : 3 ≤ N) (hd : d < 3) :
    (∀ idx : Int, 0 ≤ idx → idx < N * SQR (N - 2) →
      InBox N d (i_var N d idx) (j_var N d idx) (k_var N d idx)) ∧
    (∀ i j k : Int, InBox N d i j k →
      ∃! idx : Int, 0 ≤ idx ∧ idx < N * SQR (N - 2) ∧
        i_var N d idx = i ∧ j_var N d idx = j ∧ k_var N d idx = k) ∧
    (∀ i j k : Int, InBox N d i j k → (visited N d).count (IDX321 i j k N N) = 1) ∧
    (∀ c : Int, c ∈ visited N d → ∃ i j k, InBox N d i j k ∧ c = IDX321 i j k N N) := by
  refine ⟨?_, ?_, ?_, ?_⟩
  · intro idx h0 h1
    exact (InBox_gap N d hd _ _ _).mpr (vars_inBox N d hN hd idx h0 h1).1
  · intro i j k hb0
    have hb := (InBox_gap N d hd i j k).mp hb0
    obtain ⟨h0, h1, e1, e2, e3⟩ := idxOf_spec N d hd i j k hb
    refine ⟨idxOf N d i j k, ⟨h0, h1, e1, e2, e3⟩, ?_⟩
    rintro idx ⟨g0, g1, f1, f2, f3⟩
    have h := (vars_inBox N d hN hd idx g0 g1).2
    rw [f1, f2, f3] at h
    exact h.symm
  · intro i j k hb0
    exact visited_count_box N d hd i j k ((InBox_gap N d hd i j k).mp hb0)
  · intro c hc
    obtain ⟨i, j, k, hb, e⟩ := (visited_iff N d hd hN c).mp hc
    exact ⟨i, j, k, (InBox_gap N d hd i j k).mpr hb, e⟩

/-- C13 at a concrete input: four cells per direction, direction 1. -/
theorem C13_index_bijection_witness :
    InBox 4 1 (i_var 4 1 5) (j_var 4 1 5) (k_var 4 1 5) ∧
    (visited 4 1).count (IDX321 1 3 2 4 4) = 1 :=
  ⟨(C13_index_bijection 4 1 (by decide) (by decide)).1 5 (by decide) (by decide),
    (C13_index_bijection 4 1 (by decide) (by decide)).2.2.1 1 3 2 (by unfold InBox; decide)⟩

theorem IDX321_bounds (N i j k : Int) (i0 : 0 ≤ i) (i1 : i < N) (j0 : 0 ≤ j) (j1 : j < N)
    (k0 : 0 ≤ k) (k1 : k < N) : 0 ≤ IDX321 i j k N N ∧ IDX321 i j k N N < CUBE N := by
  unfold IDX321 CUBE
  have hN : 0 ≤ N := by omega
  constructor
  · positivity
  · have hk : k ≤ N - 1 := by omega
    have hj : j ≤ N - 1 := by omega
    have h1 : k * N ≤ (N - 1) * N := mul_le_mul_of_nonneg_right hk hN
    have h2 : (k * N + j) * N ≤ ((N - 1) * N + (N - 1)) * N :=
      mul_le_mul_of_nonneg_right (by linarith) hN
    nlinarith

/-- The -1 neighbour of a visited cell along a direction transverse to `d` is a cell of the
cube. -/
theorem neighbour_cube (N : Int) (d T : Nat) (hd : d < 3) (hT : T < 3) (hTd : T ≠ d)
    (i j k : Int) (hb : GapBox N d i j k) :
    0 ≤ i - unit T 0 ∧ i - unit T 0 < N ∧ 0 ≤ j - unit T 1 ∧ j - unit T 1 < N ∧
      0 ≤ k - unit T 2 ∧ k - unit T 2 < N := by
  obtain ⟨i0, i1, j0, j1, k0, k1⟩ := hb
  interval_cases d <;> interval_cases T <;> simp [gap, unit] at hTd i0 i1 j0 j1 k0 k1 ⊢ <;>
    omega

/-- C14: for `NCell >= 3`, every direction `d` and every loop counter `idx`, the cell indices
`idx_var`, `idx_var - didx[TDir1]` and `idx_var - didx[TDir2]` lie in `[0, NCell^3)`, the face
indices `2d`, `2d+1` lie in `[0, 6)` and `TDir1`, `TDir2` lie in `[0, 3)`. -/
theorem C14_indices_in_bounds (N : Int) (d : Nat) (hN : 3 ≤ N) (hd : d < 3) (idx : Nat)
    (hidx : idx < NIter N) :
    (0 ≤ idx_var N d idx ∧ idx_var N d idx < CUBE N) ∧
    (0 ≤ idx_var N d idx - didx N (TDir1 d) ∧ idx_var N d idx - didx N (TDir1 d) < CUBE N) ∧
    (0 ≤ idx_var N d idx - didx N (TDir2 d) ∧ idx_var N d idx - didx N (TDir2 d) < CUBE N) ∧
    2 * d < 6 ∧ 2 * d + 1 < 6 ∧ TDir1 d < 3 ∧ TDir2 d < 3 := by
  have hpos : 0 ≤ N * SQR (N - 2) := mul_nonneg (by omega) (mul_self_nonneg _)
  have h1 : (idx : Int) < N * SQR (N - 2) := by unfold NIter at hidx; omega
  obtain ⟨hb, _⟩ := vars_inBox N d hN hd idx (by positivity) h1
  obtain ⟨c1, c2, c3, c4, c5, c6⟩ := GapBox_cube N d _ _ _ hb
  have hT1 : TDir1 d < 3 ∧ TDir1 d ≠ d := by simp only [TDir1]; omega
  have hT2 : TDir2 d < 3 ∧ TDir2 d ≠ d := by simp only [TDir2]; omega
  obtain ⟨p1, p2, p3, p4, p5, p6⟩ := neighbour_cube N d (TDir1 d) hd hT1.1 hT1.2 _ _ _ hb
  obtain ⟨q1, q2, q3, q4, q5, q6⟩ := neighbour_cube N d (TDir2 d) hd hT2.1 hT2.2 _ _ _ hb
  refine ⟨?_, ?_, ?_, by omega, by omega, hT1.1, hT2.1⟩
  · unfold idx_var
    exact IDX321_bounds N _ _ _ c1 c2 c3 c4 c5 c6
  · unfold idx_var
    rw [neighbour_index N _ _ _ (TDir1 d) hT1.1]
    exact IDX321_bounds N _ _ _ p1 p2 p3 p4 p5 p6
  · unfold idx_var
    rw [neighbour_index N _ _ _ (TDir2 d) hT2.1]
    exact IDX321_bounds N _ _ _ q1 q2 q3 q4 q5 q6

/-- C14 at a concrete input: three cells per direction, direction 2, the last iteration. -/
theorem C14_indices_in_bounds_witness :
    (0 ≤ idx_var 3 2 (2 : Nat) ∧ idx_var 3 2 (2 : Nat) < CUBE 3) ∧
    (0 ≤ idx_var 3 2 (2 : Nat) - didx 3 (TDir1 2) ∧
      idx_var 3 2 (2 : Nat) - didx 3 (TDir1 2) < CUBE 3) ∧
    (0 ≤ idx_var 3 2 (2 : Nat) - didx 3 (TDir2 2) ∧
      idx_var 3 2 (2 : Nat) - didx 3 (TDir2 2) < CUBE 3) ∧
    2 * 2 < 6 ∧ 2 * 2 + 1 < 6 ∧ TDir1 2 < 3 ∧ TDir2 2 < 3 :=
  C14_indices_in_bounds 3 2 (by decide) (by decide) 2 (by decide)

/-- With the floor helper of the specification, flooring a floored state changes nothing. -/
theorem floorFace_idem (B : Build) (Gamma MinDens MinPres : real) (hG : 1 < Gamma)
    (x : Nat → real) (v : Nat) :
    floorFace B Hydro_CheckMinPresInEngy (Gamma - 1) (1 / (Gamma - 1)) MinDens MinPres
        (floorFace B Hydro_CheckMinPresInEngy (Gamma - 1) (1 / (Gamma - 1)) MinDens MinPres x) v =
      floorFace B Hydro_CheckMinPresInEngy (Gamma - 1) (1 / (Gamma - 1)) MinDens MinPres x v := by
  apply floorFace_fixed
  · unfold floorFace FMAX
    rw [if_pos rfl]
    exact le_max_right _ _
  · have e0 : floorFace B Hydro_CheckMinPresInEngy (Gamma - 1) (1 / (Gamma - 1)) MinDens MinPres
        x 0 = FMAX (x 0) MinDens := by unfold floorFace; rw [if_pos rfl]
    have e4 : floorFace B Hydro_CheckMinPresInEngy (Gamma - 1) (1 / (Gamma - 1)) MinDens MinPres
        x 4 = Hydro_CheckMinPresInEngy (FMAX (x 0) MinDens) (x 1) (x 2) (x 3) (x 4) (Gamma - 1)
          (1 / (Gamma - 1)) MinPres := by
      unfold floorFace; rw [if_neg (by omega), if_pos rfl]
    have em : ∀ w, (w = 1 ∨ w = 2 ∨ w = 3) →
        floorFace B Hydro_CheckMinPresInEngy (Gamma - 1) (1 / (Gamma - 1)) MinDens MinPres
          x w = x w := by
      intro w hw
      unfold floorFace NCOMP_FLUID
      rw [if_neg (by omega), if_neg (by omega), if_neg (by omega)]
    rw [e0, e4, em 1 (by omega), em 2 (by omega), em 3 (by omega)]
    exact helper_pressure _ _ _ _ _ Gamma MinPres hG
  · intro w h5 hw
    unfold NCOMP_FLUID at h5
    unfold floorFace FMAX NCOMP_FLUID
    rw [if_neg (by omega), if_neg (by omega), if_pos ⟨h5, hw⟩]
    exact le_max_right _ _

/-- Without transverse flux differences the kernel is the flooring step alone. -/
theorem TGC_flat (B : Build) (Chk : EngyFloor) (A F : FCArray)
    (dt dh g1 g2 MinDens MinPres : real)
    (hflux : ∀ (d v : Nat) (c : Int), d < 3 → v < B.NCOMP_TOTAL → c ∈ visited B.N_FC_VAR d →
      F (TDir1 d) v c = F (TDir1 d) v (c - didx B.N_FC_VAR (TDir1 d)) ∧
      F (TDir2 d) v c = F (TDir2 d) v (c - didx B.N_FC_VAR (TDir2 d)))
    (face v : Nat) (c : Int) :
    (Hydro_TGradient_Correction B Chk A F dt dh g1 g2 MinDens MinPres).FC_Var face v c =
      if v < B.NCOMP_TOTAL ∧ face < 6 ∧ c ∈ visited B.N_FC_VAR (face / 2) then
        floorFace B Chk g1 g2 MinDens MinPres (fun w => A face w c) v
      else A face v c := by
  rw [(TGC_spec B Chk A F dt dh g1 g2 MinDens MinPres).2]
  by_cases hc : v < B.NCOMP_TOTAL ∧ face < 6 ∧ c ∈ visited B.N_FC_VAR (face / 2)
  · rw [if_pos hc, if_pos hc]
    apply floorFace_congr _ _ _ _ _ _ _ _ _ hc.1
    intro w hw
    obtain ⟨h1, h2⟩ := hflux (face / 2) w c (by omega) hw hc.2.2
    rw [Correct_zero _ _ _ _ _ _ _ h1 h2, add_zero]
  · rw [if_neg hc, if_neg hc]

/-- C17: when all transverse flux differences are zero (at the visited cells), the kernel with
the floor helper of spec §4.5, `Gamma > 1` and `MinDens > 0` reduces to the flooring step
alone, and applying it a second time to its own output changes nothing, for every input face
state. -/
theorem C17_idempotent_without_gradients (B : Build) (A F : FCArray)
    (dt dh Gamma MinDens MinPres : real) (hG : 1 < Gamma) (_hD : 0 < MinDens)
    (hflux : ∀ (d v : Nat) (c : Int), d < 3 → v < B.NCOMP_TOTAL → c ∈ visited B.N_FC_VAR d →
      F (TDir1 d) v c = F (TDir1 d) v (c - didx B.N_FC_VAR (TDir1 d)) ∧
      F (TDir2 d) v c = F (TDir2 d) v (c - didx B.N_FC_VAR (TDir2 d))) :
    (∀ (face v : Nat) (c : Int),
      (Hydro_TGradient_Correction B Hydro_CheckMinPresInEngy A F dt dh (Gamma - 1)
          (1 / (Gamma - 1)) MinDens MinPres).FC_Var face v c =
        if v < B.NCOMP_TOTAL ∧ face < 6 ∧ c ∈ visited B.N_FC_VAR (face / 2) then
          floorFace B Hydro_CheckMinPresInEngy (Gamma - 1) (1 / (Gamma - 1)) MinDens MinPres
            (fun w => A face w c) v
        else A face v c) ∧
    (Hydro_TGradient_Correction B Hydro_CheckMinPresInEngy
        (Hydro_TGradient_Correction B Hydro_CheckMinPresInEngy A F dt dh (Gamma - 1)
          (1 / (Gamma - 1)) MinDens MinPres).FC_Var
        F dt dh (Gamma - 1) (1 / (Gamma - 1)) MinDens MinPres).FC_Var =
      (Hydro_TGradient_Correction B Hydro_CheckMinPresInEngy A F dt dh (Gamma - 1)
        (1 / (Gamma - 1)) MinDens MinPres).FC_Var := by
  have h1 := TGC_flat B Hydro_CheckMinPresInEngy A F dt dh (Gamma - 1) (1 / (Gamma - 1))
    MinDens MinPres hflux
  refine ⟨h1, ?_⟩
  funext face v c
  rw [TGC_flat B Hydro_CheckMinPresInEngy _ F dt dh (Gamma - 1) (1 / (Gamma - 1))
    MinDens MinPres hflux face v c]
  by_cases hc : v < B.NCOMP_TOTAL ∧ face < 6 ∧ c ∈ visited B.N_FC_VAR (face / 2)
  · rw [if_pos hc, h1 face v c, if_pos hc]
    have hx : floorFace B Hydro_CheckMinPresInEngy (Gamma - 1) (1 / (Gamma - 1)) MinDens MinPres
        (fun w => (Hydro_TGradient_Correction B Hydro_CheckMinPresInEngy A F dt dh (Gamma - 1)
          (1 / (Gamma - 1)) MinDens MinPres).FC_Var face w c) v =
        floorFace B Hydro_CheckMinPresInEngy (Gamma - 1) (1 / (Gamma - 1)) MinDens MinPres
          (floorFace B Hydro_CheckMinPresInEngy (Gamma - 1) (1 / (Gamma - 1)) MinDens MinPres
            (fun w => A face w c)) v := by
      apply floorFace_congr _ _ _ _ _ _ _ _ _ hc.1
      intro w hw
      rw [h1 face w c, if_pos ⟨hw, hc.2.1, hc.2.2⟩]
    rw [hx]
    exact floorFace_idem B Gamma MinDens MinPres hG _ v
  · rw [if_neg hc]

/-- C17 at a concrete input: a near-vacuum state and flat fluxes, `Gamma = 2`, floors 1. -/
theorem C17_idempotent_without_gradients_witness :
    (Hydro_TGradient_Correction sampleBuild Hydro_CheckMinPresInEngy
        (Hydro_TGradient_Correction sampleBuild Hydro_CheckMinPresInEngy (fun _ _ _ => -5)
          flatFlux 1 1 (2 - 1) (1 / (2 - 1)) 1 1).FC_Var
        flatFlux 1 1 (2 - 1) (1 / (2 - 1)) 1 1).FC_Var =
      (Hydro_TGradient_Correction sampleBuild Hydro_CheckMinPresInEngy (fun _ _ _ => -5)
        flatFlux 1 1 (2 - 1) (1 / (2 - 1)) 1 1).FC_Var :=
  (C17_idempotent_without_gradients sampleBuild (fun _ _ _ => -5) flatFlux 1 1 2 1 1
    (by norm_num) (by norm_num) (fun _ _ _ _ _ _ => ⟨rfl, rfl⟩)).2

/-- Iterations that work on pairwise different (direction, cell) pairs, in any order: every
entry of the two faces of a visited pair is corrected and floored once, from its input value. -/
theorem TGC_sched_FC (B : Build) (Chk : EngyFloor) (dt dh g1 g2 MinDens MinPres : real)
    (sched : List (Nat × Nat)) (hnd : (sched.map (cellKey B.N_FC_VAR)).Nodup)
    (s : Mem × LocalVar) :
    (sched.foldl (fun s p => TGC_iter B Chk dt dh g1 g2 MinDens MinPres p.1 s p.2) s).1.FC_Flux =
      s.1.FC_Flux ∧
    ∀ (face v : Nat) (c : Int),
      (sched.foldl (fun s p => TGC_iter B Chk dt dh g1 g2 MinDens MinPres p.1 s p.2)
          s).1.FC_Var face v c =
        if v < B.NCOMP_TOTAL ∧ (face / 2, c) ∈ sched.map (cellKey B.N_FC_VAR) then
          floorFace B Chk g1 g2 MinDens MinPres
            (fun w => s.1.FC_Var face w c + Correct B.N_FC_VAR s.1.FC_Flux dt dh (face / 2) w c) v
        else s.1.FC_Var face v c := by
  induction sched generalizing s with
  | nil => simp
  | cons a L ih =>
    rw [List.map_cons, List.nodup_cons] at hnd
    obtain ⟨hF, hV⟩ := ih hnd.2 (TGC_iter B Chk dt dh g1 g2 MinDens MinPres a.1 s a.2)
    rw [List.foldl_cons]
    refine ⟨by rw [hF, TGC_iter_FC_Flux], ?_⟩
    intro face v c
    rw [hV, TGC_iter_FC_Flux]
    have hkey : (face / 2, c) = cellKey B.N_FC_VAR a ↔
        (c = idx_var B.N_FC_VAR a.1 a.2 ∧ (face = 2 * a.1 ∨ face = 2 * a.1 + 1)) := by
      unfold cellKey
      rw [Prod.mk.injEq]
      constructor
      · rintro ⟨h1, h2⟩; exact ⟨h2, by omega⟩
      · rintro ⟨h1, h2⟩; exact ⟨by omega, h1⟩
    by_cases hv : v < B.NCOMP_TOTAL
    · by_cases hc : (face / 2, c) ∈ L.map (cellKey B.N_FC_VAR)
      · have hne : (face / 2, c) ≠ cellKey B.N_FC_VAR a := by
          intro e; exact hnd.1 (e ▸ hc)
        have hmem : (face / 2, c) ∈ List.map (cellKey B.N_FC_VAR) (a :: L) := by
          rw [List.map_cons]; exact List.mem_cons_of_mem _ hc
        rw [if_pos ⟨hv, hc⟩, if_pos ⟨hv, hmem⟩]
        apply floorFace_congr _ _ _ _ _ _ _ _ _ hv
        intro w hw
        rw [TGC_iter_FC_Var, if_neg (fun h => hne (hkey.mpr h.2))]
      · rw [if_neg (fun h => hc h.2), TGC_iter_FC_Var]
        by_cases hca : (face / 2, c) = cellKey B.N_FC_VAR a
        · have hmem : (face / 2, c) ∈ List.map (cellKey B.N_FC_VAR) (a :: L) := by
            rw [List.map_cons, hca]; exact List.mem_cons_self _ _
          have hd : a.1 = face / 2 := by
            have := (hkey.mp hca).2; omega
          rw [if_pos ⟨hv, hkey.mp hca⟩, if_pos ⟨hv, hmem⟩, hd]
        · have hmem : ¬ (face / 2, c) ∈ List.map (cellKey B.N_FC_VAR) (a :: L) := by
            rw [List.map_cons, List.mem_cons]; tauto
          rw [if_neg (fun h => hca (hkey.mpr h.2)), if_neg (fun h => hmem h.2)]
    · rw [if_neg (fun h => hv h.1), if_neg (fun h => hv h.1), TGC_iter_FC_Var,
        if_neg (fun h => hv h.1)]

theorem seqSchedule_keys (N : Int) :
    (seqSchedule N).map (cellKey N) =
      (List.range 3).flatMap (fun d => (visited N d).map (fun c => (d, c))) := by
  unfold seqSchedule visited
  rw [List.map_flatMap]
  simp only [List.map_map]
  rfl

theorem seqSchedule_mem (N : Int) (d : Nat) (c : Int) :
    (d, c) ∈ (seqSchedule N).map (cellKey N) ↔ d < 3 ∧ c ∈ visited N d := by
  rw [seqSchedule_keys, List.mem_flatMap]
  constructor
  · rintro ⟨d', hd', h⟩
    rw [List.mem_map] at h
    obtain ⟨c', hc', e⟩ := h
    rw [Prod.mk.injEq] at e
    rw [List.mem_range] at hd'
    rw [← e.1, ← e.2]
    exact ⟨hd', hc'⟩
  · rintro ⟨hd, hc⟩
    exact ⟨d, List.mem_range.mpr hd, List.mem_map.mpr ⟨c, hc, rfl⟩⟩

theorem seqSchedule_nodup (N : Int) : ((seqSchedule N).map (cellKey N)).Nodup := by
  rw [seqSchedule_keys, List.nodup_flatMap]
  constructor
  · intro d hd
    rw [List.mem_range] at hd
    apply List.Nodup.map _ (visited_nodup N d hd)
    intro a b h
    exact (Prod.mk.injEq _ _ _ _ ▸ h).2
  · have hr : List.range 3 = [0, 1, 2] := by decide
    rw [hr]
    have hdis : ∀ a b : Nat, a ≠ b →
        List.Disjoint ((visited N a).map (fun c => (a, c))) ((visited N b).map (fun c => (b, c))) := by
      intro a b hab x hx hy
      rw [List.mem_map] at hx hy
      obtain ⟨_, _, e1⟩ := hx
      obtain ⟨_, _, e2⟩ := hy
      apply hab
      rw [← e2] at e1
      exact (Prod.mk.injEq _ _ _ _ ▸ e1).1
    simp only [List.pairwise_cons, List.mem_cons, List.mem_singleton, List.not_mem_nil,
      Function.onFun, List.Pairwise.nil, and_true, forall_eq_or_imp, forall_eq, IsEmpty.forall_iff,
      implies_true]
    exact ⟨⟨hdis 0 1 (by decide), hdis 0 2 (by decide)⟩, hdis 1 2 (by decide)⟩

/-- C15: the result of the kernel does not depend on the order of its iterations: an
iteration changes `FC_Var` only at the faces `2d`, `2d+1` of its own cell and leaves `FC_Flux`
alone; what it writes there is determined by those entries and by `FC_Flux`; and running the
iterations of all three directions in any permutation of the sequential order yields the same
`FC_Var` (and the same untouched `FC_Flux`) as the sequential loops. -/
theorem C15_order_independence (B : Build) (Chk : EngyFloor) (A F : FCArray)
    (dt dh g1 g2 MinDens MinPres : real) (sched : List (Nat × Nat))
    (hperm : sched.Perm (seqSchedule B.N_FC_VAR)) :
    (∀ (d idx : Nat) (s : Mem × LocalVar),
      (TGC_iter B Chk dt dh g1 g2 MinDens MinPres d s idx).1.FC_Flux = s.1.FC_Flux ∧
      ∀ (face v : Nat) (c : Int),
        (TGC_iter B Chk dt dh g1 g2 MinDens MinPres d s idx).1.FC_Var face v c ≠
            s.1.FC_Var face v c →
          v < B.NCOMP_TOTAL ∧ c = idx_var B.N_FC_VAR d idx ∧ (face = 2 * d ∨ face = 2 * d + 1)) ∧
    (∀ (d idx : Nat) (s s' : Mem × LocalVar), s.1.FC_Flux = s'.1.FC_Flux →
      (∀ f w : Nat, f < 2 → w < B.NCOMP_TOTAL →
        s.1.FC_Var (2 * d + f) w (idx_var B.N_FC_VAR d idx) =
          s'.1.FC_Var (2 * d + f) w (idx_var B.N_FC_VAR d idx)) →
      ∀ f v : Nat, f < 2 → v < B.NCOMP_TOTAL →
        (TGC_iter B Chk dt dh g1 g2 MinDens MinPres d s idx).1.FC_Var (2 * d + f) v
            (idx_var B.N_FC_VAR d idx) =
          (TGC_iter B Chk dt dh g1 g2 MinDens MinPres d s' idx).1.FC_Var (2 * d + f) v
            (idx_var B.N_FC_VAR d idx)) ∧
    (TGC_sched B Chk dt dh g1 g2 MinDens MinPres sched { FC_Var := A, FC_Flux := F }).FC_Var =
      (Hydro_TGradient_Correction B Chk A F dt dh g1 g2 MinDens MinPres).FC_Var ∧
    (TGC_sched B Chk dt dh g1 g2 MinDens MinPres sched { FC_Var := A, FC_Flux := F }).FC_Flux =
      (Hydro_TGradient_Correction B Chk A F dt dh g1 g2 MinDens MinPres).FC_Flux := by
  refine ⟨?_, ?_, ?_, ?_⟩
  · intro d idx s
    refine ⟨rfl, ?_⟩
    intro face v c hne
    rw [TGC_iter_FC_Var] at hne
    by_contra hcon
    rw [if_neg hcon] at hne
    exact hne rfl
  · intro d idx s s' hF hV f v hf hv
    rw [TGC_iter_FC_Var, TGC_iter_FC_Var, hF]
    have hcond : v < B.NCOMP_TOTAL ∧ idx_var B.N_FC_VAR d idx = idx_var B.N_FC_VAR d idx ∧
        (2 * d + f = 2 * d ∨ 2 * d + f = 2 * d + 1) := ⟨hv, rfl, by omega⟩
    rw [if_pos hcond, if_pos hcond]
    apply floorFace_congr _ _ _ _ _ _ _ _ _ hv
    intro w hw
    rw [hV f w hf hw]
  · have hnd : (sched.map (cellKey B.N_FC_VAR)).Nodup :=
      ((hperm.map (cellKey B.N_FC_VAR)).nodup_iff).mpr (seqSchedule_nodup B.N_FC_VAR)
    funext face v c
    unfold TGC_sched
    rw [(TGC_sched_FC B Chk dt dh g1 g2 MinDens MinPres sched hnd _).2,
      (TGC_spec B Chk A F dt dh g1 g2 MinDens MinPres).2]
    have hiff : (face / 2, c) ∈ sched.map (cellKey B.N_FC_VAR) ↔
        (face < 6 ∧ c ∈ visited B.N_FC_VAR (face / 2)) := by
      rw [(hperm.map (cellKey B.N_FC_VAR)).mem_iff, seqSchedule_mem]
      constructor
      · rintro ⟨h1, h2⟩; exact ⟨by omega, h2⟩
      · rintro ⟨h1, h2⟩; exact ⟨by omega, h2⟩
    by_cases hc : v < B.NCOMP_TOTAL ∧ face < 6 ∧ c ∈ visited B.N_FC_VAR (face / 2)
    · rw [if_pos hc, if_pos ⟨hc.1, hiff.mpr hc.2⟩]
    · rw [if_neg hc, if_neg (fun h => hc ⟨h.1, hiff.mp h.2⟩)]
  · have hnd : (sched.map (cellKey B.N_FC_VAR)).Nodup :=
      ((hperm.map (cellKey B.N_FC_VAR)).nodup_iff).mpr (seqSchedule_nodup B.N_FC_VAR)
    unfold TGC_sched
    rw [(TGC_sched_FC B Chk dt dh g1 g2 MinDens MinPres sched hnd _).1,
      (TGC_spec B Chk A F dt dh g1 g2 MinDens MinPres).1]

/-- C15 at a concrete input: the sequential order reversed (directions 2, 1, 0 and the loop
counters of each direction backwards). -/
theorem C15_order_independence_witness :
    (TGC_sched sampleBuild Hydro_CheckMinPresInEngy 1 1 1 1 1 1
        (seqSchedule sampleBuild.N_FC_VAR).reverse
        { FC_Var := sampleVar, FC_Flux := sampleFlux }).FC_Var =
      (Hydro_TGradient_Correction sampleBuild Hydro_CheckMinPresInEngy sampleVar sampleFlux
        1 1 1 1 1 1).FC_Var :=
  (C15_order_independence sampleBuild Hydro_CheckMinPresInEngy sampleVar sampleFlux
    1 1 1 1 1 1 (seqSchedule sampleBuild.N_FC_VAR).reverse (List.reverse_perm _)).2.2.1

theorem report_PassAll (k : Nat) (s : CheckState) : (report k s).PassAll = false := by
  unfold report
  dsimp only
  split_ifs <;> simp_all

theorem report_ParHome (k : Nat) (s : CheckState) : (report k s).ParHome = s.ParHome := by
  unfold report
  dsimp only
  split_ifs <;> rfl

theorem report_NParInLeaf (k : Nat) (s : CheckState) :
    (report k s).NParInLeaf = s.NParInLeaf := by
  unfold report
  dsimp only
  split_ifs <;> rfl

/-- A loop that reports a failure for every element with the property `bad`, where `bad` may
read the home flags: it leaves `PassAll` true exactly if it was true and no element is bad. -/
theorem reportFold_spec {α : Type} (k : Nat) (bad : (Int → Bool) → α → Prop)
    [inst : ∀ H x, Decidable (bad H x)] (L : List α) (s : CheckState) :
    ((L.foldl (fun s x => if bad s.ParHome x then report k s else s) s).PassAll = true ↔
      s.PassAll = true ∧ ∀ x ∈ L, ¬ bad s.ParHome x) ∧
    (L.foldl (fun s x => if bad s.ParHome x then report k s else s) s).ParHome = s.ParHome ∧
    (L.foldl (fun s x => if bad s.ParHome x then report k s else s) s).NParInLeaf =
      s.NParInLeaf := by
  induction L generalizing s with
  | nil => simp
  | cons a L ih =>
    rw [List.foldl_cons]
    by_cases hb : bad s.ParHome a
    · rw [if_pos hb]
      obtain ⟨h1, h2, h3⟩ := ih (report k s)
      rw [h2, h3, report_ParHome, report_NParInLeaf]
      refine ⟨?_, rfl, rfl⟩
      rw [h1, report_PassAll]
      constructor
      · intro h; exact absurd h.1 (by simp)
      · intro h; exact absurd hb (h.2 a (List.mem_cons_self _ _))
    · rw [if_neg hb]
      obtain ⟨h1, h2, h3⟩ := ih s
      refine ⟨?_, h2, h3⟩
      rw [h1]
      constructor
      · rintro ⟨p, q⟩
        refine ⟨p, ?_⟩
        intro x hx
        rcases List.mem_cons.mp hx with e | e
        · rw [e]; exact hb
        · exact q x e
      · rintro ⟨p, q⟩
        exact ⟨p, fun x hx => q x (List.mem_cons_of_mem _ hx)⟩

/-- One pass of the particle loop of a leaf patch. -/
theorem checkParticle_spec (Par : Particle_t) (pt : patch_t) (s : CheckState) (p : Nat) :
    ((checkParticle Par pt s p).PassAll = true ↔
      s.PassAll = true ∧ s.ParHome (pt.ParList p) = false ∧
        (∀ d : Nat, d < 3 → pt.EdgeL d ≤ ParPos Par d (pt.ParList p) ∧
          ParPos Par d (pt.ParList p) < pt.EdgeR d) ∧
        0 ≤ Par.Mass (pt.ParList p)) ∧
    (∀ x : Int, (checkParticle Par pt s p).ParHome x = true ↔
      s.ParHome x = true ∨ x = pt.ParList p) ∧
    (checkParticle Par pt s p).NParInLeaf = s.NParInLeaf := by
  unfold checkParticle
  simp only
  -- the state after check 5
  have h5 : ∀ s1 : CheckState,
      s1 = (if s.ParHome (pt.ParList p) = true then report 4 s
        else { s with ParHome := Function.update s.ParHome (pt.ParList p) true }) →
      (s1.PassAll = true ↔ s.PassAll = true ∧ s.ParHome (pt.ParList p) = false) ∧
      (∀ x : Int, s1.ParHome x = true ↔ s.ParHome x = true ∨ x = pt.ParList p) ∧
      s1.NParInLeaf = s.NParInLeaf := by
    intro s1 hs1
    by_cases hh : s.ParHome (pt.ParList p) = true
    · rw [if_pos hh] at hs1
      rw [hs1, report_PassAll, report_ParHome, report_NParInLeaf]
      refine ⟨?_, ?_, rfl⟩
      · constructor
        · intro h; exact absurd h (by simp)
        · intro h; rw [hh] at h; exact absurd h.2 (by simp)
      · intro x
        constructor
        · intro h; exact Or.inl h
        · rintro (h | h)
          · exact h
          · rw [h]; exact hh
    · rw [if_neg hh] at hs1
      rw [hs1]
      refine ⟨?_, ?_, rfl⟩
      · simp only [Bool.not_eq_true] at hh
        simp [hh]
      · intro x
        simp only
        by_cases hx : x = pt.ParList p
        · rw [hx, Function.update_same]; simp
        · rw [Function.update_noteq hx]; simp [hx]
  generalize hs1 : (if s.ParHome (pt.ParList p) = true then report 4 s
        else { s with ParHome := Function.update s.ParHome (pt.ParList p) true }) = s1
  obtain ⟨a1, a2, a3⟩ := h5 s1 hs1.symm
  obtain ⟨b1, b2, b3⟩ := reportFold_spec 0
    (fun _ d => ParPos Par d (pt.ParList p) < pt.EdgeL d ∨ ParPos Par d (pt.ParList p) ≥ pt.EdgeR d)
    (List.range 3) s1
  generalize (List.range 3).foldl
    (fun s d => if ParPos Par d (pt.ParList p) < pt.EdgeL d ∨
      ParPos Par d (pt.ParList p) ≥ pt.EdgeR d then report 0 s else s) s1 = s2 at b1 b2 b3
  have hedge : (∀ x ∈ List.range 3, ¬ (ParPos Par x (pt.ParList p) < pt.EdgeL x ∨
      ParPos Par x (pt.ParList p) ≥ pt.EdgeR x)) ↔
      (∀ d : Nat, d < 3 → pt.EdgeL d ≤ ParPos Par d (pt.ParList p) ∧
          ParPos Par d (pt.ParList p) < pt.EdgeR d) := by
    constructor
    · intro h d hd
      have := h d (List.mem_range.mpr hd)
      rw [not_or, not_lt, ge_iff_le, not_le] at this
      exact this
    · intro h d hd
      have := h d (List.mem_range.mp hd)
      rw [not_or, not_lt, ge_iff_le, not_le]
      exact this
  by_cases hm : Par.Mass (pt.ParList p) < 0
  · rw [if_pos hm, report_PassAll, report_ParHome, report_NParInLeaf, b2, b3]
    refine ⟨?_, a2, a3⟩
    constructor
    · intro h; exact absurd h (by simp)
    · intro h; exact absurd hm (not_lt.mpr h.2.2.2)
  · rw [if_neg hm, b2, b3]
    refine ⟨?_, a2, a3⟩
    rw [b1, a1, hedge]
    constructor
    · rintro ⟨⟨h1, h2⟩, h3⟩; exact ⟨h1, h2, h3, not_lt.mp hm⟩
    · rintro ⟨h1, h2, h3, _⟩; exact ⟨⟨h1, h2⟩, h3⟩

theorem home_false_iff (s s' : CheckState) (ids : List Int)
    (h : ∀ x : Int, s'.ParHome x = true ↔ s.ParHome x = true ∨ x ∈ ids) (x : Int) :
    s'.ParHome x = false ↔ s.ParHome x = false ∧ x ∉ ids := by
  rw [← Bool.not_eq_true, ← Bool.not_eq_true, h x, not_or]

/-- The particle loop of a leaf patch over the positions `ps` of its list. -/
theorem particleLoop_spec (Par : Particle_t) (pt : patch_t) (ps : List Nat) (s : CheckState) :
    ((ps.foldl (checkParticle Par pt) s).PassAll = true ↔
      s.PassAll = true ∧ (ps.map pt.ParList).Nodup ∧
        ∀ id ∈ ps.map pt.ParList, s.ParHome id = false ∧ inEdges Par pt id ∧ 0 ≤ Par.Mass id) ∧
    (∀ x : Int, (ps.foldl (checkParticle Par pt) s).ParHome x = true ↔
      s.ParHome x = true ∨ x ∈ ps.map pt.ParList) ∧
    (ps.foldl (checkParticle Par pt) s).NParInLeaf = s.NParInLeaf := by
  induction ps generalizing s with
  | nil => simp
  | cons a ps ih =>
    rw [List.foldl_cons, List.map_cons]
    obtain ⟨i1, i2, i3⟩ := ih (checkParticle Par pt s a)
    obtain ⟨c1, c2, c3⟩ := checkParticle_spec Par pt s a
    have hf := home_false_iff s (checkParticle Par pt s a) [pt.ParList a]
      (fun x => by rw [c2 x, List.mem_singleton])
    refine ⟨?_, ?_, by rw [i3, c3]⟩
    · rw [i1, c1, List.nodup_cons]
      constructor
      · rintro ⟨⟨h1, h2, h3, h4⟩, h5, h6⟩
        refine ⟨h1, ⟨?_, h5⟩, ?_⟩
        · intro hmem
          have := ((hf _).mp (h6 _ hmem).1).2
          exact this (List.mem_singleton.mpr rfl)
        · intro id hid
          rcases List.mem_cons.mp hid with e | e
          · rw [e]; exact ⟨h2, h3, h4⟩
          · exact ⟨((hf id).mp (h6 id e).1).1, (h6 id e).2⟩
      · rintro ⟨h1, ⟨h2, h3⟩, h4⟩
        obtain ⟨a1, a2, a3⟩ := h4 _ (List.mem_cons_self _ _)
        refine ⟨⟨h1, a1, a2, a3⟩, h3, ?_⟩
        intro id hid
        obtain ⟨b1, b2⟩ := h4 id (List.mem_cons_of_mem _ hid)
        refine ⟨(hf id).mpr ⟨b1, ?_⟩, b2⟩
        intro hmem
        rw [List.mem_singleton] at hmem
        exact h2 (hmem ▸ hid)
    · intro x
      rw [i2 x, c2 x, List.mem_cons]
      tauto

/-- One pass of the loop over the real patches. -/
theorem checkPatch_spec (Par : Particle_t) (s : CheckState) (pt : patch_t) :
    ((checkPatch Par s pt).PassAll = true ↔
      s.PassAll = true ∧ (pt.son ≠ -1 → pt.NPar = 0) ∧ (patchIDs pt).Nodup ∧
        ∀ id ∈ patchIDs pt, s.ParHome id = false ∧ inEdges Par pt id ∧ 0 ≤ Par.Mass id) ∧
    (∀ x : Int, (checkPatch Par s pt).ParHome x = true ↔
      s.ParHome x = true ∨ x ∈ patchIDs pt) ∧
    (checkPatch Par s pt).NParInLeaf = s.NParInLeaf + leafCount pt := by
  unfold checkPatch patchIDs leafCount
  simp only
  by_cases hleaf : pt.son = -1
  · rw [if_pos hleaf, if_pos hleaf, if_pos hleaf]
    obtain ⟨h1, h2, h3⟩ := particleLoop_spec Par pt (List.range pt.NPar.toNat)
      { s with NParInLeaf := s.NParInLeaf + pt.NPar }
    refine ⟨?_, h2, h3⟩
    rw [h1]
    unfold listed
    constructor
    · rintro ⟨a, b, c⟩; exact ⟨a, fun h => absurd hleaf h, b, c⟩
    · rintro ⟨a, _, b, c⟩; exact ⟨a, b, c⟩
  · rw [if_neg hleaf, if_neg hleaf, if_neg hleaf]
    by_cases hn : pt.NPar ≠ 0
    · rw [if_pos hn, report_PassAll, report_ParHome, report_NParInLeaf]
      refine ⟨?_, by simp, by simp⟩
      constructor
      · intro h; exact absurd h (by simp)
      · intro h; exact absurd (h.2.1 hleaf) hn
    · rw [if_neg hn]
      rw [not_not] at hn
      refine ⟨?_, by simp, by simp⟩
      constructor
      · intro h; exact ⟨h, fun _ => hn, List.nodup_nil, by simp⟩
      · intro h; exact h.1

/-- The loop over a list of patches. -/
theorem patchLoop_spec (Par : Particle_t) (L : List patch_t) (s : CheckState) :
    ((L.foldl (checkPatch Par) s).PassAll = true ↔
      s.PassAll = true ∧ (∀ pt ∈ L, pt.son ≠ -1 → pt.NPar = 0) ∧
        (L.flatMap patchIDs).Nodup ∧ (∀ id ∈ L.flatMap patchIDs, s.ParHome id = false) ∧
        (∀ pt ∈ L, ∀ id ∈ patchIDs pt, inEdges Par pt id ∧ 0 ≤ Par.Mass id)) ∧
    (∀ x : Int, (L.foldl (checkPatch Par) s).ParHome x = true ↔
      s.ParHome x = true ∨ x ∈ L.flatMap patchIDs) ∧
    (L.foldl (checkPatch Par) s).NParInLeaf = s.NParInLeaf + (L.map leafCount).sum := by
  induction L generalizing s with
  | nil => simp
  | cons pt L ih =>
    rw [List.foldl_cons, List.flatMap_cons, List.map_cons, List.sum_cons]
    obtain ⟨i1, i2, i3⟩ := ih (checkPatch Par s pt)
    obtain ⟨c1, c2, c3⟩ := checkPatch_spec Par s pt
    have hf := home_false_iff s (checkPatch Par s pt) (patchIDs pt) c2
    refine ⟨?_, ?_, by rw [i3, c3, add_assoc]⟩
    · rw [i1, c1, List.nodup_append]
      constructor
      · rintro ⟨⟨h1, h2, h3, h4⟩, h5, h6, h7, h8⟩
        refine ⟨h1, ?_, ⟨h3, h6, ?_⟩, ?_, ?_⟩
        · intro q hq
          rcases List.mem_cons.mp hq with e | e
          · rw [e]; exact h2
          · exact h5 q e
        · intro x hx hy
          exact ((hf x).mp (h7 x hy)).2 hx
        · intro id hid
          rcases List.mem_append.mp hid with e | e
          · exact (h4 id e).1
          · exact ((hf id).mp (h7 id e)).1
        · intro q hq id hid
          rcases List.mem_cons.mp hq with e | e
          · subst e; exact (h4 id hid).2
          · exact h8 q e id hid
      · rintro ⟨h1, h2, ⟨h3, h4, h5⟩, h6, h7⟩
        refine ⟨⟨h1, h2 pt (List.mem_cons_self _ _), h3, ?_⟩, ?_, h4, ?_, ?_⟩
        · intro id hid
          exact ⟨h6 id (List.mem_append_left _ hid), h7 pt (List.mem_cons_self _ _) id hid⟩
        · intro q hq
          exact h2 q (List.mem_cons_of_mem _ hq)
        · intro id hid
          exact (hf id).mpr ⟨h6 id (List.mem_append_right _ hid), fun hx => h5 hx hid⟩
        · intro q hq id hid
          exact h7 q (List.mem_cons_of_mem _ hq) id hid
    · intro x
      rw [i2 x, c2 x, List.mem_append]
      tauto

theorem reportIf_spec (k : Nat) (c : Prop) [Decidable c] (s : CheckState) :
    ((if c then report k s else s).PassAll = true ↔ s.PassAll = true ∧ ¬ c) ∧
    (if c then report k s else s).ParHome = s.ParHome ∧
    (if c then report k s else s).NParInLeaf = s.NParInLeaf := by
  by_cases h : c
  · rw [if_pos h, report_PassAll, report_ParHome, report_NParInLeaf]
    refine ⟨?_, rfl, rfl⟩
    constructor
    · intro h'; exact absurd h' (by simp)
    · intro h'; exact absurd h h'.2
  · rw [if_neg h]
    exact ⟨⟨fun h' => ⟨h', h⟩, fun h' => h'.1⟩, rfl, rfl⟩

theorem foldl_flatMap_eq {α β σ : Type} (f : α → List β) (g : σ → β → σ) (L : List α) (s : σ) :
    L.foldl (fun s a => (f a).foldl g s) s = (L.flatMap f).foldl g s := by
  induction L generalizing s with
  | nil => rfl
  | cons a L ih => rw [List.foldl_cons, List.flatMap_cons, List.foldl_append, ih]

/-- The two nested loops over levels and patch indices visit the real patches in order. -/
theorem patches_fold (amr : AMR_t) (s : CheckState) :
    (List.range amr.NLEVEL).foldl
      (fun s lv =>
        (List.range (amr.NPatchComma lv 1).toNat).foldl
          (fun s PID => checkPatch amr.Par s (amr.patch lv PID)) s)
      s = (realPatches amr).foldl (checkPatch amr.Par) s := by
  unfold realPatches
  rw [← foldl_flatMap_eq]
  congr 1
  funext s lv
  rw [List.foldl_map]

theorem flatMap_patchIDs (L : List patch_t) :
    L.flatMap patchIDs = (L.filter (fun pt => decide (pt.son = -1))).flatMap listed := by
  induction L with
  | nil => rfl
  | cons pt L ih =>
    rw [List.flatMap_cons, ih, List.filter_cons]
    unfold patchIDs
    by_cases h : pt.son = -1
    · simp [h]
    · simp [h]

theorem sum_leafCount (L : List patch_t) :
    (L.map leafCount).sum =
      ((L.filter (fun pt => decide (pt.son = -1))).map (fun pt => pt.NPar)).sum := by
  induction L with
  | nil => rfl
  | cons pt L ih =>
    rw [List.map_cons, List.sum_cons, ih, List.filter_cons]
    unfold leafCount
    by_cases h : pt.son = -1
    · simp [h]
    · simp [h]

theorem forall_patchIDs (L : List patch_t) (P : patch_t → Int → Prop) :
    (∀ pt ∈ L, ∀ id ∈ patchIDs pt, P pt id) ↔
      (∀ pt ∈ L.filter (fun pt => decide (pt.son = -1)), ∀ id ∈ listed pt, P pt id) := by
  constructor
  · intro h pt hpt id hid
    rw [List.mem_filter] at hpt
    have hs : pt.son = -1 := of_decide_eq_true hpt.2
    refine h pt hpt.1 id ?_
    unfold patchIDs
    rw [if_pos hs]
    exact hid
  · intro h pt hpt id hid
    unfold patchIDs at hid
    by_cases hs : pt.son = -1
    · rw [if_pos hs] at hid
      exact h pt (List.mem_filter.mpr ⟨hpt, decide_eq_true hs⟩) id hid
    · rw [if_neg hs] at hid
      exact absurd hid (List.not_mem_nil _)

/-- The checks of one rank, started from any local variables: `PassAll` ends true exactly if
it was true and the conditions hold, the home flags and the leaf count being those the
rank starts with. -/
theorem checkRank_spec (amr : AMR_t) (s : CheckState) :
    (checkRank amr s).PassAll = true ↔
      s.PassAll = true ∧ Check1 amr ∧ Check2 amr ∧
        s.NParInLeaf + ((leafPatches amr).map (fun pt => pt.NPar)).sum = amr.Par.NPar_Active ∧
        Check4 amr ∧ (Check5 amr ∧ ∀ id ∈ leafIDs amr, s.ParHome id = false) ∧
        (∀ p : Nat, (p : Int) < amr.Par.NPar → 0 ≤ amr.Par.Mass p →
          s.ParHome p = true ∨ (p : Int) ∈ leafIDs amr) ∧
        Check7 amr := by
  unfold checkRank
  simp only
  rw [patches_fold]
  obtain ⟨a1, a2, a3⟩ := patchLoop_spec amr.Par (realPatches amr) s
  generalize (realPatches amr).foldl (checkPatch amr.Par) s = s1 at a1 a2 a3
  obtain ⟨b1, b2, b3⟩ := reportIf_spec 2 (s1.NParInLeaf ≠ amr.Par.NPar_Active) s1
  generalize (if s1.NParInLeaf ≠ amr.Par.NPar_Active then report 2 s1 else s1) = s2 at b1 b2 b3
  obtain ⟨c1, c2, c3⟩ := reportFold_spec 5
    (fun H (p : Nat) => amr.Par.Mass p ≥ 0 ∧ H p = false) (List.range amr.Par.NPar.toNat) s2
  generalize (List.range amr.Par.NPar.toNat).foldl
    (fun s (p : Nat) => if amr.Par.Mass p ≥ 0 ∧ s.ParHome p = false then report 5 s else s) s2 = s3
    at c1 c2 c3
  obtain ⟨d1, _, _⟩ := reportIf_spec 6
    (amr.Par.NPar_Active + amr.Par.NPar_Inactive ≠ amr.Par.NPar) s3
  rw [d1, c1, b1, a1, b2, not_not, not_not, a3, flatMap_patchIDs, sum_leafCount]
  have h14 : (∀ pt ∈ realPatches amr, ∀ id ∈ patchIDs pt,
      inEdges amr.Par pt id ∧ 0 ≤ amr.Par.Mass id) ↔ (Check1 amr ∧ Check4 amr) := by
    rw [forall_patchIDs]
    unfold Check1 Check4 leafPatches inEdges
    constructor
    · intro h
      exact ⟨fun pt hpt id hid => (h pt hpt id hid).1, fun pt hpt id hid => (h pt hpt id hid).2⟩
    · intro h pt hpt id hid
      exact ⟨h.1 pt hpt id hid, h.2 pt hpt id hid⟩
  have h6 : (∀ x ∈ List.range amr.Par.NPar.toNat,
      ¬ (amr.Par.Mass (x : Nat) ≥ 0 ∧ s1.ParHome (x : Nat) = false)) ↔
      (∀ p : Nat, (p : Int) < amr.Par.NPar → 0 ≤ amr.Par.Mass p →
          s.ParHome p = true ∨ (p : Int) ∈ leafIDs amr) := by
    have hh : ∀ p : Nat, s1.ParHome p = true ↔ s.ParHome p = true ∨ (p : Int) ∈ leafIDs amr := by
      intro p
      rw [a2, flatMap_patchIDs]
      rfl
    constructor
    · intro h p hp hm
      have := h p (List.mem_range.mpr (by omega))
      rw [not_and, Bool.not_eq_false] at this
      exact (hh p).mp (this hm)
    · intro h p hp
      rw [List.mem_range] at hp
      rw [not_and, Bool.not_eq_false]
      intro hm
      exact (hh p).mpr (h p (by omega) hm)
  rw [h14, h6]
  unfold Check2 Check5 Check7 leafIDs leafPatches
  constructor
  · rintro ⟨⟨⟨⟨h1, h2, h3, h4, h5, h5'⟩, h6⟩, h7⟩, h8⟩
    exact ⟨h1, h5, h2, h6, h5', ⟨h3, h4⟩, h7, h8⟩
  · rintro ⟨h1, h5, h2, h6, h5', ⟨h3, h4⟩, h7, h8⟩
    exact ⟨⟨⟨⟨h1, h2, h3, h4, h5, h5'⟩, h6⟩, h7⟩, h8⟩

/-- The checks of one rank started with clean home flags and a zero leaf count. -/
theorem checkRank_fresh (amr : AMR_t) (s : CheckState) (hN : s.NParInLeaf = 0)
    (hH : ∀ x : Int, s.ParHome x = false) :
    (checkRank amr s).PassAll = true ↔ s.PassAll = true ∧ AllChecks amr := by
  rw [checkRank_spec, hN, zero_add]
  unfold AllChecks Check3 Check6
  constructor
  · rintro ⟨h0, h1, h2, h3, h4, ⟨h5, _⟩, h6, h7⟩
    refine ⟨h0, h1, h2, h3, h4, h5, ?_, h7⟩
    intro p hp hm
    rcases h6 p hp hm with h | h
    · rw [hH] at h; exact absurd h (by simp)
    · exact h
  · rintro ⟨h0, h1, h2, h3, h4, h5, h6, h7⟩
    exact ⟨h0, h1, h2, h3, h4, ⟨h5, fun id _ => hH id⟩, fun p hp hm => Or.inr (h6 p hp hm), h7⟩

theorem single_rank (amr : AMR_t) :
    Par_Aux_Check_Particle 1 (fun _ => amr) 0 = checkRank amr initState := by
  unfold Par_Aux_Check_Particle
  have hr : List.range 1 = [0] := by decide
  rw [hr, List.foldl_cons, List.foldl_nil]
  unfold rankStep
  rw [if_pos rfl]

/-- A particle that occurs in the leaf-patch lists, which hold no ID twice, occurs in the list
of exactly one leaf patch, exactly once. -/
theorem unique_home (L : List patch_t) (x : Int) (hnd : (L.flatMap listed).Nodup)
    (hx : x ∈ L.flatMap listed) :
    (L.flatMap listed).count x = 1 ∧
    ∃ L1 pt L2, L = L1 ++ pt :: L2 ∧ (listed pt).count x = 1 ∧
      (∀ q ∈ L1, x ∉ listed q) ∧ (∀ q ∈ L2, x ∉ listed q) := by
  refine ⟨List.count_eq_one_of_mem hnd hx, ?_⟩
  obtain ⟨pt, hpt, hin⟩ := List.mem_flatMap.mp hx
  obtain ⟨L1, L2, rfl⟩ := List.append_of_mem hpt
  rw [List.flatMap_append, List.flatMap_cons, List.nodup_append, List.nodup_append] at hnd
  obtain ⟨_, ⟨n1, _, n3⟩, n4⟩ := hnd
  refine ⟨L1, pt, L2, rfl, List.count_eq_one_of_mem n1 hin, ?_, ?_⟩
  · intro q hq hxq
    exact n4 (List.mem_flatMap.mpr ⟨q, hq, hxq⟩) (List.mem_append_left _ hin)
  · intro q hq hxq
    exact n3 hin (List.mem_flatMap.mpr ⟨q, hq, hxq⟩)

/-- C12: if the check passes on a rank, and every listed particle ID lies in `[0, NPar)`,
then each particle of the rank with `Mass >= 0` has one and only one home patch: its ID occurs
exactly once in the leaf-patch lists, in the list of exactly one leaf patch and there once. -/
theorem C12_one_home_patch (amr : AMR_t)
    (hpass : (Par_Aux_Check_Particle 1 (fun _ => amr) 0).PassAll = true)
    (_hrange : ∀ id ∈ leafIDs amr, 0 ≤ id ∧ id < amr.Par.NPar)
    (p : Nat) (hp : (p : Int) < amr.Par.NPar) (hm : 0 ≤ amr.Par.Mass p) :
    (leafIDs amr).count (p : Int) = 1 ∧
    ∃ L1 pt L2, leafPatches amr = L1 ++ pt :: L2 ∧ (listed pt).count (p : Int) = 1 ∧
      (∀ q ∈ L1, (p : Int) ∉ listed q) ∧ (∀ q ∈ L2, (p : Int) ∉ listed q) := by
  rw [single_rank, checkRank_fresh amr initState rfl (fun _ => rfl)] at hpass
  obtain ⟨_, _, _, _, _, h5, h6, _⟩ := hpass
  exact unique_home (leafPatches amr) p h5 (h6 p hp hm)

/-- C12 at a concrete input: one leaf patch that lists the only particle. -/
theorem C12_one_home_patch_witness :
    (leafIDs sampleAMR).count ((0 : Nat) : Int) = 1 ∧
    ∃ L1 pt L2, leafPatches sampleAMR = L1 ++ pt :: L2 ∧
      (listed pt).count ((0 : Nat) : Int) = 1 ∧
      (∀ q ∈ L1, ((0 : Nat) : Int) ∉ listed q) ∧ (∀ q ∈ L2, ((0 : Nat) : Int) ∉ listed q) :=
  C12_one_home_patch sampleAMR (by decide) (by decide) 0 (by decide) (by decide)

/-- The local variables of all ranks after the passes of the target ranks below `n`: every rank
holds the same `PassAll`, the conjunction of the results of those ranks, and the ranks from
`n` on have not touched their home flags and leaf count. -/
theorem rankLoop_inv (amr : Nat → AMR_t) (n : Nat) :
    ∀ r : Nat,
      (((List.range n).foldl (rankStep amr) (fun _ => initState) r).PassAll = true ↔
        ∀ t : Nat, t < n → rankOK amr t) ∧
      (n ≤ r →
        ((List.range n).foldl (rankStep amr) (fun _ => initState) r).NParInLeaf = 0 ∧
        ∀ x : Int, ((List.range n).foldl (rankStep amr) (fun _ => initState) r).ParHome x =
          false) := by
  induction n with
  | zero =>
    intro r
    refine ⟨?_, fun _ => ⟨rfl, fun _ => rfl⟩⟩
    simp [initState]
  | succ n ih =>
    intro r
    rw [List.range_succ, List.foldl_append, List.foldl_cons, List.foldl_nil]
    generalize (List.range n).foldl (rankStep amr) (fun _ => initState) = st at ih
    obtain ⟨hn1, hn2⟩ := ih n
    obtain ⟨f1, f2⟩ := hn2 (le_refl n)
    have hroot : (checkRank (amr n) (st n)).PassAll = true ↔
        ∀ t : Nat, t < n + 1 → rankOK amr t := by
      rw [checkRank_fresh (amr n) (st n) f1 f2, hn1]
      have hok : rankOK amr n ↔ AllChecks (amr n) := by
        unfold rankOK
        rw [checkRank_fresh (amr n) initState rfl (fun _ => rfl)]
        exact ⟨fun h => h.2, fun h => ⟨rfl, h⟩⟩
      rw [← hok]
      constructor
      · rintro ⟨h1, h2⟩ t ht
        rcases Nat.lt_succ_iff_lt_or_eq.mp ht with h | h
        · exact h1 t h
        · rw [h]; exact h2
      · intro h
        exact ⟨fun t ht => h t (by omega), h n (by omega)⟩
    unfold rankStep
    by_cases hr : r = n
    · rw [if_pos hr]
      exact ⟨hroot, fun h => absurd h (by omega)⟩
    · rw [if_neg hr]
      refine ⟨hroot, ?_⟩
      intro hle
      exact (ih r).2 (by omega)

/-- C18: the verdict is global: with the rank loop as the sequential chain it is, the final
`PassAll` of every rank is the conjunction of the check results of all ranks, and a rank's
checks can only turn `PassAll` to false. When the checks of all ranks pass, every rank takes the
`PASSED` branch (rank 0 alone printing the message); when they do not, every rank calls
`MPI_Exit`; so one of the two happens on all ranks alike. A failure found on any rank, rank 0
included, makes every rank call `MPI_Exit`, whatever the later ranks find: with two ranks, a
particle on the right edge of its patch on rank 0 and a passing rank 1, both ranks call
`MPI_Exit`, and with two passing ranks both take the `PASSED` branch. -/
theorem C18_global_verdict (MPI_NRank : Nat) (amr : Nat → AMR_t) :
    (∀ r : Nat, r < MPI_NRank →
      ((Par_Aux_Check_Particle MPI_NRank amr r).PassAll = true ↔
        ∀ t : Nat, t < MPI_NRank → rankOK amr t)) ∧
    (∀ (a : AMR_t) (s : CheckState), (checkRank a s).PassAll = true → s.PassAll = true) ∧
    ((∀ r : Nat, r < MPI_NRank →
        outcome r (Par_Aux_Check_Particle MPI_NRank amr r) = Outcome.PASSED (decide (r = 0))) ∨
      (∀ r : Nat, r < MPI_NRank →
        outcome r (Par_Aux_Check_Particle MPI_NRank amr r) = Outcome.MPI_Exit)) ∧
    (∀ t : Nat, t < MPI_NRank → ¬ rankOK amr t →
      ∀ r : Nat, r < MPI_NRank → (Par_Aux_Check_Particle MPI_NRank amr r).PassAll = false) ∧
    ((∀ t : Nat, t < MPI_NRank → rankOK amr t) →
      ∀ r : Nat, r < MPI_NRank →
        outcome r (Par_Aux_Check_Particle MPI_NRank amr r) = Outcome.PASSED (decide (r = 0))) ∧
    (¬ (∀ t : Nat, t < MPI_NRank → rankOK amr t) →
      ∀ r : Nat, r < MPI_NRank →
        outcome r (Par_Aux_Check_Particle MPI_NRank amr r) = Outcome.MPI_Exit) ∧
    (∀ t : Nat, t < MPI_NRank → ¬ rankOK amr t →
      ∀ r : Nat, r < MPI_NRank →
        outcome r (Par_Aux_Check_Particle MPI_NRank amr r) = Outcome.MPI_Exit) ∧
    (∀ r : Nat, r < 2 →
      outcome r (Par_Aux_Check_Particle 2
        (fun t => if t = 0 then sampleAMR_onEdgeR else sampleAMR) r) = Outcome.MPI_Exit) ∧
    (∀ r : Nat, r < 2 →
      outcome r (Par_Aux_Check_Particle 2
        (fun t => if t = 0 then sampleAMR else sampleAMR_onEdgeR) r) = Outcome.MPI_Exit) ∧
    (∀ r : Nat, r < 2 →
      outcome r (Par_Aux_Check_Particle 2 (fun _ => sampleAMR) r) =
        Outcome.PASSED (decide (r = 0))) := by
  have hall : ∀ (N : Nat) (am : Nat → AMR_t) (r : Nat),
      ((Par_Aux_Check_Particle N am r).PassAll = true ↔
        ∀ t : Nat, t < N → rankOK am t) := fun N am r => (rankLoop_inv am N r).1
  have hpass : ∀ (N : Nat) (am : Nat → AMR_t), (∀ t : Nat, t < N → rankOK am t) →
      ∀ r : Nat, r < N →
        outcome r (Par_Aux_Check_Particle N am r) = Outcome.PASSED (decide (r = 0)) := by
    intro N am hok r _
    unfold outcome
    rw [if_pos ((hall N am r).mpr hok)]
  have hfail : ∀ (N : Nat) (am : Nat → AMR_t), ¬ (∀ t : Nat, t < N → rankOK am t) →
      ∀ r : Nat, r < N → outcome r (Par_Aux_Check_Particle N am r) = Outcome.MPI_Exit := by
    intro N am hok r _
    unfold outcome
    have : ¬ (Par_Aux_Check_Particle N am r).PassAll = true := fun h => hok ((hall N am r).mp h)
    rw [if_neg this]
  have hgood : rankOK (fun _ => sampleAMR) 0 := by unfold rankOK; decide
  have hbad : ¬ rankOK (fun _ => sampleAMR_onEdgeR) 0 := by unfold rankOK; decide
  refine ⟨fun r _ => hall MPI_NRank amr r, ?_, ?_, ?_, hpass MPI_NRank amr, hfail MPI_NRank amr,
    ?_, ?_, ?_, ?_⟩
  · intro a s h
    exact ((checkRank_spec a s).mp h).1
  · by_cases hok : ∀ t : Nat, t < MPI_NRank → rankOK amr t
    · exact Or.inl (hpass MPI_NRank amr hok)
    · exact Or.inr (hfail MPI_NRank amr hok)
  · intro t ht hbad r _
    rw [← Bool.not_eq_true]
    intro h
    exact hbad ((hall MPI_NRank amr r).mp h t ht)
  · intro t ht hbad
    exact hfail MPI_NRank amr (fun h => hbad (h t ht))
  · apply hfail
    intro h
    exact hbad (h 0 (by omega))
  · apply hfail
    intro h
    exact hbad (h 1 (by omega))
  · apply hpass
    intro t _
    exact hgood

end Gamer
